import Mathlib

/-!
# UE5Com — ZeroMQ communication bridge

A shallow embedding of the ZeroMQ bridge of the UE5Com plugin
(`UZeroMQCommunicationSubsystem`, `FZeroMQWorkerThread`,
`FZeroMQReceiverWorker`) and theorems about it.

Conventions of the embedding

* A `void*` is a `Handle` (a natural number); `nullptr` is `0`.
* An `FString` is a `String`; `operator==` on `FString` and the key match of
  `TMap<FString, _>` compare ignoring letter case (`FString.Equals`), as the
  engine's `FCString::Stricmp` does.
* An `int` or `int_T` is an `Int`; the result of an `int` multiplication is
  reduced into the range of 32 bits (`wrapInt32`).
* A `TArray<uint8>` is a `List UInt8`.
* The ZeroMQ library is external.  Every call the code makes to it is appended
  to a chronological call log (`List ZmqCall`), and what the library answers is
  given by a `Zmq` record of functions of the log so far and the arguments, so
  that a theorem quantified over `Zmq` holds for every behaviour of the library.
* A stateful member function takes the object and the call log and returns the
  new object and the new call log.
-/

namespace UE5Com

/-! ## Handles and ZeroMQ constants -/

/-- A `void*`. -/
abbrev Handle := Nat

/-- The null pointer. -/
def nullptr : Handle := 0

/-- Constant `ZMQ_PUB` of `zmq.h` (and of `ZeroMQStub.h`). -/
def ZMQ_PUB : Nat := 1

/-- Constant `ZMQ_SNDMORE` of `zmq.h` (and of `ZeroMQStub.h`). -/
def ZMQ_SNDMORE : Nat := 2

/-- Constant `ZMQ_SUB` of `zmq.h` (and of `ZeroMQStub.h`). -/
def ZMQ_SUB : Nat := 2

/-- Constant `ZMQ_SUBSCRIBE` of `zmq.h` (and of `ZeroMQStub.h`). -/
def ZMQ_SUBSCRIBE : Nat := 6

/-- Constant `ZMQ_LINGER` of `zmq.h`. -/
def ZMQ_LINGER : Nat := 17

/-- Constant `ZMQ_SNDHWM` of `zmq.h`. -/
def ZMQ_SNDHWM : Nat := 23

/-- Constant `ZMQ_RCVTIMEO` of `zmq.h`. -/
def ZMQ_RCVTIMEO : Nat := 27

/-- The value handed to `zmq_setsockopt`: a byte string with its length, or the
`int` the pointer points to. -/
inductive OptVal where
  | bytes (b : List UInt8)
  | int (i : Int)
  deriving DecidableEq, Repr

/-- One call into the ZeroMQ library, with its arguments and its result. -/
inductive ZmqCall where
  | ctx_new (ret : Handle)
  | ctx_term (ctx : Handle)
  | socket (ctx : Handle) (type : Nat) (ret : Handle)
  | close (s : Handle)
  | bind (s : Handle) (addr : String) (ret : Int)
  | connect (s : Handle) (addr : String) (ret : Int)
  | send (s : Handle) (buf : List UInt8) (flags : Nat) (ret : Int)
  | setsockopt (s : Handle) (option : Nat) (value : OptVal) (ret : Int)
  deriving DecidableEq, Repr

/-- The answers of the ZeroMQ library: each is a function of the calls made so
far and of the arguments of the call. -/
structure Zmq where
  zmq_ctx_new : List ZmqCall → Handle
  zmq_socket : List ZmqCall → Handle → Nat → Handle
  zmq_bind : List ZmqCall → Handle → String → Int
  zmq_connect : List ZmqCall → Handle → String → Int
  zmq_send : List ZmqCall → Handle → List UInt8 → Nat → Int
  zmq_setsockopt : List ZmqCall → Handle → Nat → OptVal → Int

/-- The handles passed to `zmq_close` in a call log, in order. -/
def closes (calls : List ZmqCall) : List Handle :=
  calls.filterMap fun c =>
    match c with
    | ZmqCall.close s => some s
    | _ => none

/-- The handles returned by `zmq_socket` in a call log, in order (the null
results of failed creations left out). -/
def created (calls : List ZmqCall) : List Handle :=
  calls.filterMap fun c =>
    match c with
    | ZmqCall.socket _ _ ret => if ret = nullptr then none else some ret
    | _ => none

/-- The frames handed to `zmq_send` in a call log, in order: socket, bytes and
flags of every call, whatever it returned. -/
def sends (calls : List ZmqCall) : List (Handle × List UInt8 × Nat) :=
  calls.filterMap fun c =>
    match c with
    | ZmqCall.send s buf flags _ => some (s, buf, flags)
    | _ => none

/-- The first frames of multipart messages handed to `zmq_send` in a call log:
the calls made with the flag `ZMQ_SNDMORE`, in order. -/
def firstFrames (calls : List ZmqCall) : List (Handle × List UInt8 × Nat) :=
  (sends calls).filter fun f => f.2.2 = ZMQ_SNDMORE

/-! ## `FString` and `TMap<FString, V>` -/

/-- The characters of an `FString` with the letters `A` to `Z` replaced by `a`
to `z`, as `FCString::Stricmp` folds them before it compares. -/
def FString.ToLower (s : String) : List Char :=
  s.data.map Char.toLower

/-- Embedding of `operator==` on `FString` (`FCString::Stricmp(...) == 0`): the
strings are equal up to the case of their letters.  It is also the key match of
`TMap<FString, V>`. -/
def FString.Equals (a b : String) : Bool :=
  decide (FString.ToLower a = FString.ToLower b)

/-- A `TMap<FString, V>`: the entries in insertion order. -/
abbrev TMap (V : Type) := List (String × V)

namespace TMap

variable {V : Type}

/-- Embedding of `TMap::Find`: the value stored under the key, if any. -/
def Find (m : TMap V) (k : String) : Option V :=
  match m with
  | [] => none
  | (k1, v) :: rest => if FString.Equals k1 k then some v else Find rest k

/-- Embedding of `TMap::Contains`. -/
def Contains (m : TMap V) (k : String) : Bool :=
  (Find m k).isSome

/-- Embedding of `TMap::Add`: the value of an existing key is replaced, a new key is added. -/
def Add (m : TMap V) (k : String) (v : V) : TMap V :=
  match m with
  | [] => [(k, v)]
  | (k1, v1) :: rest =>
    if FString.Equals k1 k then (k, v) :: rest else (k1, v1) :: Add rest k v

/-- Embedding of `TMap::Remove`: every entry with the key is removed. -/
def Remove (m : TMap V) (k : String) : TMap V :=
  m.filter fun e => !FString.Equals e.1 k

/-- Embedding of `TMap::Empty`. -/
def Empty (_m : TMap V) : TMap V := []

end TMap

/-! ## The subsystem (`ZeroMQCommunicationSubsystem.h`) -/

/-- The fields of `FZeroMQSettings`. -/
structure FZeroMQSettings where
  ServerIP : String := "127.0.0.1"
  ImagePort : Int := 5555
  AckPort : Int := 5559
  ControlPort : Int := 5556
  bImageBindMode : Bool := false
  bAutoConnect : Bool := true
  deriving DecidableEq, Repr

/-- Holds the ZeroMQ socket of a single camera. -/
structure FCameraConnection where
  Socket : Handle
  deriving DecidableEq, Repr

/-- The fields of `AZeroMQCameraActor` that the subsystem reads. -/
structure AZeroMQCameraActor where
  CameraID : String := "Camera01"
  ImagePort : Int := 5555
  bImageBindMode : Bool := true
  deriving DecidableEq, Repr

/-- The state of an `FZeroMQWorkerThread` object. -/
structure FZeroMQWorkerThread where
  ZMQContext : Handle
  bStopRequested : Bool := false
  bIsRunning : Bool := false
  deriving DecidableEq, Repr

/-- An item of the image queue: `TPair<FString, TArray<uint8>>`. -/
abbrev ImageItem := String × List UInt8

/-- The state of `UZeroMQCommunicationSubsystem`.  `WorkerThread` is `none` for
a null pointer, `Thread` is the handle of the `FRunnableThread`. -/
structure UZeroMQCommunicationSubsystem where
  ZMQContext : Handle := nullptr
  WorkerThread : Option FZeroMQWorkerThread := none
  Thread : Handle := nullptr
  ImageQueue : List ImageItem := []
  CurrentSettings : FZeroMQSettings := {}
  CameraConnections : TMap FCameraConnection := []
  bIsConnected : Bool := false
  deriving DecidableEq, Repr

/-- Address built by `FString::Printf(TEXT("tcp://*:%d"), Port)`. -/
def bindAddress (Port : Int) : String :=
  "tcp://*:" ++ toString Port

/-- Address built by `FString::Printf(TEXT("tcp://%s:%d"), *ServerIP, Port)`. -/
def connectAddress (ServerIP : String) (Port : Int) : String :=
  "tcp://" ++ ServerIP ++ ":" ++ toString Port

namespace UZeroMQCommunicationSubsystem

/-- Embedding of `UZeroMQCommunicationSubsystem::RegisterCamera`.  `CameraActor` is `none`
for a null pointer. -/
def RegisterCamera (zmq : Zmq) (self : UZeroMQCommunicationSubsystem)
    (calls : List ZmqCall) (CameraActor : Option AZeroMQCameraActor) :
    UZeroMQCommunicationSubsystem × List ZmqCall :=
  match CameraActor with
  | none => (self, calls)
  | some actor =>
    if !self.bIsConnected then (self, calls)
    else
      let CameraID := actor.CameraID
      if TMap.Contains self.CameraConnections CameraID then (self, calls)
      else
        let NewSocket := zmq.zmq_socket calls self.ZMQContext ZMQ_PUB
        let calls1 := calls ++ [ZmqCall.socket self.ZMQContext ZMQ_PUB NewSocket]
        if NewSocket = nullptr then (self, calls1)
        else
          let Address :=
            if !actor.bImageBindMode then
              connectAddress self.CurrentSettings.ServerIP actor.ImagePort
            else bindAddress actor.ImagePort
          let Result :=
            if actor.bImageBindMode then zmq.zmq_bind calls1 NewSocket Address
            else zmq.zmq_connect calls1 NewSocket Address
          let calls2 :=
            if actor.bImageBindMode then calls1 ++ [ZmqCall.bind NewSocket Address Result]
            else calls1 ++ [ZmqCall.connect NewSocket Address Result]
          if Result ≠ 0 then (self, calls2 ++ [ZmqCall.close NewSocket])
          else
            ({ self with
                CameraConnections :=
                  TMap.Add self.CameraConnections CameraID { Socket := NewSocket } },
              calls2)

/-- Embedding of `UZeroMQCommunicationSubsystem::UnregisterCamera`. -/
def UnregisterCamera (self : UZeroMQCommunicationSubsystem)
    (calls : List ZmqCall) (CameraID : String) :
    UZeroMQCommunicationSubsystem × List ZmqCall :=
  if !self.bIsConnected then (self, calls)
  else
    match TMap.Find self.CameraConnections CameraID with
    | some Connection =>
      ({ self with CameraConnections := TMap.Remove self.CameraConnections CameraID },
        calls ++ [ZmqCall.close Connection.Socket])
    | none => (self, calls)

/-- Embedding of `UZeroMQCommunicationSubsystem::SendImageViaZeroMQ`. -/
def SendImageViaZeroMQ (self : UZeroMQCommunicationSubsystem)
    (CameraID : String) (ImageData : List UInt8) : UZeroMQCommunicationSubsystem :=
  if !self.bIsConnected then self
  else { self with ImageQueue := self.ImageQueue ++ [(CameraID, ImageData)] }

end UZeroMQCommunicationSubsystem

/-! ## The send worker (`ZeroMQWorkerThread.cpp`) -/

/-- Converter `FTCHARToUTF8`: the UTF-8 bytes of a string (`Get()` with `Length()`). -/
def FTCHARToUTF8 (s : String) : List UInt8 :=
  s.toUTF8.data.toList

/-- What the pointers of an `FZeroMQWorkerThread` point to: the registry and the
image queue of the owning subsystem.  `ImageQueue` is `none` for a null
pointer. -/
structure WorkerShared where
  CameraConnections : TMap FCameraConnection
  ImageQueue : Option (List ImageItem)
  deriving DecidableEq, Repr

namespace FZeroMQWorkerThread

/-- Embedding of `FZeroMQWorkerThread::SendImageMessage`: the return value and the call log
afterwards. -/
def SendImageMessage (zmq : Zmq) (Socket : Handle) (CameraID : String)
    (ImageData : List UInt8) (calls : List ZmqCall) : Bool × List ZmqCall :=
  if Socket = nullptr then (false, calls)
  else
    let r1 := zmq.zmq_send calls Socket (FTCHARToUTF8 CameraID) ZMQ_SNDMORE
    let calls1 := calls ++ [ZmqCall.send Socket (FTCHARToUTF8 CameraID) ZMQ_SNDMORE r1]
    if r1 = -1 then (false, calls1)
    else
      let r2 := zmq.zmq_send calls1 Socket ImageData 0
      let calls2 := calls1 ++ [ZmqCall.send Socket ImageData 0 r2]
      if r2 = -1 then (false, calls2)
      else (true, calls2)

/-- The `while (ImageQueue->Dequeue(ImageData))` loop of `ProcessImageQueue` on
the content of the queue: `Dequeue` takes the head; the loop ends when the
queue is empty.  Returns the queue and the call log at loop exit. -/
def drain (zmq : Zmq) (CameraConnections : TMap FCameraConnection) :
    List ImageItem → List ZmqCall → List ImageItem × List ZmqCall
  | [], calls => ([], calls)
  | ImageData :: rest, calls =>
    match TMap.Find CameraConnections ImageData.1 with
    | some Connection =>
      drain zmq CameraConnections rest
        (SendImageMessage zmq Connection.Socket ImageData.1 ImageData.2 calls).2
    | none => drain zmq CameraConnections rest calls

/-- Embedding of `FZeroMQWorkerThread::ProcessImageQueue`: one drain pass, with no other
thread touching the registry or the queue meanwhile. -/
def ProcessImageQueue (zmq : Zmq) (sh : WorkerShared) (calls : List ZmqCall) :
    WorkerShared × List ZmqCall :=
  match sh.ImageQueue with
  | none => (sh, calls)
  | some q =>
    let r := drain zmq sh.CameraConnections q calls
    ({ sh with ImageQueue := some r.1 }, r.2)

/-- The two frames of the image message for an item on a socket. -/
def imageFrames (Socket : Handle) (item : ImageItem) : List (Handle × List UInt8 × Nat) :=
  [(Socket, FTCHARToUTF8 item.1, ZMQ_SNDMORE), (Socket, item.2, 0)]

/-- The first frame a drain pass has to attempt for an item: the id frame on
the socket registered for the id of the item; none when no socket (or a null
socket) is registered for it. -/
def firstFrameOf (CameraConnections : TMap FCameraConnection) (item : ImageItem) :
    Option (Handle × List UInt8 × Nat) :=
  match TMap.Find CameraConnections item.1 with
  | some Connection =>
    if Connection.Socket = nullptr then none
    else some (Connection.Socket, FTCHARToUTF8 item.1, ZMQ_SNDMORE)
  | none => none

end FZeroMQWorkerThread

/-- The worker's view of a subsystem: `&CameraConnections` and `&ImageQueue`, as
passed to the worker's constructor in `StartConnection`. -/
def UZeroMQCommunicationSubsystem.shared (self : UZeroMQCommunicationSubsystem) :
    WorkerShared :=
  { CameraConnections := self.CameraConnections, ImageQueue := some self.ImageQueue }


/-! ## The command decoder (`ZeroMQReceiverWorker.cpp`)

The engine's JSON classes are external.  `ν` is the type of a `double`; the
decoder only copies such values.  The conversions between text and numbers the
engine's accessors apply are collected in `JsonText`. -/

/-- An `FJsonValue`, by its kind. -/
inductive FJsonValue (ν : Type) where
  | null
  | boolean (b : Bool)
  | number (n : ν)
  | string (s : String)
  | array (xs : List (FJsonValue ν))
  | object (fields : List (String × FJsonValue ν))

/-- An `FJsonObject`: its `Values` map. -/
abbrev FJsonObject (ν : Type) := TMap (FJsonValue ν)

/-- The engine's conversions between text and numbers: `FString::SanitizeFloat`,
`FString::IsNumeric` and `FCString::Atod`. -/
structure JsonText (ν : Type) where
  SanitizeFloat : ν → String
  IsNumeric : String → Bool
  Atod : String → ν

section Json

variable {ν : Type} [Zero ν] [One ν]

/-- Embedding of `FJsonValue::TryGetString`: strings, numbers and booleans convert. -/
def FJsonValue.TryGetString (E : JsonText ν) : FJsonValue ν → Option String
  | FJsonValue.string s => some s
  | FJsonValue.number n => some (E.SanitizeFloat n)
  | FJsonValue.boolean b => some (if b then "true" else "false")
  | _ => none

/-- Embedding of `FJsonValue::TryGetNumber(double&)`: numbers, booleans and numeric strings
convert. -/
def FJsonValue.TryGetNumber (E : JsonText ν) : FJsonValue ν → Option ν
  | FJsonValue.number n => some n
  | FJsonValue.boolean b => some (if b then 1 else 0)
  | FJsonValue.string s => if E.IsNumeric s then some (E.Atod s) else none
  | _ => none

/-- Embedding of `FJsonValue::TryGetObject`: only an object converts. -/
def FJsonValue.TryGetObject : FJsonValue ν → Option (FJsonObject ν)
  | FJsonValue.object fields => some fields
  | _ => none

/-- Embedding of `FJsonObject::TryGetStringField(Name, Out)`: the return value and the value
of the out-parameter afterwards (untouched on failure). -/
def FJsonObject.TryGetStringField (E : JsonText ν) (obj : FJsonObject ν)
    (FieldName : String) (Out : String) : Bool × String :=
  match (TMap.Find obj FieldName).bind (FJsonValue.TryGetString E) with
  | some s => (true, s)
  | none => (false, Out)

/-- Embedding of `FJsonObject::TryGetNumberField(Name, Out)`: the return value and the value
of the out-parameter afterwards (untouched on failure). -/
def FJsonObject.TryGetNumberField (E : JsonText ν) (obj : FJsonObject ν)
    (FieldName : String) (Out : ν) : Bool × ν :=
  match (TMap.Find obj FieldName).bind (FJsonValue.TryGetNumber E) with
  | some n => (true, n)
  | none => (false, Out)

/-- Embedding of `FJsonObject::TryGetObjectField(Name, Out)`: the object on success. -/
def FJsonObject.TryGetObjectField (obj : FJsonObject ν) (FieldName : String) :
    Option (FJsonObject ν) :=
  (TMap.Find obj FieldName).bind FJsonValue.TryGetObject

end Json

/-- An `FVector` (double components in this engine version). -/
structure FVector (ν : Type) where
  X : ν
  Y : ν
  Z : ν
  deriving DecidableEq, Repr

/-- An `FRotator`; the constructor takes pitch, yaw, roll in this order. -/
structure FRotator (ν : Type) where
  Pitch : ν
  Yaw : ν
  Roll : ν
  deriving DecidableEq, Repr

/-- Constant `FVector::ZeroVector`. -/
def FVector.ZeroVector {ν : Type} [Zero ν] : FVector ν := ⟨0, 0, 0⟩

/-- Constant `FRotator::ZeroRotator`. -/
def FRotator.ZeroRotator {ν : Type} [Zero ν] : FRotator ν := ⟨0, 0, 0⟩

/-- Structure `FCameraTransform` (the decoded pose command). -/
structure FCameraTransform (ν : Type) where
  Location : FVector ν
  Rotation : FRotator ν
  CameraID : String
  deriving DecidableEq, Repr

/-- A default-constructed `FCameraTransform`. -/
def FCameraTransform.default {ν : Type} [Zero ν] : FCameraTransform ν :=
  { Location := FVector.ZeroVector, Rotation := FRotator.ZeroRotator, CameraID := "" }

/-- The values the locals `double X, Y, Z;` and `double Pitch, Yaw, Roll;` of
`FZeroMQReceiverWorker::Run` hold before `TryGetNumberField` is called on them:
they are declared without an initialiser. -/
structure Indeterminate (ν : Type) where
  X : ν
  Y : ν
  Z : ν
  Pitch : ν
  Yaw : ν
  Roll : ν

namespace FZeroMQReceiverWorker

variable {ν : Type} [Zero ν] [One ν]

/-- The decoding part of `FZeroMQReceiverWorker::Run`, from the type check of a
deserialised document to the transform that is enqueued: `none` when nothing is
enqueued, `some Transform` when `MessageQueue->Enqueue(Transform)` is reached. -/
def DecodeTransform (E : JsonText ν) (u : Indeterminate ν) (JsonObject : FJsonObject ν) :
    Option (FCameraTransform ν) :=
  let rType := FJsonObject.TryGetStringField E JsonObject "type" ""
  if rType.1 && (FString.Equals rType.2 "camera_transform" ||
      FString.Equals rType.2 "actor_transform") then
    let Transform : FCameraTransform ν := FCameraTransform.default
    let rTarget := FJsonObject.TryGetStringField E JsonObject "target_id" Transform.CameraID
    let CameraID :=
      if !rTarget.1 then (FJsonObject.TryGetStringField E JsonObject "camera_id" rTarget.2).2
      else rTarget.2
    let Location :=
      match FJsonObject.TryGetObjectField JsonObject "location" with
      | some LocationObj =>
        let X := (FJsonObject.TryGetNumberField E LocationObj "x" u.X).2
        let Y := (FJsonObject.TryGetNumberField E LocationObj "y" u.Y).2
        let Z := (FJsonObject.TryGetNumberField E LocationObj "z" u.Z).2
        FVector.mk X Y Z
      | none => Transform.Location
    let Rotation :=
      match FJsonObject.TryGetObjectField JsonObject "rotation" with
      | some RotationObj =>
        let Pitch := (FJsonObject.TryGetNumberField E RotationObj "pitch" u.Pitch).2
        let Yaw := (FJsonObject.TryGetNumberField E RotationObj "yaw" u.Yaw).2
        let Roll := (FJsonObject.TryGetNumberField E RotationObj "roll" u.Roll).2
        FRotator.mk Pitch Yaw Roll
      | none => Transform.Rotation
    some { Location := Location, Rotation := Rotation, CameraID := CameraID }
  else none

/-- Whether an object has a value that converts to a number under every one of
the given keys. -/
def hasNumbers (E : JsonText ν) (obj : FJsonObject ν) (keys : List String) : Bool :=
  keys.all fun k => ((TMap.Find obj k).bind (FJsonValue.TryGetNumber E)).isSome

/-- Whether the decoder reads none of its uninitialised locals on a document:
the `location` object, when there is one, has numbers under `x`, `y`, `z`, and
the `rotation` object, when there is one, under `pitch`, `yaw`, `roll`. -/
def complete (E : JsonText ν) (JsonObject : FJsonObject ν) : Bool :=
  (match FJsonObject.TryGetObjectField JsonObject "location" with
    | some LocationObj => hasNumbers E LocationObj ["x", "y", "z"]
    | none => true) &&
  (match FJsonObject.TryGetObjectField JsonObject "rotation" with
    | some RotationObj => hasNumbers E RotationObj ["pitch", "yaw", "roll"]
    | none => true)

end FZeroMQReceiverWorker

/-! ## The receive loop of the command subscriber and the drain call -/

/-- The engine's text reader: `UTF8_TO_TCHAR` on the bytes of a C string, and
`FJsonSerializer::Deserialize` on the resulting string, giving the root object
when the call returns true and the object is valid, `none` otherwise. -/
structure JsonReader (ν : Type) where
  UTF8_TO_TCHAR : List UInt8 → String
  Deserialize : String → Option (FJsonObject ν)

/-- The bytes of the C string that starts at the beginning of a buffer: all
bytes before the first zero byte. -/
def cString (buffer : List UInt8) : List UInt8 :=
  buffer.takeWhile fun b => b ≠ 0

namespace FZeroMQReceiverWorker

variable {ν : Type} [Zero ν] [One ν]

/-- The condition under which `FZeroMQReceiverWorker::Run` decodes and enqueues
a deserialised document: `TryGetStringField("type", Type)` succeeds and `Type` is
`"camera_transform"` or `"actor_transform"`. -/
def accepts (E : JsonText ν) (JsonObject : FJsonObject ν) : Bool :=
  (FJsonObject.TryGetStringField E JsonObject "type" "").1 &&
    (FString.Equals (FJsonObject.TryGetStringField E JsonObject "type" "").2
        "camera_transform" ||
      FString.Equals (FJsonObject.TryGetStringField E JsonObject "type" "").2
        "actor_transform")

/-- The part of `FZeroMQReceiverWorker::Run` after `Deserialize`: the message
queue afterwards.  `Deserialized` is `none` when `Deserialize` fails or the root
object is not valid. -/
def ProcessDocument (E : JsonText ν) (u : Indeterminate ν)
    (Deserialized : Option (FJsonObject ν)) (MessageQueue : List (FCameraTransform ν)) :
    List (FCameraTransform ν) :=
  match Deserialized with
  | some JsonObject =>
    match DecodeTransform E u JsonObject with
    | some Transform => MessageQueue ++ [Transform]
    | none => MessageQueue
  | none => MessageQueue

/-- One iteration of the loop of `FZeroMQReceiverWorker::Run`.  `received` is
what `zmq_recv(SubscriberSocket, buffer, sizeof(buffer) - 1, ZMQ_DONTWAIT)` does:
`none` when it returns `-1`, `some msg` when it delivers the message `msg`, in
which case it returns the length of `msg` (also when that exceeds the `1023`
bytes asked for) and stores the first `1023` bytes of `msg` in `buffer`.  The
result is the message queue after the iteration; it is `none` when
`buffer[size] = 0` writes outside `char buffer[1024]` (undefined behaviour). -/
def RunIteration (E : JsonText ν) (R : JsonReader ν) (u : Indeterminate ν)
    (received : Option (List UInt8)) (MessageQueue : List (FCameraTransform ν)) :
    Option (List (FCameraTransform ν)) :=
  match received with
  | none => some MessageQueue
  | some msg =>
    let size : Int := msg.length
    if size > 0 then
      if size < 1024 then
        let JsonString := R.UTF8_TO_TCHAR (cString msg)
        some (ProcessDocument E u (R.Deserialize JsonString) MessageQueue)
      else none
    else some MessageQueue

end FZeroMQReceiverWorker

/-- The state of an `FZeroMQReceiverWorker` object. -/
structure FZeroMQReceiverWorker where
  ZMQContext : Handle
  SubscriberSocket : Handle := nullptr
  ServerIP : String
  Port : Int
  bShouldStop : Bool := false
  deriving DecidableEq, Repr

/-- A call on a worker object or on its `FRunnableThread`. -/
inductive ThreadCall where
  | Create (ret : Handle)
  | RequestStop
  | WaitForCompletion (thread : Handle)
  | DeleteThread (thread : Handle)
  | DeleteWorker
  deriving DecidableEq, Repr

/-- The state of `UZeroMQReceiverComponent`.  `Worker` is `none` for a null
pointer; `ProcessMessagesTimer` tells whether the timer is set. -/
structure UZeroMQReceiverComponent (ν : Type) where
  ServerIP : String := "127.0.0.1"
  Port : Int := 5556
  ZMQContext : Handle := nullptr
  SubscriberSocket : Handle := nullptr
  Worker : Option FZeroMQReceiverWorker := none
  Thread : Handle := nullptr
  MessageQueue : List (FCameraTransform ν) := []
  ProcessMessagesTimer : Bool := false

/-- The loop `while (MessageQueue.Dequeue(Transform)) Broadcast(Transform)` of
`UZeroMQReceiverComponent::ProcessMessages` and of
`AZeroMQControlledActor::ProcessMessages`, on the content of the queue: the
queue at loop exit and the transforms broadcast so far, in order. -/
def broadcastLoop {ν : Type} :
    List (FCameraTransform ν) → List (FCameraTransform ν) →
      List (FCameraTransform ν) × List (FCameraTransform ν)
  | [], broadcasts => ([], broadcasts)
  | Transform :: rest, broadcasts => broadcastLoop rest (broadcasts ++ [Transform])

namespace UZeroMQReceiverComponent

variable {ν : Type}

/-- Embedding of `UZeroMQReceiverComponent::ProcessMessages`: the component and
the list of broadcast transforms afterwards. -/
def ProcessMessages (self : UZeroMQReceiverComponent ν)
    (broadcasts : List (FCameraTransform ν)) :
    UZeroMQReceiverComponent ν × List (FCameraTransform ν) :=
  ({ self with MessageQueue := (broadcastLoop self.MessageQueue broadcasts).1 },
    (broadcastLoop self.MessageQueue broadcasts).2)

/-- Embedding of `UZeroMQReceiverComponent::StopConnection`.  `hasWorld` tells
whether `GetWorld()` is non-null.  `late` are the transforms the worker still
enqueues before its thread ends; when the thread ends the worker's `Exit` closes
its subscriber socket. -/
def StopConnection (hasWorld : Bool) (late : List (FCameraTransform ν))
    (self : UZeroMQReceiverComponent ν) (calls : List ZmqCall)
    (threads : List ThreadCall) :
    UZeroMQReceiverComponent ν × List ZmqCall × List ThreadCall :=
  let timer := if hasWorld then false else self.ProcessMessagesTimer
  let threads1 := if self.Worker.isSome then threads ++ [ThreadCall.RequestStop] else threads
  let queue1 := if self.Thread ≠ nullptr then self.MessageQueue ++ late else self.MessageQueue
  let calls1 :=
    if self.Thread ≠ nullptr then
      match self.Worker with
      | some worker =>
        if worker.SubscriberSocket ≠ nullptr then
          calls ++ [ZmqCall.close worker.SubscriberSocket]
        else calls
      | none => calls
    else calls
  let threads2 :=
    if self.Thread ≠ nullptr then
      threads1 ++ [ThreadCall.WaitForCompletion self.Thread, ThreadCall.DeleteThread self.Thread]
    else threads1
  let threads3 := if self.Worker.isSome then threads2 ++ [ThreadCall.DeleteWorker] else threads2
  let calls2 :=
    if self.ZMQContext ≠ nullptr then calls1 ++ [ZmqCall.ctx_term self.ZMQContext] else calls1
  ({ self with
      ProcessMessagesTimer := timer, MessageQueue := queue1, Thread := nullptr,
      Worker := none, ZMQContext := nullptr },
    calls2, threads3)

end UZeroMQReceiverComponent

/-! ## Start and stop of the subsystem -/

/-- The subsystem with the two logs: the calls made to the ZeroMQ library and the
calls made on the worker and its thread. -/
structure World where
  sub : UZeroMQCommunicationSubsystem
  calls : List ZmqCall
  threads : List ThreadCall
  deriving DecidableEq, Repr

/-- The stopped state of the subsystem, as left by `Initialize` before it
connects: not connected, no context, no worker, no thread, empty registry. -/
def IsStopped (s : UZeroMQCommunicationSubsystem) : Prop :=
  s.bIsConnected = false ∧ s.ZMQContext = nullptr ∧ s.WorkerThread = none ∧
    s.Thread = nullptr ∧ s.CameraConnections = []

/-- The running state of the subsystem, as left by a successful
`StartConnection`: connected, with a context, a worker and a thread. -/
def IsRunning (s : UZeroMQCommunicationSubsystem) : Prop :=
  s.bIsConnected = true ∧ s.ZMQContext ≠ nullptr ∧ s.WorkerThread.isSome = true ∧
    s.Thread ≠ nullptr

namespace UZeroMQCommunicationSubsystem

/-- Embedding of `UZeroMQCommunicationSubsystem::InitializeZeroMQ`: the return
value, the subsystem and the call log afterwards. -/
def InitializeZeroMQ (zmq : Zmq) (self : UZeroMQCommunicationSubsystem)
    (calls : List ZmqCall) : Bool × UZeroMQCommunicationSubsystem × List ZmqCall :=
  let ctx := zmq.zmq_ctx_new calls
  if ctx = nullptr then
    (false, { self with ZMQContext := ctx }, calls ++ [ZmqCall.ctx_new ctx])
  else (true, { self with ZMQContext := ctx }, calls ++ [ZmqCall.ctx_new ctx])

/-- Embedding of `UZeroMQCommunicationSubsystem::ShutdownZeroMQ`: every socket of
the registry is closed, in the iteration order of the map, the map is emptied,
and then the context, when there is one, is terminated. -/
def ShutdownZeroMQ (self : UZeroMQCommunicationSubsystem) (calls : List ZmqCall) :
    UZeroMQCommunicationSubsystem × List ZmqCall :=
  let calls1 := calls ++ self.CameraConnections.map fun Elem => ZmqCall.close Elem.2.Socket
  let self1 := { self with CameraConnections := TMap.Empty self.CameraConnections }
  if self1.ZMQContext ≠ nullptr then
    ({ self1 with ZMQContext := nullptr }, calls1 ++ [ZmqCall.ctx_term self1.ZMQContext])
  else (self1, calls1)

/-- Embedding of `UZeroMQCommunicationSubsystem::StartConnection`.  `NewThread`
is what `FRunnableThread::Create` returns when it is called; when it returns a
thread, the worker's `Init` has run on it and has set `bIsRunning`. -/
def StartConnection (zmq : Zmq) (NewThread : Handle) (w : World) : World :=
  if w.sub.bIsConnected then w
  else
    let r := InitializeZeroMQ zmq w.sub w.calls
    if !r.1 then { w with sub := r.2.1, calls := r.2.2 }
    else
      let self1 : UZeroMQCommunicationSubsystem :=
        { r.2.1 with WorkerThread := some { ZMQContext := r.2.1.ZMQContext } }
      let self2 : UZeroMQCommunicationSubsystem := { self1 with Thread := NewThread }
      let threads1 := w.threads ++ [ThreadCall.Create NewThread]
      if self2.Thread = nullptr then
        let self3 : UZeroMQCommunicationSubsystem := { self2 with WorkerThread := none }
        let sd := ShutdownZeroMQ self3 r.2.2
        { sub := sd.1, calls := sd.2, threads := threads1 ++ [ThreadCall.DeleteWorker] }
      else
        { sub :=
            { self2 with
              WorkerThread := some { ZMQContext := r.2.1.ZMQContext, bIsRunning := true },
              bIsConnected := true },
          calls := r.2.2, threads := threads1 }

/-- Embedding of `UZeroMQCommunicationSubsystem::StopConnection`.  When there is
a thread, `WaitForCompletion` returns once the worker, whose stop was requested,
has left its loop; `lastPass` tells whether the worker still completes a pass of
`ProcessImageQueue` before it leaves (it was inside a pass, or had tested the
stop flag just before it was set) or leaves without one. -/
def StopConnection (zmq : Zmq) (lastPass : Bool) (w : World) : World :=
  if !w.sub.bIsConnected then w
  else
    let threads1 :=
      if w.sub.WorkerThread.isSome then w.threads ++ [ThreadCall.RequestStop] else w.threads
    let pass :=
      if w.sub.Thread ≠ nullptr ∧ lastPass = true then
        FZeroMQWorkerThread.ProcessImageQueue zmq w.sub.shared w.calls
      else (w.sub.shared, w.calls)
    let queue1 :=
      match pass.1.ImageQueue with
      | some q => q
      | none => w.sub.ImageQueue
    let threads2 :=
      if w.sub.Thread ≠ nullptr then
        threads1 ++
          [ThreadCall.WaitForCompletion w.sub.Thread, ThreadCall.DeleteThread w.sub.Thread]
      else threads1
    let threads3 :=
      if w.sub.WorkerThread.isSome then threads2 ++ [ThreadCall.DeleteWorker] else threads2
    let self1 : UZeroMQCommunicationSubsystem :=
      { w.sub with ImageQueue := queue1, Thread := nullptr, WorkerThread := none }
    let sd := ShutdownZeroMQ self1 pass.2
    { sub := { sd.1 with bIsConnected := false }, calls := sd.2, threads := threads3 }

end UZeroMQCommunicationSubsystem

/-! ## Sequences of façade operations and the order of context and socket calls -/

/-- A call of a façade operation of the subsystem, with what the environment
decides during the call, or a drain pass of the worker between two such calls. -/
inductive Op where
  | StartConnection (NewThread : Handle)
  | RegisterCamera (CameraActor : Option AZeroMQCameraActor)
  | UnregisterCamera (CameraID : String)
  | SendImageViaZeroMQ (CameraID : String) (ImageData : List UInt8)
  | WorkerPass
  | StopConnection (lastPass : Bool)

/-- The effect of one façade operation; a drain pass of the worker takes place
when the worker's thread exists. -/
def step (zmq : Zmq) (w : World) : Op → World
  | Op.StartConnection NewThread => UZeroMQCommunicationSubsystem.StartConnection zmq NewThread w
  | Op.RegisterCamera CameraActor =>
    { w with
      sub := (UZeroMQCommunicationSubsystem.RegisterCamera zmq w.sub w.calls CameraActor).1,
      calls := (UZeroMQCommunicationSubsystem.RegisterCamera zmq w.sub w.calls CameraActor).2 }
  | Op.UnregisterCamera CameraID =>
    { w with
      sub := (UZeroMQCommunicationSubsystem.UnregisterCamera w.sub w.calls CameraID).1,
      calls := (UZeroMQCommunicationSubsystem.UnregisterCamera w.sub w.calls CameraID).2 }
  | Op.SendImageViaZeroMQ CameraID ImageData =>
    { w with sub := UZeroMQCommunicationSubsystem.SendImageViaZeroMQ w.sub CameraID ImageData }
  | Op.WorkerPass =>
    if w.sub.Thread ≠ nullptr then
      { w with
        sub :=
          { w.sub with
            ImageQueue :=
              match (FZeroMQWorkerThread.ProcessImageQueue zmq w.sub.shared
                w.calls).1.ImageQueue with
              | some q => q
              | none => w.sub.ImageQueue },
        calls :=
          (FZeroMQWorkerThread.ProcessImageQueue zmq w.sub.shared w.calls).2 }
    else w
  | Op.StopConnection lastPass => UZeroMQCommunicationSubsystem.StopConnection zmq lastPass w

/-- The effect of a sequence of façade operations. -/
def run (zmq : Zmq) (w : World) (ops : List Op) : World :=
  ops.foldl (step zmq) w

/-- What a call log says about contexts and sockets at some point: the contexts
created and not terminated, and the sockets created and not closed, each with
the context it was created from. -/
structure Track where
  live : List Handle
  opened : List (Handle × Handle)
  deriving DecidableEq, Repr

/-- The effect of one library call on the `Track`; `none` when the call breaks
the order the library requires: `zmq_ctx_term` on a context that still has an
open socket, or a socket created from a context that is not live. -/
def trackCall (t : Track) : ZmqCall → Option Track
  | ZmqCall.ctx_new ret =>
    if ret = nullptr then some t else some { t with live := ret :: t.live }
  | ZmqCall.ctx_term ctx =>
    if t.opened.any (fun e => e.2 = ctx) then none
    else some { t with live := t.live.erase ctx }
  | ZmqCall.socket ctx _ ret =>
    if ret = nullptr then some t
    else if ctx ∈ t.live then some { t with opened := (ret, ctx) :: t.opened }
    else none
  | ZmqCall.close s => some { t with opened := t.opened.eraseP fun e => e.1 = s }
  | _ => some t

/-- The `Track` at the end of a call log; `none` when some call of the log
breaks the order. -/
def trackLog (t : Track) : List ZmqCall → Option Track
  | [] => some t
  | c :: rest =>
    match trackCall t c with
    | some t1 => trackLog t1 rest
    | none => none

/-- Whether a call log, from a start with no context and no socket, keeps the
order: no context is terminated while one of its sockets is open, and no socket
is created from a context that is not live. -/
def contextOutlivesSockets (calls : List ZmqCall) : Bool :=
  (trackLog { live := [], opened := [] } calls).isSome

/-- The invariant of the subsystem with its call log under the façade
operations.  The log keeps the order; the live contexts are the context of the
subsystem when it is connected and none otherwise; the open sockets are, up to
order, the sockets of the registry, all created from the context of the
subsystem; the keys of the registry are distinct, also when the case of their
letters is ignored; a connected subsystem is
running and one that is not connected is stopped. -/
def Inv (w : World) : Prop :=
  ∃ L : List Handle,
    trackLog { live := [], opened := [] } w.calls =
      some { live := if w.sub.bIsConnected = true then [w.sub.ZMQContext] else [],
             opened := L.map fun h => (h, w.sub.ZMQContext) } ∧
    L.Perm (w.sub.CameraConnections.map fun Elem => Elem.2.Socket) ∧
    (w.sub.CameraConnections.map fun Elem => FString.ToLower Elem.1).Nodup ∧
    (w.sub.bIsConnected = true → IsRunning w.sub) ∧
    (w.sub.bIsConnected = false → IsStopped w.sub)

/-! ## Initialisation of the command subscriber, the receive buffer, the
controlled actors and the decoder of the HTTP path -/

/-- Embedding of `FZeroMQReceiverWorker::Init`: the return value, the worker and
the call log afterwards. -/
def FZeroMQReceiverWorker.Init (zmq : Zmq) (self : FZeroMQReceiverWorker)
    (calls : List ZmqCall) : Bool × FZeroMQReceiverWorker × List ZmqCall :=
  if self.ZMQContext = nullptr then (false, self, calls)
  else
    let NewSocket := zmq.zmq_socket calls self.ZMQContext ZMQ_SUB
    let calls1 := calls ++ [ZmqCall.socket self.ZMQContext ZMQ_SUB NewSocket]
    if NewSocket = nullptr then (false, { self with SubscriberSocket := NewSocket }, calls1)
    else
      let r1 := zmq.zmq_setsockopt calls1 NewSocket ZMQ_SUBSCRIBE (OptVal.bytes [])
      let calls2 := calls1 ++ [ZmqCall.setsockopt NewSocket ZMQ_SUBSCRIBE (OptVal.bytes []) r1]
      if r1 ≠ 0 then
        (false, { self with SubscriberSocket := nullptr }, calls2 ++ [ZmqCall.close NewSocket])
      else
        let Address := connectAddress self.ServerIP self.Port
        let r2 := zmq.zmq_connect calls2 NewSocket Address
        let calls3 := calls2 ++ [ZmqCall.connect NewSocket Address r2]
        if r2 ≠ 0 then
          (false, { self with SubscriberSocket := nullptr },
            calls3 ++ [ZmqCall.close NewSocket])
        else (true, { self with SubscriberSocket := NewSocket }, calls3)

/-- The index at which the loop of `FZeroMQReceiverWorker::Run` executes
`buffer[size] = 0` for what `zmq_recv` does (see `RunIteration`): the value of
`size`, when `size > 0`; `none` when the statement is not executed. -/
def FZeroMQReceiverWorker.terminatorIndex (received : Option (List UInt8)) : Option Int :=
  match received with
  | none => none
  | some msg =>
    let size : Int := msg.length
    if size > 0 then some size else none

/-- The size of `char buffer[1024]` in `FZeroMQReceiverWorker::Run`. -/
def FZeroMQReceiverWorker.bufferSize : Int := 1024

/-- The location and rotation of an actor, as `SetActorLocation` and
`SetActorRotation` leave them and `GetActorLocation` and `GetActorRotation`
return them. -/
structure ActorPose (ν : Type) where
  Location : FVector ν
  Rotation : FRotator ν
  deriving DecidableEq, Repr

/-- The fields of `AZeroMQControlledActor` set in the editor. -/
structure AZeroMQControlledActor where
  ActorID : String := "Actor01"
  ServerIP : String := "127.0.0.1"
  Port : Int := 5556
  deriving DecidableEq, Repr

/-- Embedding of `AZeroMQControlledActor::SetActorTransformFromData`. -/
def AZeroMQControlledActor.SetActorTransformFromData {ν : Type}
    (_self : AZeroMQControlledActor) (_pose : ActorPose ν) (Transform : FCameraTransform ν) :
    ActorPose ν :=
  { Location := Transform.Location, Rotation := Transform.Rotation }

/-- Embedding of `AZeroMQControlledActor::OnTransformReceived`: the pose of the
actor afterwards (`IsEmpty()` is equality with the empty string). -/
def AZeroMQControlledActor.OnTransformReceived {ν : Type} (self : AZeroMQControlledActor)
    (pose : ActorPose ν) (Transform : FCameraTransform ν) : ActorPose ν :=
  if FString.Equals Transform.CameraID self.ActorID = true ∨ Transform.CameraID = "" then
    AZeroMQControlledActor.SetActorTransformFromData self pose Transform
  else pose

/-- Embedding of `AZeroMQCameraActor::SetCameraTransform`: the pose of the actor
afterwards. -/
def AZeroMQCameraActor.SetCameraTransform {ν : Type} (self : AZeroMQCameraActor)
    (pose : ActorPose ν) (Transform : FCameraTransform ν) : ActorPose ν :=
  if FString.Equals Transform.CameraID self.CameraID = true ∨ Transform.CameraID = "" then
    { Location := Transform.Location, Rotation := Transform.Rotation }
  else pose

/-- Embedding of `AZeroMQCameraActor::OnTransformReceived`: the pose of the
actor afterwards. -/
def AZeroMQCameraActor.OnTransformReceived {ν : Type} (self : AZeroMQCameraActor)
    (pose : ActorPose ν) (Transform : FCameraTransform ν) : ActorPose ν :=
  if FString.Equals Transform.CameraID self.CameraID = true ∨ Transform.CameraID = "" then
    AZeroMQCameraActor.SetCameraTransform self pose Transform
  else pose

/-- The transform that `UZeroMQCommunicationSubsystem::OnCommandReceived` (the
HTTP path) decodes from a deserialised document; `none` when the type is not
`"camera_transform"`.  Its locals are declared `double X = 0, Y = 0, Z = 0;` and
`double Pitch = 0, Yaw = 0, Roll = 0;`. -/
def UZeroMQCommunicationSubsystem.OnCommandReceived {ν : Type} [Zero ν] [One ν]
    (E : JsonText ν) (JsonObject : FJsonObject ν) : Option (FCameraTransform ν) :=
  let rType := FJsonObject.TryGetStringField E JsonObject "type" ""
  if rType.1 && FString.Equals rType.2 "camera_transform" then
    let Transform : FCameraTransform ν := FCameraTransform.default
    let CameraID :=
      (FJsonObject.TryGetStringField E JsonObject "camera_id" Transform.CameraID).2
    let Location :=
      match FJsonObject.TryGetObjectField JsonObject "location" with
      | some LocationObj =>
        let X := (FJsonObject.TryGetNumberField E LocationObj "x" 0).2
        let Y := (FJsonObject.TryGetNumberField E LocationObj "y" 0).2
        let Z := (FJsonObject.TryGetNumberField E LocationObj "z" 0).2
        FVector.mk X Y Z
      | none => Transform.Location
    let Rotation :=
      match FJsonObject.TryGetObjectField JsonObject "rotation" with
      | some RotationObj =>
        let Pitch := (FJsonObject.TryGetNumberField E RotationObj "pitch" 0).2
        let Yaw := (FJsonObject.TryGetNumberField E RotationObj "yaw" 0).2
        let Roll := (FJsonObject.TryGetNumberField E RotationObj "roll" 0).2
        FRotator.mk Pitch Yaw Roll
      | none => Transform.Rotation
    some { Location := Location, Rotation := Rotation, CameraID := CameraID }
  else none

/-! ## The image subscribers (`sfun_zeromq_image.cpp`, `mex_zeromq_handler.cpp`) -/

/-- The value of an `int` (or `int_T`) expression whose mathematical value is
`n`: `n` reduced into the 32 bits of the type, in two's complement. -/
def wrapInt32 (n : Int) : Int :=
  (n + 2147483648) % 4294967296 - 2147483648

/-- The conversion of an `int` to `size_t` (64 bits). -/
def toSizeT (n : Int) : Nat :=
  (n % 18446744073709551616).toNat

/-- What `stbi_load_from_memory` returns for an image it decodes: the values it
stores in `int x, y, n` (width, height, channels in the file) and the pixel
buffer, which holds `x * y * desired_channels` bytes, or `x * y * n` bytes when
`desired_channels` is `0`. -/
structure StbImage where
  x : Int
  y : Int
  n : Int
  data : List UInt8
  deriving DecidableEq, Repr

/-- The image codec `stbi_load_from_memory(buffer, len, &x, &y, &n, desired_channels)`
as a function of the buffer and of `desired_channels`; `none` for a null result. -/
abbrev StbDecoder := List UInt8 → Int → Option StbImage

/-- Result of `memcpy(dst, src, n)` on the destination: its first `n` bytes are
replaced by the first `n` bytes of the source. -/
def memcpy (dst src : List UInt8) (n : Nat) : List UInt8 :=
  src.take n ++ dst.drop n

/-- What one call of an image subscriber receives: the result of the two calls of
`zmq_msg_recv`, for the topic frame and for the data frame (`none` for `-1`). -/
abbrev ImageInput := Option (List UInt8) × Option (List UInt8)

namespace sfun_zeromq_image

/-- The pointer work vector of the block: context, socket and last frame (`none`
for a null pointer). -/
structure PWork where
  ctx : Handle := nullptr
  socket : Handle := nullptr
  last_frame : Option (List UInt8) := none
  deriving DecidableEq, Repr

/-- The width of the output port set in `mdlInitializeSizes`: the `int_T`
product `h * w * c`. -/
def outputPortWidth (h w c : Int) : Int :=
  wrapInt32 (wrapInt32 (h * w) * c)

/-- Embedding of `mdlStart` of `sfun_zeromq_image`: the work vector, the call
log and whether an error status was set.  `calloc_ok` tells whether `calloc`
returns a buffer. -/
def mdlStart (zmq : Zmq) (calloc_ok : Bool) (address : String) (cam_id : List UInt8)
    (timeout_ms : Int) (bind_mode : Bool) (out_width : Int) (pw : PWork)
    (calls : List ZmqCall) : PWork × List ZmqCall × Bool :=
  let context := zmq.zmq_ctx_new calls
  let calls1 := calls ++ [ZmqCall.ctx_new context]
  if context = nullptr then (pw, calls1, true)
  else
    let socket := zmq.zmq_socket calls1 context ZMQ_SUB
    let calls2 := calls1 ++ [ZmqCall.socket context ZMQ_SUB socket]
    if socket = nullptr then (pw, calls2 ++ [ZmqCall.ctx_term context], true)
    else
      let r1 := zmq.zmq_setsockopt calls2 socket ZMQ_SUBSCRIBE (OptVal.bytes cam_id)
      let calls3 := calls2 ++ [ZmqCall.setsockopt socket ZMQ_SUBSCRIBE (OptVal.bytes cam_id) r1]
      let r2 := zmq.zmq_setsockopt calls3 socket ZMQ_RCVTIMEO (OptVal.int timeout_ms)
      let calls4 :=
        calls3 ++ [ZmqCall.setsockopt socket ZMQ_RCVTIMEO (OptVal.int timeout_ms) r2]
      let r3 :=
        if bind_mode then zmq.zmq_bind calls4 socket address
        else zmq.zmq_connect calls4 socket address
      let calls5 :=
        if bind_mode then calls4 ++ [ZmqCall.bind socket address r3]
        else calls4 ++ [ZmqCall.connect socket address r3]
      if r3 ≠ 0 then
        (pw, calls5 ++ [ZmqCall.close socket, ZmqCall.ctx_term context], true)
      else
        ({ ctx := context, socket := socket,
           last_frame :=
             if calloc_ok then some (List.replicate (toSizeT out_width) 0) else none },
          calls5, false)

/-- Embedding of `mdlOutputs` of `sfun_zeromq_image`: the output signal `y` and
the work vector afterwards.  `topic` and `data` are what the two calls of
`zmq_msg_recv` deliver (`none` for `-1`).  The result is `none` when `memcpy`
reads from a null `last_frame`. -/
def mdlOutputs (stbi : StbDecoder) (desired_channels out_width : Int)
    (topic data : Option (List UInt8)) (pw : PWork) (y : List UInt8) :
    Option (List UInt8 × PWork) :=
  match pw.last_frame with
  | none => none
  | some last_frame =>
    if pw.socket = nullptr then some (memcpy y last_frame (toSizeT out_width), pw)
    else
      match topic with
      | none => some (memcpy y last_frame (toSizeT out_width), pw)
      | some _ =>
        match data with
        | none => some (memcpy y last_frame (toSizeT out_width), pw)
        | some data_msg =>
          match stbi data_msg desired_channels with
          | none => some (memcpy y last_frame (toSizeT out_width), pw)
          | some decoded =>
            let decoded_size :=
              toSizeT (wrapInt32 (wrapInt32 (decoded.x * decoded.y) * desired_channels))
            if decoded_size = toSizeT out_width then
              some (memcpy y decoded.data decoded_size,
                { pw with last_frame := some (memcpy last_frame decoded.data decoded_size) })
            else some (memcpy y last_frame (toSizeT out_width), pw)

/-- Successive calls of `mdlOutputs`, one per input, on the same work vector and
the same output signal: the output signal and the work vector after the last
call; `none` when a call has no defined result. -/
def mdlOutputsAll (stbi : StbDecoder) (desired_channels out_width : Int) :
    List ImageInput → PWork → List UInt8 → Option (List UInt8 × PWork)
  | [], pw, y => some (y, pw)
  | input :: rest, pw, y =>
    match mdlOutputs stbi desired_channels out_width input.1 input.2 pw y with
    | some r => mdlOutputsAll stbi desired_channels out_width rest r.2 r.1
    | none => none

end sfun_zeromq_image

namespace mex_zeromq_handler

/-- The global `ZMQState` of the MEX handler. -/
structure ZMQState where
  context : Handle := nullptr
  image_socket : Handle := nullptr
  control_socket : Handle := nullptr
  last_frame_buffer : List UInt8 := []
  image_initialized : Bool := false
  control_initialized : Bool := false
  deriving DecidableEq, Repr

/-- What a call of `mexFunction` leaves: the state, the call log, and the value
it returns to MATLAB, `none` when `mexErrMsgIdAndTxt` or an exception ended the
call. -/
structure MexResult (α : Type) where
  state : ZMQState
  calls : List ZmqCall
  out : Option α

/-- The part `Context Management` of `mexFunction`: the state and the call log,
and whether the call goes on (false when `mexErrMsgIdAndTxt` is called). -/
def contextManagement (zmq : Zmq) (st : ZMQState) (calls : List ZmqCall) :
    Bool × ZMQState × List ZmqCall :=
  if st.context = nullptr then
    let context := zmq.zmq_ctx_new calls
    let st1 := { st with context := context }
    if context = nullptr then (false, st1, calls ++ [ZmqCall.ctx_new context])
    else (true, st1, calls ++ [ZmqCall.ctx_new context])
  else (true, st, calls)

/-- Embedding of the command `image_init` of `mexFunction` (called with its
seven arguments).  The size handed to `last_frame_buffer.assign` is the `int`
product `h * w * c` converted to `size_t`; for a negative product that is more
than a vector can hold and `assign` throws. -/
def image_init (zmq : Zmq) (address : String) (topic : List UInt8) (bind_mode : Bool)
    (timeout : Int) (h w c : Int) (st0 : ZMQState) (calls0 : List ZmqCall) :
    MexResult Unit :=
  let cm := contextManagement zmq st0 calls0
  let st := cm.2.1
  let calls := cm.2.2
  if !cm.1 then { state := st, calls := calls, out := none }
  else if st.image_initialized then { state := st, calls := calls, out := some () }
  else
    let socket := zmq.zmq_socket calls st.context ZMQ_SUB
    let st1 := { st with image_socket := socket }
    let calls1 := calls ++ [ZmqCall.socket st.context ZMQ_SUB socket]
    let r1 := zmq.zmq_setsockopt calls1 socket ZMQ_SUBSCRIBE (OptVal.bytes topic)
    let calls2 := calls1 ++ [ZmqCall.setsockopt socket ZMQ_SUBSCRIBE (OptVal.bytes topic) r1]
    let r2 := zmq.zmq_setsockopt calls2 socket ZMQ_RCVTIMEO (OptVal.int timeout)
    let calls3 := calls2 ++ [ZmqCall.setsockopt socket ZMQ_RCVTIMEO (OptVal.int timeout) r2]
    let r3 :=
      if bind_mode then zmq.zmq_bind calls3 socket address
      else zmq.zmq_connect calls3 socket address
    let calls4 :=
      if bind_mode then calls3 ++ [ZmqCall.bind socket address r3]
      else calls3 ++ [ZmqCall.connect socket address r3]
    if r3 ≠ 0 then { state := st1, calls := calls4, out := none }
    else if wrapInt32 (wrapInt32 (h * w) * c) < 0 then
      { state := st1, calls := calls4, out := none }
    else
      { state :=
          { st1 with
            last_frame_buffer :=
              List.replicate (toSizeT (wrapInt32 (wrapInt32 (h * w) * c))) 0,
            image_initialized := true },
        calls := calls4, out := some () }

/-- Embedding of the command `image_receive` of `mexFunction`: the value
returned is the row vector of bytes `plhs[0]`.  `topic` and `data` are what the
two calls of `zmq_msg_recv` deliver (`none` for `-1`). -/
def image_receive (zmq : Zmq) (stbi : StbDecoder) (topic data : Option (List UInt8))
    (st0 : ZMQState) (calls0 : List ZmqCall) : MexResult (List UInt8) :=
  let cm := contextManagement zmq st0 calls0
  let st := cm.2.1
  let calls := cm.2.2
  if !cm.1 then { state := st, calls := calls, out := none }
  else if !st.image_initialized then { state := st, calls := calls, out := none }
  else
    let buffer1 :=
      match topic with
      | none => st.last_frame_buffer
      | some _ =>
        match data with
        | none => st.last_frame_buffer
        | some data_msg =>
          match stbi data_msg 0 with
          | none => st.last_frame_buffer
          | some decoded =>
            if toSizeT (wrapInt32 (wrapInt32 (decoded.x * decoded.y) * decoded.n)) =
                st.last_frame_buffer.length then
              memcpy st.last_frame_buffer decoded.data st.last_frame_buffer.length
            else st.last_frame_buffer
    { state := { st with last_frame_buffer := buffer1 }, calls := calls, out := some buffer1 }

/-- Successive calls of the command `image_receive`, one per input: the result
of the last call (`last` when there is no input). -/
def image_receive_all (zmq : Zmq) (stbi : StbDecoder) :
    List ImageInput → ZMQState → List ZmqCall → Option (List UInt8) →
      MexResult (List UInt8)
  | [], st, calls, last => { state := st, calls := calls, out := last }
  | input :: rest, st, calls, _ =>
    image_receive_all zmq stbi rest
      (image_receive zmq stbi input.1 input.2 st calls).state
      (image_receive zmq stbi input.1 input.2 st calls).calls
      (image_receive zmq stbi input.1 input.2 st calls).out

/-- Embedding of the command `control_init` of `mexFunction` (called with its
one argument). -/
def control_init (zmq : Zmq) (address : String) (st0 : ZMQState) (calls0 : List ZmqCall) :
    MexResult Unit :=
  let cm := contextManagement zmq st0 calls0
  let st := cm.2.1
  let calls := cm.2.2
  if !cm.1 then { state := st, calls := calls, out := none }
  else if st.control_initialized then { state := st, calls := calls, out := some () }
  else
    let socket := zmq.zmq_socket calls st.context ZMQ_PUB
    let st1 := { st with control_socket := socket }
    let calls1 := calls ++ [ZmqCall.socket st.context ZMQ_PUB socket]
    let r := zmq.zmq_bind calls1 socket address
    let calls2 := calls1 ++ [ZmqCall.bind socket address r]
    if r ≠ 0 then { state := st1, calls := calls2, out := none }
    else { state := { st1 with control_initialized := true }, calls := calls2, out := some () }

end mex_zeromq_handler

/-! ## The frame an image subscriber has to serve -/

/-- Following the words of the claim: what a receive contributes, the decoded
bytes when topic and data are received, the data decodes, and the decoded size
(width times height times channels, the channels of the file when none are
asked for) is the configured size; nothing otherwise. -/
def decodedFrame (stbi : StbDecoder) (channels : Int) (size : Nat) (input : ImageInput) :
    Option (List UInt8) :=
  match input.1, input.2 with
  | some _, some data =>
    match stbi data channels with
    | some img =>
      if img.x * img.y * (if channels = 0 then img.n else channels) = (size : Int) then
        some img.data
      else none
    | none => none
  | _, _ => none

/-- Following the words of the claim: the last successfully decoded frame of a
history of receives, the all-zero frame of the configured size when there has
been none. -/
def lastDecodedFrame (stbi : StbDecoder) (channels : Int) (size : Nat)
    (history : List ImageInput) : List UInt8 :=
  history.foldl (fun frame input => (decodedFrame stbi channels size input).getD frame)
    (List.replicate size 0)

/-- The contract of the codec for a number of channels asked for: the pixel
buffer of a decoded image has as many bytes as its dimensions say, and that
number fits an `int` (the codec refuses larger images). -/
def StbContract (stbi : StbDecoder) (channels : Int) : Prop :=
  ∀ buf img, stbi buf channels = some img →
    0 ≤ img.x * img.y * (if channels = 0 then img.n else channels) ∧
    img.x * img.y * (if channels = 0 then img.n else channels) < 2147483648 ∧
    (img.data.length : Int) = img.x * img.y * (if channels = 0 then img.n else channels)

/-! ## The control publishers (`sfun_zeromq_control.cpp`, `mex_zeromq_handler.cpp`) -/

/-- The `json msg` object that `mdlOutputs` of `sfun_zeromq_control` and the
command `control_send` of `mexFunction` build (the members of a `nlohmann::json`
object are kept sorted by key). -/
def controlMessage {ν : Type} (target_id : String) (x y z roll pitch yaw : ν) :
    FJsonObject ν :=
  [("location", FJsonValue.object
      [("x", FJsonValue.number x), ("y", FJsonValue.number y), ("z", FJsonValue.number z)]),
    ("rotation", FJsonValue.object
      [("pitch", FJsonValue.number pitch), ("roll", FJsonValue.number roll),
        ("yaw", FJsonValue.number yaw)]),
    ("target_id", FJsonValue.string target_id),
    ("type", FJsonValue.string "actor_transform")]

namespace sfun_zeromq_control

/-- The pointer work vector of the block: context and socket. -/
structure PWork where
  ctx : Handle := nullptr
  socket : Handle := nullptr
  deriving DecidableEq, Repr

/-- Embedding of `mdlStart` of `sfun_zeromq_control`: the work vector, the call
log and whether an error status was set. -/
def mdlStart (zmq : Zmq) (address : String) (pw : PWork) (calls : List ZmqCall) :
    PWork × List ZmqCall × Bool :=
  let context := zmq.zmq_ctx_new calls
  let calls1 := calls ++ [ZmqCall.ctx_new context]
  if context = nullptr then (pw, calls1, true)
  else
    let socket := zmq.zmq_socket calls1 context ZMQ_PUB
    let calls2 := calls1 ++ [ZmqCall.socket context ZMQ_PUB socket]
    if socket = nullptr then (pw, calls2 ++ [ZmqCall.ctx_term context], true)
    else
      let r1 := zmq.zmq_setsockopt calls2 socket ZMQ_SNDHWM (OptVal.int 1000)
      let calls3 := calls2 ++ [ZmqCall.setsockopt socket ZMQ_SNDHWM (OptVal.int 1000) r1]
      let r2 := zmq.zmq_setsockopt calls3 socket ZMQ_LINGER (OptVal.int 0)
      let calls4 := calls3 ++ [ZmqCall.setsockopt socket ZMQ_LINGER (OptVal.int 0) r2]
      let r3 := zmq.zmq_bind calls4 socket address
      let calls5 := calls4 ++ [ZmqCall.bind socket address r3]
      if r3 ≠ 0 then
        (pw, calls5 ++ [ZmqCall.close socket, ZmqCall.ctx_term context], true)
      else ({ ctx := context, socket := socket }, calls5, false)

/-- Embedding of `mdlOutputs` of `sfun_zeromq_control`: the document built and
sent (`none` when the socket is null) and the call log.  `dump` is the
serialiser `msg.dump()`. -/
def mdlOutputs {ν : Type} (zmq : Zmq) (dump : FJsonObject ν → List UInt8)
    (target_id : String) (x y z roll pitch yaw : ν) (pw : PWork) (calls : List ZmqCall) :
    Option (FJsonObject ν) × List ZmqCall :=
  if pw.socket = nullptr then (none, calls)
  else
    let msg := controlMessage target_id x y z roll pitch yaw
    let json_str := dump msg
    (some msg, calls ++ [ZmqCall.send pw.socket json_str 0 (zmq.zmq_send calls pw.socket json_str 0)])

end sfun_zeromq_control

/-- Embedding of the command `control_send` of `mexFunction` (called with its
seven arguments): the value is the document built and sent.  `dump` is the
serialiser `msg.dump()`. -/
def mex_zeromq_handler.control_send {ν : Type} (zmq : Zmq)
    (dump : FJsonObject ν → List UInt8) (target_id : String) (x y z roll pitch yaw : ν)
    (st0 : mex_zeromq_handler.ZMQState) (calls0 : List ZmqCall) :
    mex_zeromq_handler.MexResult (FJsonObject ν) :=
  let cm := mex_zeromq_handler.contextManagement zmq st0 calls0
  let st := cm.2.1
  let calls := cm.2.2
  if !cm.1 then { state := st, calls := calls, out := none }
  else if !st.control_initialized then { state := st, calls := calls, out := none }
  else
    let msg := controlMessage target_id x y z roll pitch yaw
    let s := dump msg
    { state := st,
      calls := calls ++
        [ZmqCall.send st.control_socket s 0 (zmq.zmq_send calls st.control_socket s 0)],
      out := some msg }

/-! ## The registry lock -/

/-- What a function does with the registry lock (`CriticalSection`), the registry
map and the sockets, in program order. -/
inductive SyncEvent where
  | Lock
  | Unlock
  | Contains
  | Add
  | Find
  | Remove
  | Iterate
  | Empty
  | SendImageMessage (Socket : Handle)
  | CloseStored (Socket : Handle)
  | CloseNew (Socket : Handle)
  deriving DecidableEq, Repr

/-- Whether, in a sequence of events that starts with the lock not held, every
access to the registry map, every `SendImageMessage` and every close of a socket
stored in the map happens while the lock is held, the lock is taken only when
not held, released only when held, and not held at the end.  `held` tells
whether the lock is held at the start. -/
def lockedFrom (held : Bool) : List SyncEvent → Bool
  | [] => !held
  | SyncEvent.Lock :: rest => !held && lockedFrom true rest
  | SyncEvent.Unlock :: rest => held && lockedFrom false rest
  | SyncEvent.CloseNew _ :: rest => lockedFrom held rest
  | _ :: rest => held && lockedFrom held rest

/-- The events of `UZeroMQCommunicationSubsystem::RegisterCamera`, in program
order (`FScopeLock` takes the lock where it is declared and releases it at the
end of its block). -/
def UZeroMQCommunicationSubsystem.RegisterCameraSync (zmq : Zmq)
    (self : UZeroMQCommunicationSubsystem) (calls : List ZmqCall)
    (CameraActor : Option AZeroMQCameraActor) : List SyncEvent :=
  match CameraActor with
  | none => []
  | some actor =>
    if !self.bIsConnected then []
    else if TMap.Contains self.CameraConnections actor.CameraID then [SyncEvent.Contains]
    else
      let NewSocket := zmq.zmq_socket calls self.ZMQContext ZMQ_PUB
      let calls1 := calls ++ [ZmqCall.socket self.ZMQContext ZMQ_PUB NewSocket]
      if NewSocket = nullptr then [SyncEvent.Contains]
      else
        let Result :=
          if actor.bImageBindMode then
            zmq.zmq_bind calls1 NewSocket (bindAddress actor.ImagePort)
          else
            zmq.zmq_connect calls1 NewSocket
              (connectAddress self.CurrentSettings.ServerIP actor.ImagePort)
        if Result ≠ 0 then [SyncEvent.Contains, SyncEvent.CloseNew NewSocket]
        else [SyncEvent.Contains, SyncEvent.Lock, SyncEvent.Add, SyncEvent.Unlock]

/-- The events of `UZeroMQCommunicationSubsystem::UnregisterCamera`. -/
def UZeroMQCommunicationSubsystem.UnregisterCameraSync
    (self : UZeroMQCommunicationSubsystem) (CameraID : String) : List SyncEvent :=
  if !self.bIsConnected then []
  else
    match TMap.Find self.CameraConnections CameraID with
    | some Connection =>
      [SyncEvent.Lock, SyncEvent.Find, SyncEvent.CloseStored Connection.Socket,
        SyncEvent.Remove, SyncEvent.Unlock]
    | none => [SyncEvent.Lock, SyncEvent.Find, SyncEvent.Unlock]

/-- The events of `UZeroMQCommunicationSubsystem::ShutdownZeroMQ`. -/
def UZeroMQCommunicationSubsystem.ShutdownZeroMQSync
    (self : UZeroMQCommunicationSubsystem) : List SyncEvent :=
  [SyncEvent.Lock, SyncEvent.Iterate] ++
    (self.CameraConnections.map fun Elem => SyncEvent.CloseStored Elem.2.Socket) ++
    [SyncEvent.Empty, SyncEvent.Unlock]

/-- The events of the loop of `FZeroMQWorkerThread::ProcessImageQueue` on the
content of the queue: for every item the lock is taken, the socket looked up
and, when found, `SendImageMessage` called, and the lock released. -/
def FZeroMQWorkerThread.drainSync (CameraConnections : TMap FCameraConnection) :
    List ImageItem → List SyncEvent
  | [] => []
  | ImageData :: rest =>
    (match TMap.Find CameraConnections ImageData.1 with
      | some Connection =>
        [SyncEvent.Lock, SyncEvent.Find, SyncEvent.SendImageMessage Connection.Socket,
          SyncEvent.Unlock]
      | none => [SyncEvent.Lock, SyncEvent.Find, SyncEvent.Unlock]) ++
      FZeroMQWorkerThread.drainSync CameraConnections rest

/-! ## Concrete instances -/

/-- A ZeroMQ library in which every call succeeds: `zmq_socket` returns a fresh
non-null handle, `zmq_bind` and `zmq_connect` return `0`, `zmq_send` returns the
number of bytes. -/
def zmqOk : Zmq where
  zmq_ctx_new := fun calls => calls.length + 1
  zmq_socket := fun calls _ _ => calls.length + 1
  zmq_bind := fun _ _ _ => 0
  zmq_connect := fun _ _ _ => 0
  zmq_send := fun _ _ buf _ => buf.length
  zmq_setsockopt := fun _ _ _ _ => 0

/-- The ZeroMQ library of `ZeroMQStub.h`: nothing is available. -/
def zmqStub : Zmq where
  zmq_ctx_new := fun _ => nullptr
  zmq_socket := fun _ _ _ => nullptr
  zmq_bind := fun _ _ _ => -1
  zmq_connect := fun _ _ _ => -1
  zmq_send := fun _ _ _ _ => -1
  zmq_setsockopt := fun _ _ _ _ => -1

/-- A running subsystem with context `1` and an empty registry. -/
def runningEmpty : UZeroMQCommunicationSubsystem :=
  { ZMQContext := 1, Thread := 2, WorkerThread := some { ZMQContext := 1, bIsRunning := true },
    bIsConnected := true }

/-- A running subsystem whose registry maps `"Camera01"` to socket `7`. -/
def runningOne : UZeroMQCommunicationSubsystem :=
  { runningEmpty with CameraConnections := [("Camera01", { Socket := 7 })] }

/-- A stopped subsystem (the state after `Initialize` without auto-connect). -/
def stopped : UZeroMQCommunicationSubsystem := {}

/-- Text conversions for integer-valued numbers (for concrete documents). -/
def intText : JsonText Int where
  SanitizeFloat := fun n => toString n
  IsNumeric := fun s => s.isInt
  Atod := fun s => s.toInt?.getD 0

/-- Values of the uninitialised locals, for concrete documents. -/
def junk : Indeterminate Int :=
  { X := 11, Y := 12, Z := 13, Pitch := 14, Yaw := 15, Roll := 16 }

/-- The members `location` and `rotation` of a concrete document. -/
def poseFields : List (String × FJsonValue Int) :=
  [("location", FJsonValue.object
      [("x", FJsonValue.number 1), ("y", FJsonValue.number 2), ("z", FJsonValue.number 3)]),
    ("rotation", FJsonValue.object
      [("roll", FJsonValue.number 0), ("pitch", FJsonValue.number 0),
        ("yaw", FJsonValue.number 90)])]

/-- The document `"type":"camera_transform","camera_id":"cam1"` with `poseFields`. -/
def docLegacy : FJsonObject Int :=
  ("type", FJsonValue.string "camera_transform") ::
    ("camera_id", FJsonValue.string "cam1") :: poseFields

/-- The document `"type":"actor_transform","target_id":"cam1"` with `poseFields`. -/
def docActor : FJsonObject Int :=
  ("type", FJsonValue.string "actor_transform") ::
    ("target_id", FJsonValue.string "cam1") :: poseFields

/-- The document of the end-to-end scenario: `"type":"actor_transform"`,
`"target_id":""`, location `(1, 2, 3)`, rotation roll `0`, pitch `0`, yaw `90`. -/
def docBroadcast : FJsonObject Int :=
  ("type", FJsonValue.string "actor_transform") ::
    ("target_id", FJsonValue.string "") :: poseFields

/-- A command of 1041 bytes: the text `"type":"actor_transform","target_id":"a…a"`
in braces, with a target id of 1000 letters `a`. -/
def longCommand : List UInt8 :=
  FTCHARToUTF8 "\x7b\"type\":\"actor_transform\",\"target_id\":\"" ++
    (List.replicate 1000 97 ++ FTCHARToUTF8 "\"\x7d")

/-- A running subsystem with one registered camera and one image waiting in the
queue. -/
def runningPending : UZeroMQCommunicationSubsystem :=
  { runningOne with ImageQueue := [("Camera01", [1, 2, 3])] }

/-- A receiver component with a worker, a thread and one transform waiting in
the message queue. -/
def receiverPending : UZeroMQReceiverComponent Int :=
  { ZMQContext := 1, Thread := 2,
    Worker := some
      { ZMQContext := 1, SubscriberSocket := 3, ServerIP := "127.0.0.1", Port := 5556 },
    MessageQueue := [{ Location := ⟨1, 2, 3⟩, Rotation := ⟨0, 90, 0⟩, CameraID := "" }],
    ProcessMessagesTimer := true }

/-- An accepted document of type `camera_transform` whose `location` object has
`x` and `z` but no `y`: the text
`"type":"camera_transform","camera_id":"cam1","location":("x":1,"z":3)`, with
braces for the two objects. -/
def docMissingY : FJsonObject Int :=
  [("type", FJsonValue.string "camera_transform"), ("camera_id", FJsonValue.string "cam1"),
    ("location", FJsonValue.object [("x", FJsonValue.number 1), ("z", FJsonValue.number 3)])]

/-- The document `docMissingY` in its other form: type `actor_transform` and the
id under `target_id`. -/
def docMissingYActor : FJsonObject Int :=
  [("type", FJsonValue.string "actor_transform"), ("target_id", FJsonValue.string "cam1"),
    ("location", FJsonValue.object [("x", FJsonValue.number 1), ("z", FJsonValue.number 3)])]

/-- Other values of the uninitialised locals. -/
def junk2 : Indeterminate Int :=
  { X := 21, Y := 99, Z := 23, Pitch := 24, Yaw := 25, Roll := 26 }

/-- A receiver worker as its constructor leaves it, with context `1`. -/
def freshWorker : FZeroMQReceiverWorker :=
  { ZMQContext := 1, ServerIP := "127.0.0.1", Port := 5556 }

/-- An image codec that decodes the one-byte buffer `[1]` to a 2 x 1 image with
one channel and pixels `[7, 8]`, and nothing else. -/
def stbOne : StbDecoder :=
  fun buffer _ => if buffer = [1] then some { x := 2, y := 1, n := 1, data := [7, 8] } else none

/-- A state of the MEX handler after `image_init` for a frame of `2` bytes and
`control_init`, holding the frame `[5, 6]`. -/
def mexReady : mex_zeromq_handler.ZMQState :=
  { context := 1, image_socket := 2, control_socket := 3, last_frame_buffer := [5, 6],
    image_initialized := true, control_initialized := true }

/-! ## Lemmas on `TMap` and on call logs -/

section Lemmas

variable {V : Type}

theorem FString.Equals_iff (a b : String) :
    FString.Equals a b = true ↔ FString.ToLower a = FString.ToLower b := by
  simp [FString.Equals]

@[simp]
theorem FString.Equals_self (a : String) : FString.Equals a a = true := by
  simp [FString.Equals]

theorem FString.Equals_comm (a b : String) : FString.Equals a b = FString.Equals b a := by
  simp only [FString.Equals]
  exact decide_eq_decide.mpr eq_comm

theorem FString.Equals_trans (a b c : String) (h1 : FString.Equals a b = true)
    (h2 : FString.Equals b c = true) : FString.Equals a c = true := by
  rw [FString.Equals_iff] at h1 h2 ⊢
  exact h1.trans h2

/-- Two strings that match a third one either both or not. -/
theorem FString.Equals_congr_left (a b c : String) (h : FString.Equals a b = true) :
    FString.Equals a c = FString.Equals b c := by
  rw [FString.Equals_iff] at h
  simp only [FString.Equals, h]

theorem FString.Equals_congr_right (a b c : String) (h : FString.Equals a b = true) :
    FString.Equals c a = FString.Equals c b := by
  rw [FString.Equals_iff] at h
  simp only [FString.Equals, h]

/-- A lookup does not tell keys apart that match. -/
theorem TMap.Find_congr (m : TMap V) (a b : String) (h : FString.Equals a b = true) :
    TMap.Find m a = TMap.Find m b := by
  induction m with
  | nil => rfl
  | cons e rest ih =>
    obtain ⟨k1, v1⟩ := e
    simp only [TMap.Find, FString.Equals_congr_right a b k1 h, ih]

theorem TMap.Find_eq_none_of_not_Contains (m : TMap V) (k : String)
    (h : TMap.Contains m k = false) : TMap.Find m k = none := by
  unfold TMap.Contains at h
  cases hf : TMap.Find m k with
  | none => rfl
  | some v => rw [hf] at h; simp at h

theorem TMap.Find_Add_self (m : TMap V) (k : String) (v : V) :
    TMap.Find (TMap.Add m k v) k = some v := by
  induction m with
  | nil => simp [TMap.Add, TMap.Find]
  | cons e rest ih =>
    obtain ⟨k1, v1⟩ := e
    by_cases hk : FString.Equals k1 k = true
    · simp [TMap.Add, TMap.Find, hk]
    · simp [TMap.Add, TMap.Find, hk, ih]

theorem closes_append (a b : List ZmqCall) : closes (a ++ b) = closes a ++ closes b := by
  simp [closes, List.filterMap_append]

theorem created_append (a b : List ZmqCall) : created (a ++ b) = created a ++ created b := by
  simp [created, List.filterMap_append]

theorem closes_cons_cons (c d : ZmqCall) (cs : List ZmqCall) :
    closes (c :: d :: cs) = closes [c] ++ closes (d :: cs) :=
  closes_append [c] (d :: cs)

theorem created_cons_cons (c d : ZmqCall) (cs : List ZmqCall) :
    created (c :: d :: cs) = created [c] ++ created (d :: cs) :=
  created_append [c] (d :: cs)

theorem closes_close (s : Handle) : closes [ZmqCall.close s] = [s] := rfl

theorem created_close (s : Handle) : created [ZmqCall.close s] = [] := rfl

theorem closes_socket (ctx : Handle) (type : Nat) (ret : Handle) :
    closes [ZmqCall.socket ctx type ret] = [] := rfl

theorem created_socket (ctx : Handle) (type : Nat) (ret : Handle) (h : ret ≠ nullptr) :
    created [ZmqCall.socket ctx type ret] = [ret] := by
  simp [created, h]

theorem sends_append (a b : List ZmqCall) : sends (a ++ b) = sends a ++ sends b := by
  simp [sends, List.filterMap_append]

end Lemmas

/-! ## Registry operations of the subsystem -/

namespace UZeroMQCommunicationSubsystem

/-- C1: if the registry already holds an entry for the camera id of the actor,
`RegisterCamera` changes nothing: the subsystem state and the call log are the
same afterwards, so the id still maps to the same socket handle, no socket is
created and none is closed. -/
theorem RegisterCamera_duplicate_noop (zmq : Zmq) (self : UZeroMQCommunicationSubsystem)
    (calls : List ZmqCall) (actor : AZeroMQCameraActor) (c : FCameraConnection)
    (hrun : self.bIsConnected = true)
    (hfind : TMap.Find self.CameraConnections actor.CameraID = some c) :
    RegisterCamera zmq self calls (some actor) = (self, calls) ∧
      TMap.Find (RegisterCamera zmq self calls (some actor)).1.CameraConnections
        actor.CameraID = some c ∧
      created (RegisterCamera zmq self calls (some actor)).2 = created calls ∧
      closes (RegisterCamera zmq self calls (some actor)).2 = closes calls := by
  have hc : TMap.Contains self.CameraConnections actor.CameraID = true := by
    simp [TMap.Contains, hfind]
  have h : RegisterCamera zmq self calls (some actor) = (self, calls) := by
    simp [RegisterCamera, hrun, hc]
  rw [h]
  exact ⟨rfl, hfind, rfl, rfl⟩

/-- C3 (counterexample): with `Camera01` registered on socket `7`, the id
`camera01` is not a key of the registry, yet `UnregisterCamera` for it removes
the entry and closes socket `7`. -/
theorem UnregisterCamera_case_variant :
    "camera01" ∉ runningOne.CameraConnections.map Prod.fst ∧
    UnregisterCamera runningOne [] "camera01" =
      ({ runningOne with CameraConnections := [] }, [ZmqCall.close 7]) := by
  decide

/-- C3 (amended): unregistering an id that matches no key of the registry, keys
being matched ignoring the case of their letters (`TMap.Contains`), changes
nothing, whatever the state: same subsystem state, same call log (no
`zmq_close`). -/
theorem UnregisterCamera_absent_noop (self : UZeroMQCommunicationSubsystem)
    (calls : List ZmqCall) (CameraID : String)
    (habs : TMap.Contains self.CameraConnections CameraID = false) :
    UnregisterCamera self calls CameraID = (self, calls) := by
  have hf := TMap.Find_eq_none_of_not_Contains _ _ habs
  unfold UnregisterCamera
  rw [hf]
  simp

/-- C4: when the subsystem is stopped, `RegisterCamera` (for every actor pointer,
null included) and `UnregisterCamera` (for every id) return the same subsystem
state and the same call log: registry, context and image queue are unchanged and
no socket is created or closed. -/
theorem Register_Unregister_stopped_noop (zmq : Zmq) (self : UZeroMQCommunicationSubsystem)
    (calls : List ZmqCall) (CameraActor : Option AZeroMQCameraActor) (CameraID : String)
    (hstop : self.bIsConnected = false) :
    RegisterCamera zmq self calls CameraActor = (self, calls) ∧
      UnregisterCamera self calls CameraID = (self, calls) := by
  constructor
  · cases CameraActor <;> simp [RegisterCamera, hstop]
  · simp [UnregisterCamera, hstop]

/-- C5: `SendImageViaZeroMQ` appends the single item `(CameraID, ImageData)` at
the tail of the image queue when the subsystem is connected and returns the state
as it was when it is not; no other field changes. -/
theorem SendImageViaZeroMQ_append_or_drop (self : UZeroMQCommunicationSubsystem)
    (CameraID : String) (ImageData : List UInt8) :
    (self.bIsConnected = true →
        SendImageViaZeroMQ self CameraID ImageData =
          { self with ImageQueue := self.ImageQueue ++ [(CameraID, ImageData)] }) ∧
      (self.bIsConnected = false → SendImageViaZeroMQ self CameraID ImageData = self) := by
  constructor
  · intro h; simp [SendImageViaZeroMQ, h]
  · intro h; simp [SendImageViaZeroMQ, h]

theorem RegisterCamera_duplicate_noop_witness :
    (runningOne.bIsConnected = true ∧
      TMap.Find runningOne.CameraConnections "Camera01" = some { Socket := 7 }) ∧
    (RegisterCamera zmqOk runningOne [] (some { CameraID := "Camera01" }) = (runningOne, []) ∧
      TMap.Find (RegisterCamera zmqOk runningOne [] (some { CameraID := "Camera01" })).1.CameraConnections
        "Camera01" = some { Socket := 7 } ∧
      created (RegisterCamera zmqOk runningOne [] (some { CameraID := "Camera01" })).2 = created [] ∧
      closes (RegisterCamera zmqOk runningOne [] (some { CameraID := "Camera01" })).2 = closes []) :=
  ⟨⟨by decide, by decide⟩,
    RegisterCamera_duplicate_noop zmqOk runningOne [] { CameraID := "Camera01" } { Socket := 7 }
      (by decide) (by decide)⟩

/-- The three outcomes of `RegisterCamera` for a running subsystem and an id that
is not registered: socket creation fails; or a socket `h` is created and then
either the bind or connect (the one call `e`) fails and `h` is closed, or it
succeeds and `h` is stored under the id. -/
theorem RegisterCamera_outcomes (zmq : Zmq) (self : UZeroMQCommunicationSubsystem)
    (calls : List ZmqCall) (actor : AZeroMQCameraActor)
    (hrun : self.bIsConnected = true)
    (hc : TMap.Contains self.CameraConnections actor.CameraID = false) :
    (zmq.zmq_socket calls self.ZMQContext ZMQ_PUB = nullptr ∧
      RegisterCamera zmq self calls (some actor) =
        (self, calls ++ [ZmqCall.socket self.ZMQContext ZMQ_PUB nullptr])) ∨
    (zmq.zmq_socket calls self.ZMQContext ZMQ_PUB ≠ nullptr ∧
      ∃ e : ZmqCall, closes [e] = [] ∧ created [e] = [] ∧
        (RegisterCamera zmq self calls (some actor) =
            (self, calls ++ [ZmqCall.socket self.ZMQContext ZMQ_PUB
                (zmq.zmq_socket calls self.ZMQContext ZMQ_PUB), e,
              ZmqCall.close (zmq.zmq_socket calls self.ZMQContext ZMQ_PUB)]) ∨
          RegisterCamera zmq self calls (some actor) =
            ({ self with
                CameraConnections := TMap.Add self.CameraConnections actor.CameraID
                  { Socket := zmq.zmq_socket calls self.ZMQContext ZMQ_PUB } },
              calls ++ [ZmqCall.socket self.ZMQContext ZMQ_PUB
                (zmq.zmq_socket calls self.ZMQContext ZMQ_PUB), e]))) := by
  by_cases hs : zmq.zmq_socket calls self.ZMQContext ZMQ_PUB = nullptr
  · left
    refine ⟨hs, ?_⟩
    simp [RegisterCamera, hrun, hc, hs]
  · right
    refine ⟨hs, ?_⟩
    cases hb : actor.bImageBindMode
    · generalize hr : zmq.zmq_connect
          (calls ++ [ZmqCall.socket self.ZMQContext ZMQ_PUB
            (zmq.zmq_socket calls self.ZMQContext ZMQ_PUB)])
          (zmq.zmq_socket calls self.ZMQContext ZMQ_PUB)
          (connectAddress self.CurrentSettings.ServerIP actor.ImagePort) = r
      refine ⟨ZmqCall.connect (zmq.zmq_socket calls self.ZMQContext ZMQ_PUB)
        (connectAddress self.CurrentSettings.ServerIP actor.ImagePort) r, rfl, rfl, ?_⟩
      by_cases hr0 : r = 0
      · exact Or.inr (by simp [RegisterCamera, hrun, hc, hs, hb, hr, hr0])
      · exact Or.inl (by simp [RegisterCamera, hrun, hc, hs, hb, hr, hr0])
    · generalize hr : zmq.zmq_bind
          (calls ++ [ZmqCall.socket self.ZMQContext ZMQ_PUB
            (zmq.zmq_socket calls self.ZMQContext ZMQ_PUB)])
          (zmq.zmq_socket calls self.ZMQContext ZMQ_PUB)
          (bindAddress actor.ImagePort) = r
      refine ⟨ZmqCall.bind (zmq.zmq_socket calls self.ZMQContext ZMQ_PUB)
        (bindAddress actor.ImagePort) r, rfl, rfl, ?_⟩
      by_cases hr0 : r = 0
      · exact Or.inr (by simp [RegisterCamera, hrun, hc, hs, hb, hr, hr0])
      · exact Or.inl (by simp [RegisterCamera, hrun, hc, hs, hb, hr, hr0])

/-- C2: from a running subsystem with an empty registry, a `RegisterCamera` that
succeeds (the id is in the registry afterwards) followed by `UnregisterCamera` of
the same id leaves the registry empty; the registration created exactly one
socket `h` (non-null) and closed none, and the two calls together made exactly
one `zmq_close`, on `h`. -/
theorem Register_then_Unregister (zmq : Zmq) (self : UZeroMQCommunicationSubsystem)
    (calls : List ZmqCall) (actor : AZeroMQCameraActor)
    (hrun : self.bIsConnected = true) (hempty : self.CameraConnections = [])
    (hsucc : TMap.Contains (RegisterCamera zmq self calls (some actor)).1.CameraConnections
        actor.CameraID = true) :
    (UnregisterCamera (RegisterCamera zmq self calls (some actor)).1
        (RegisterCamera zmq self calls (some actor)).2 actor.CameraID).1.CameraConnections = [] ∧
      zmq.zmq_socket calls self.ZMQContext ZMQ_PUB ≠ nullptr ∧
      created (RegisterCamera zmq self calls (some actor)).2 =
        created calls ++ [zmq.zmq_socket calls self.ZMQContext ZMQ_PUB] ∧
      closes (RegisterCamera zmq self calls (some actor)).2 = closes calls ∧
      created (UnregisterCamera (RegisterCamera zmq self calls (some actor)).1
        (RegisterCamera zmq self calls (some actor)).2 actor.CameraID).2 =
        created calls ++ [zmq.zmq_socket calls self.ZMQContext ZMQ_PUB] ∧
      closes (UnregisterCamera (RegisterCamera zmq self calls (some actor)).1
        (RegisterCamera zmq self calls (some actor)).2 actor.CameraID).2 =
        closes calls ++ [zmq.zmq_socket calls self.ZMQContext ZMQ_PUB] := by
  have hc : TMap.Contains self.CameraConnections actor.CameraID = false := by
    simp [hempty, TMap.Contains, TMap.Find]
  rcases RegisterCamera_outcomes zmq self calls actor hrun hc with
    ⟨_, hreg⟩ | ⟨hs, e, he1, he2, hreg | hreg⟩
  · rw [hreg, hc] at hsucc
    exact absurd hsucc (by simp)
  · rw [hreg, hc] at hsucc
    exact absurd hsucc (by simp)
  · have hfind := TMap.Find_Add_self self.CameraConnections actor.CameraID
      { Socket := zmq.zmq_socket calls self.ZMQContext ZMQ_PUB }
    rw [hreg]
    simp only [UnregisterCamera, hrun, hfind]
    simp [hempty, TMap.Add, TMap.Remove, closes_append, created_append, closes_cons_cons, created_cons_cons, he1, he2,
      closes_close, created_close, closes_socket, created_socket _ _ _ hs, hs]

theorem UnregisterCamera_absent_noop_witness :
    TMap.Contains runningOne.CameraConnections "Camera02" = false ∧
      TMap.Contains runningOne.CameraConnections "camera01" = true ∧
      UnregisterCamera runningOne [] "Camera02" = (runningOne, []) :=
  ⟨by decide, by decide, UnregisterCamera_absent_noop runningOne [] "Camera02" (by decide)⟩

theorem Register_Unregister_stopped_noop_witness :
    stopped.bIsConnected = false ∧
      RegisterCamera zmqOk stopped [] (some { CameraID := "Camera01" }) = (stopped, []) ∧
      UnregisterCamera stopped [] "Camera01" = (stopped, []) :=
  ⟨by decide,
    Register_Unregister_stopped_noop zmqOk stopped [] (some { CameraID := "Camera01" })
      "Camera01" (by decide)⟩

theorem SendImageViaZeroMQ_append_or_drop_witness :
    (runningEmpty.bIsConnected = true ∧
      SendImageViaZeroMQ runningEmpty "Camera01" [1, 2, 3] =
        { runningEmpty with ImageQueue := [("Camera01", [1, 2, 3])] }) ∧
    (stopped.bIsConnected = false ∧
      SendImageViaZeroMQ stopped "Camera01" [1, 2, 3] = stopped) :=
  ⟨⟨by decide,
      (SendImageViaZeroMQ_append_or_drop runningEmpty "Camera01" [1, 2, 3]).1 (by decide)⟩,
    ⟨by decide,
      (SendImageViaZeroMQ_append_or_drop stopped "Camera01" [1, 2, 3]).2 (by decide)⟩⟩

theorem Register_then_Unregister_witness :
    (runningEmpty.bIsConnected = true ∧ runningEmpty.CameraConnections = [] ∧
      TMap.Contains (RegisterCamera zmqOk runningEmpty [] (some {})).1.CameraConnections
        "Camera01" = true) ∧
    (UnregisterCamera (RegisterCamera zmqOk runningEmpty [] (some {})).1
        (RegisterCamera zmqOk runningEmpty [] (some {})).2 "Camera01").1.CameraConnections = [] ∧
    closes (UnregisterCamera (RegisterCamera zmqOk runningEmpty [] (some {})).1
        (RegisterCamera zmqOk runningEmpty [] (some {})).2 "Camera01").2 = [1] :=
  ⟨⟨by decide, by decide, by decide⟩,
    (Register_then_Unregister zmqOk runningEmpty [] {} (by decide) (by decide) (by decide)).1,
    (Register_then_Unregister zmqOk runningEmpty [] {} (by decide) (by decide)
      (by decide)).2.2.2.2.2⟩

end UZeroMQCommunicationSubsystem

/-! ## The send worker -/

namespace FZeroMQWorkerThread

/-- C9: for a non-null socket, when both `zmq_send` calls succeed,
`SendImageMessage` returns `true` and makes exactly two calls, both on that
socket: first the UTF-8 bytes of the id with `ZMQ_SNDMORE`, then the whole
payload with flags `0`. -/
theorem SendImageMessage_two_frames (zmq : Zmq) (Socket : Handle) (CameraID : String)
    (ImageData : List UInt8) (calls : List ZmqCall)
    (hsock : Socket ≠ nullptr)
    (h1 : zmq.zmq_send calls Socket (FTCHARToUTF8 CameraID) ZMQ_SNDMORE ≠ -1)
    (h2 : zmq.zmq_send
        (calls ++ [ZmqCall.send Socket (FTCHARToUTF8 CameraID) ZMQ_SNDMORE
          (zmq.zmq_send calls Socket (FTCHARToUTF8 CameraID) ZMQ_SNDMORE)])
        Socket ImageData 0 ≠ -1) :
    ∃ r1 r2 : Int,
      SendImageMessage zmq Socket CameraID ImageData calls =
        (true, calls ++ [ZmqCall.send Socket (FTCHARToUTF8 CameraID) ZMQ_SNDMORE r1,
          ZmqCall.send Socket ImageData 0 r2]) := by
  refine ⟨zmq.zmq_send calls Socket (FTCHARToUTF8 CameraID) ZMQ_SNDMORE,
    zmq.zmq_send
        (calls ++ [ZmqCall.send Socket (FTCHARToUTF8 CameraID) ZMQ_SNDMORE
          (zmq.zmq_send calls Socket (FTCHARToUTF8 CameraID) ZMQ_SNDMORE)])
        Socket ImageData 0, ?_⟩
  simp [SendImageMessage, hsock, h1, h2]

theorem SendImageMessage_two_frames_witness :
    ((7 : Handle) ≠ nullptr ∧
      zmqOk.zmq_send [] 7 (FTCHARToUTF8 "cam0") ZMQ_SNDMORE ≠ -1 ∧
      zmqOk.zmq_send [ZmqCall.send 7 (FTCHARToUTF8 "cam0") ZMQ_SNDMORE
        (zmqOk.zmq_send [] 7 (FTCHARToUTF8 "cam0") ZMQ_SNDMORE)] 7 [1, 2, 3] 0 ≠ -1) ∧
    ∃ r1 r2 : Int,
      SendImageMessage zmqOk 7 "cam0" [1, 2, 3] [] =
        (true, [] ++ [ZmqCall.send 7 (FTCHARToUTF8 "cam0") ZMQ_SNDMORE r1,
          ZmqCall.send 7 [1, 2, 3] 0 r2]) :=
  ⟨⟨by decide, by decide, by decide⟩,
    SendImageMessage_two_frames zmqOk 7 "cam0" [1, 2, 3] [] (by decide) (by decide) (by decide)⟩

/-- The loop leaves the queue empty. -/
theorem drain_queue_empty (zmq : Zmq) (conns : TMap FCameraConnection)
    (q : List ImageItem) (calls : List ZmqCall) : (drain zmq conns q calls).1 = [] := by
  induction q generalizing calls with
  | nil => rfl
  | cons item rest ih =>
    unfold drain
    cases TMap.Find conns item.1 with
    | none => exact ih calls
    | some c => exact ih _

/-- The frames `SendImageMessage` hands to `zmq_send` when both sends succeed. -/
theorem sends_SendImageMessage_ok (zmq : Zmq) (Socket : Handle) (CameraID : String)
    (ImageData : List UInt8) (calls : List ZmqCall) (hsock : Socket ≠ nullptr)
    (hok : ∀ log s buf flags, zmq.zmq_send log s buf flags ≠ -1) :
    sends (SendImageMessage zmq Socket CameraID ImageData calls).2 =
      sends calls ++ imageFrames Socket (CameraID, ImageData) := by
  simp [SendImageMessage, hsock, hok, sends_append, imageFrames]
  simp [sends]

/-- The first frames `SendImageMessage` attempts, whatever `zmq_send` answers:
one on a non-null socket, none on a null one. -/
theorem firstFrames_SendImageMessage (zmq : Zmq) (Socket : Handle) (CameraID : String)
    (ImageData : List UInt8) (calls : List ZmqCall) :
    firstFrames (SendImageMessage zmq Socket CameraID ImageData calls).2 =
      firstFrames calls ++
        (if Socket = nullptr then [] else [(Socket, FTCHARToUTF8 CameraID, ZMQ_SNDMORE)]) := by
  unfold SendImageMessage
  by_cases hs : Socket = nullptr
  · simp [hs]
  · by_cases h1 : zmq.zmq_send calls Socket (FTCHARToUTF8 CameraID) ZMQ_SNDMORE = -1
    · simp [hs, h1, firstFrames, sends_append]
      simp [sends]
    · by_cases h2 : zmq.zmq_send
          (calls ++ [ZmqCall.send Socket (FTCHARToUTF8 CameraID) ZMQ_SNDMORE
            (zmq.zmq_send calls Socket (FTCHARToUTF8 CameraID) ZMQ_SNDMORE)])
          Socket ImageData 0 = -1
      · simp [hs, h1, h2, firstFrames, sends_append]
        simp [sends, ZMQ_SNDMORE]
      · simp [hs, h1, h2, firstFrames, sends_append]
        simp [sends, ZMQ_SNDMORE]

/-- The frames sent by the loop on a queue that holds only items of one
registered id, when every send succeeds. -/
theorem sends_drain_single (zmq : Zmq) (conns : TMap FCameraConnection) (A : String)
    (c : FCameraConnection) (hreg : TMap.Find conns A = some c) (hsock : c.Socket ≠ nullptr)
    (hok : ∀ log s buf flags, zmq.zmq_send log s buf flags ≠ -1)
    (payloads : List (List UInt8)) (calls : List ZmqCall) :
    sends (drain zmq conns (payloads.map fun p => (A, p)) calls).2 =
      sends calls ++ payloads.flatMap fun p => imageFrames c.Socket (A, p) := by
  induction payloads generalizing calls with
  | nil => simp [drain]
  | cons p rest ih =>
    simp only [List.map_cons, drain, hreg, List.flatMap_cons]
    rw [ih, sends_SendImageMessage_ok zmq c.Socket A p calls hsock hok, List.append_assoc]

/-- The first frames attempted by the loop, whatever `zmq_send` answers. -/
theorem firstFrames_drain (zmq : Zmq) (conns : TMap FCameraConnection)
    (q : List ImageItem) (calls : List ZmqCall) :
    firstFrames (drain zmq conns q calls).2 =
      firstFrames calls ++ q.filterMap (firstFrameOf conns) := by
  induction q generalizing calls with
  | nil => simp [drain]
  | cons item rest ih =>
    unfold drain
    cases hf : TMap.Find conns item.1 with
    | none =>
      simp only [List.filterMap_cons, firstFrameOf, hf]
      exact ih calls
    | some c =>
      simp only [List.filterMap_cons, firstFrameOf, hf]
      rw [ih, firstFrames_SendImageMessage]
      by_cases hs : c.Socket = nullptr <;> simp [hs]

/-- The loop skips an item whose id has no entry in the registry. -/
theorem drain_skip_unregistered (zmq : Zmq) (conns : TMap FCameraConnection)
    (pre rest : List ImageItem) (item : ImageItem) (calls : List ZmqCall)
    (habs : TMap.Find conns item.1 = none) :
    drain zmq conns (pre ++ item :: rest) calls = drain zmq conns (pre ++ rest) calls := by
  induction pre generalizing calls with
  | nil => simp [drain, habs]
  | cons p pre ih =>
    simp only [List.cons_append, drain]
    cases TMap.Find conns p.1 with
    | none => exact ih calls
    | some c => exact ih _

/-- Enqueuing a sequence of payloads for one id on a connected subsystem appends
them to the image queue in the order of the calls. -/
theorem foldl_SendImageViaZeroMQ (A : String) (payloads : List (List UInt8))
    (self : UZeroMQCommunicationSubsystem) (hrun : self.bIsConnected = true) :
    payloads.foldl (fun st p => UZeroMQCommunicationSubsystem.SendImageViaZeroMQ st A p) self =
      { self with ImageQueue := self.ImageQueue ++ payloads.map fun p => (A, p) } := by
  induction payloads generalizing self with
  | nil => simp
  | cons p rest ih =>
    have hstep : UZeroMQCommunicationSubsystem.SendImageViaZeroMQ self A p =
        { self with ImageQueue := self.ImageQueue ++ [(A, p)] } := by
      simp [UZeroMQCommunicationSubsystem.SendImageViaZeroMQ, hrun]
    rw [List.foldl_cons, hstep, ih _ (by exact hrun)]
    simp

/-- A call of `SendImageMessage` hands at most two frames to `zmq_send`. -/
theorem sends_SendImageMessage_length (zmq : Zmq) (Socket : Handle) (CameraID : String)
    (ImageData : List UInt8) (calls : List ZmqCall) :
    (sends (SendImageMessage zmq Socket CameraID ImageData calls).2).length ≤
      (sends calls).length + 2 := by
  unfold SendImageMessage
  split
  · simp
  · dsimp only
    split
    · simp [sends_append, sends]
    · split <;> simp [sends_append, sends]

/-- The loop hands at most two frames per queued item to `zmq_send`. -/
theorem sends_drain_length (zmq : Zmq) (conns : TMap FCameraConnection)
    (q : List ImageItem) (calls : List ZmqCall) :
    (sends (drain zmq conns q calls).2).length ≤ (sends calls).length + 2 * q.length := by
  induction q generalizing calls with
  | nil => simp [drain]
  | cons item rest ih =>
    unfold drain
    cases TMap.Find conns item.1 with
    | none =>
      have := ih calls
      simp only [List.length_cons]
      omega
    | some c =>
      have h1 := ih (SendImageMessage zmq c.Socket item.1 item.2 calls).2
      have h2 := sends_SendImageMessage_length zmq c.Socket item.1 item.2 calls
      simp only [List.length_cons]
      omega

/-- C6: after any sequence of payloads is enqueued (`SendImageViaZeroMQ`) for one
registered id on a connected subsystem with an empty queue, a drain pass in
which every `zmq_send` succeeds hands to `zmq_send`, on the socket registered
for that id, the id frame and the payload frame of each payload, in the order
of enqueuing and each exactly once, and leaves the queue empty. -/
theorem ProcessImageQueue_fifo (zmq : Zmq) (self : UZeroMQCommunicationSubsystem)
    (calls : List ZmqCall) (A : String) (c : FCameraConnection)
    (payloads : List (List UInt8))
    (hrun : self.bIsConnected = true) (hq : self.ImageQueue = [])
    (hreg : TMap.Find self.CameraConnections A = some c) (hsock : c.Socket ≠ nullptr)
    (hok : ∀ log s buf flags, zmq.zmq_send log s buf flags ≠ -1) :
    sends (ProcessImageQueue zmq
        (payloads.foldl (fun st p => UZeroMQCommunicationSubsystem.SendImageViaZeroMQ st A p)
          self).shared calls).2 =
      sends calls ++ payloads.flatMap (fun p => imageFrames c.Socket (A, p)) ∧
    (ProcessImageQueue zmq
        (payloads.foldl (fun st p => UZeroMQCommunicationSubsystem.SendImageViaZeroMQ st A p)
          self).shared calls).1 =
      { CameraConnections := self.CameraConnections, ImageQueue := some [] } := by
  rw [foldl_SendImageViaZeroMQ A payloads self hrun]
  simp only [ProcessImageQueue, UZeroMQCommunicationSubsystem.shared, hq, List.nil_append]
  exact ⟨sends_drain_single zmq self.CameraConnections A c hreg hsock hok payloads calls,
    by rw [drain_queue_empty]⟩

/-- C7 (counterexample): with `Camera01` registered on socket `7`, a queued item
with the id `camera01`, which is not a key of the registry, is not dropped: the
drain pass sends its two frames on socket `7`, the first with the bytes of
`camera01`. -/
theorem ProcessImageQueue_case_variant :
    "camera01" ∉ runningOne.CameraConnections.map Prod.fst ∧
    sends (ProcessImageQueue zmqOk
        { CameraConnections := runningOne.CameraConnections,
          ImageQueue := some [("camera01", [9])] } []).2 =
      [(7, FTCHARToUTF8 "camera01", ZMQ_SNDMORE), (7, [9], 0)] := by
  decide

/-- C7 (amended): a queued item whose id matches no key of the registry, keys
being matched ignoring the case of their letters (`TMap.Find`), is dropped by
the drain pass: the pass on a queue holding the item (at any position) ends in
the same state and with the same call log as the pass on the queue without it,
so no call is made for the item; the queue is empty afterwards (the item is not
put back) and the registry is as before. -/
theorem ProcessImageQueue_drops_unregistered (zmq : Zmq) (conns : TMap FCameraConnection)
    (pre rest : List ImageItem) (item : ImageItem) (calls : List ZmqCall)
    (habs : TMap.Find conns item.1 = none) :
    ProcessImageQueue zmq
        { CameraConnections := conns, ImageQueue := some (pre ++ item :: rest) } calls =
      ProcessImageQueue zmq
        { CameraConnections := conns, ImageQueue := some (pre ++ rest) } calls ∧
    (ProcessImageQueue zmq
        { CameraConnections := conns, ImageQueue := some (pre ++ item :: rest) } calls).1 =
      { CameraConnections := conns, ImageQueue := some [] } ∧
    (ProcessImageQueue zmq
        { CameraConnections := conns, ImageQueue := some (item :: rest) } calls).2 =
      (ProcessImageQueue zmq
        { CameraConnections := conns, ImageQueue := some rest } calls).2 := by
  refine ⟨?_, ?_, ?_⟩
  · simp only [ProcessImageQueue, drain_skip_unregistered zmq conns pre rest item calls habs]
  · simp only [ProcessImageQueue, drain_queue_empty]
  · have h := drain_skip_unregistered zmq conns [] rest item calls habs
    simp only [List.nil_append] at h
    simp only [ProcessImageQueue, h]

/-- C8: whatever `zmq_send` answers (any call may fail), a drain pass takes
every item off the queue and ends with the queue empty and the registry as
before; it attempts the id frame of every item that has a registered non-null
socket, once each and in queue order, so a failed send neither stops the pass
nor is retried; and it hands at most two frames per item to `zmq_send`. -/
theorem ProcessImageQueue_continues_after_failure (zmq : Zmq)
    (conns : TMap FCameraConnection) (q : List ImageItem) (calls : List ZmqCall) :
    (ProcessImageQueue zmq { CameraConnections := conns, ImageQueue := some q } calls).1 =
      { CameraConnections := conns, ImageQueue := some [] } ∧
    firstFrames
        (ProcessImageQueue zmq { CameraConnections := conns, ImageQueue := some q } calls).2 =
      firstFrames calls ++ q.filterMap (firstFrameOf conns) ∧
    (sends
        (ProcessImageQueue zmq { CameraConnections := conns, ImageQueue := some q }
          calls).2).length ≤ (sends calls).length + 2 * q.length := by
  refine ⟨?_, ?_, ?_⟩
  · simp only [ProcessImageQueue, drain_queue_empty]
  · simp only [ProcessImageQueue]
    exact firstFrames_drain zmq conns q calls
  · simp only [ProcessImageQueue]
    exact sends_drain_length zmq conns q calls

theorem ProcessImageQueue_fifo_witness :
    (runningOne.bIsConnected = true ∧ runningOne.ImageQueue = [] ∧
      TMap.Find runningOne.CameraConnections "Camera01" = some { Socket := 7 } ∧
      (7 : Handle) ≠ nullptr ∧
      ∀ log s buf flags, zmqOk.zmq_send log s buf flags ≠ -1) ∧
    sends (ProcessImageQueue zmqOk
        ([[1], [2, 3]].foldl
          (fun st p => UZeroMQCommunicationSubsystem.SendImageViaZeroMQ st "Camera01" p)
          runningOne).shared []).2 =
      sends [] ++ [[1], [2, 3]].flatMap (fun p => imageFrames 7 ("Camera01", p)) :=
  have hok : ∀ log s buf flags, zmqOk.zmq_send log s buf flags ≠ -1 := by
    intro _ _ buf _
    simp only [zmqOk]
    omega
  ⟨⟨by decide, by decide, by decide, by decide, hok⟩,
    (ProcessImageQueue_fifo zmqOk runningOne [] "Camera01" { Socket := 7 } [[1], [2, 3]]
      (by decide) (by decide) (by decide) (by decide) hok).1⟩

theorem ProcessImageQueue_drops_unregistered_witness :
    TMap.Find runningOne.CameraConnections "Camera02" = none ∧
    (ProcessImageQueue zmqOk
        { CameraConnections := runningOne.CameraConnections,
          ImageQueue := some ([("Camera01", [1])] ++ ("Camera02", [9]) :: [("Camera01", [2])]) }
        []).1 =
      { CameraConnections := runningOne.CameraConnections, ImageQueue := some [] } :=
  ⟨by decide,
    (ProcessImageQueue_drops_unregistered zmqOk runningOne.CameraConnections
      [("Camera01", [1])] [("Camera01", [2])] ("Camera02", [9]) [] (by decide)).2.1⟩

end FZeroMQWorkerThread

/-! ## The command decoder -/

namespace FZeroMQReceiverWorker

variable {ν : Type} [Zero ν] [One ν]

/-- On a complete document the decoder does not depend on the values of its
uninitialised locals. -/
theorem DecodeTransform_complete (E : JsonText ν) (JsonObject : FJsonObject ν)
    (hc : complete E JsonObject = true) (u1 u2 : Indeterminate ν) :
    DecodeTransform E u1 JsonObject = DecodeTransform E u2 JsonObject := by
  unfold complete at hc
  unfold DecodeTransform
  cases hl : FJsonObject.TryGetObjectField JsonObject "location" with
  | none =>
    cases hr : FJsonObject.TryGetObjectField JsonObject "rotation" with
    | none => rfl
    | some r =>
      simp only [hl, hr, hasNumbers, List.all_cons, List.all_nil, Bool.and_true,
        Bool.true_and, Bool.and_eq_true, Option.isSome_iff_exists] at hc
      obtain ⟨⟨a, ha⟩, ⟨b, hb⟩, ⟨c, hc⟩⟩ := hc
      simp [FJsonObject.TryGetNumberField, ha, hb, hc]
  | some l =>
    cases hr : FJsonObject.TryGetObjectField JsonObject "rotation" with
    | none =>
      simp only [hl, hr, hasNumbers, List.all_cons, List.all_nil, Bool.and_true,
        Bool.true_and, Bool.and_eq_true, Option.isSome_iff_exists] at hc
      obtain ⟨⟨a, ha⟩, ⟨b, hb⟩, ⟨c, hc⟩⟩ := hc
      simp [FJsonObject.TryGetNumberField, ha, hb, hc]
    | some r =>
      simp only [hl, hr, hasNumbers, List.all_cons, List.all_nil, Bool.and_true,
        Bool.true_and, Bool.and_eq_true, Option.isSome_iff_exists] at hc
      obtain ⟨⟨⟨a, ha⟩, ⟨b, hb⟩, ⟨c, hc⟩⟩, ⟨d, hd⟩, ⟨e, he⟩, ⟨f, hf⟩⟩ := hc
      simp [FJsonObject.TryGetNumberField, ha, hb, hc, hd, he, hf]

/-- The two forms of a command on complete documents: a document `A` with
`"type":"camera_transform"` and `"camera_id":s` (and no `target_id`) and a
document `B` with `"type":"actor_transform"` and `"target_id":s`, with the same
`location` and `rotation` members, decode to the same transform, whose id is
`s`, for the same values of the decoder's uninitialised locals always, and for
any values of them when the document is complete (every `location` or
`rotation` object given has its three numbers). -/
theorem DecodeTransform_legacy_variant (E : JsonText ν) (A B : FJsonObject ν) (s : String)
    (hAt : TMap.Find A "type" = some (FJsonValue.string "camera_transform"))
    (hAi : TMap.Find A "camera_id" = some (FJsonValue.string s))
    (hAn : TMap.Find A "target_id" = none)
    (hBt : TMap.Find B "type" = some (FJsonValue.string "actor_transform"))
    (hBi : TMap.Find B "target_id" = some (FJsonValue.string s))
    (hloc : TMap.Find A "location" = TMap.Find B "location")
    (hrot : TMap.Find A "rotation" = TMap.Find B "rotation") :
    (∀ u : Indeterminate ν, DecodeTransform E u A = DecodeTransform E u B) ∧
    (∀ u : Indeterminate ν, ∃ t, DecodeTransform E u A = some t ∧ t.CameraID = s) ∧
    (complete E A = true →
      ∀ u1 u2 : Indeterminate ν, DecodeTransform E u1 A = DecodeTransform E u2 B) := by
  have hsame : ∀ u : Indeterminate ν, DecodeTransform E u A = DecodeTransform E u B := by
    intro u
    simp [DecodeTransform, FJsonObject.TryGetStringField, FJsonObject.TryGetObjectField,
      FJsonValue.TryGetString, hAt, hAi, hAn, hBt, hBi, hloc, hrot]
  refine ⟨hsame, ?_, ?_⟩
  · intro u
    simp [DecodeTransform, FJsonObject.TryGetStringField, FJsonValue.TryGetString, hAt, hAi,
      hAn]
  · intro hc u1 u2
    rw [DecodeTransform_complete E A hc u1 u2]
    exact hsame u2

theorem DecodeTransform_legacy_variant_witness :
    (TMap.Find docLegacy "type" = some (FJsonValue.string "camera_transform") ∧
      TMap.Find docLegacy "camera_id" = some (FJsonValue.string "cam1") ∧
      TMap.Find docLegacy "target_id" = none ∧
      TMap.Find docActor "type" = some (FJsonValue.string "actor_transform") ∧
      TMap.Find docActor "target_id" = some (FJsonValue.string "cam1") ∧
      TMap.Find docLegacy "location" = TMap.Find docActor "location" ∧
      TMap.Find docLegacy "rotation" = TMap.Find docActor "rotation") ∧
    DecodeTransform intText junk docLegacy = DecodeTransform intText junk docActor ∧
    DecodeTransform intText junk docActor =
      some { Location := ⟨1, 2, 3⟩, Rotation := ⟨0, 90, 0⟩, CameraID := "cam1" } :=
  ⟨⟨rfl, rfl, rfl, rfl, rfl, rfl, rfl⟩,
    (DecodeTransform_legacy_variant intText docLegacy docActor "cam1"
      rfl rfl rfl rfl rfl rfl rfl).1 junk,
    by decide⟩

/-- C10 (the code at the failing input): the two forms of one command whose
location has `x = 1`, `z = 3` and no `y`, `docMissingY` with
`"type":"camera_transform"` and `"camera_id":"cam1"` and `docMissingYActor` with
`"type":"actor_transform"` and `"target_id":"cam1"`, are both accepted, and they
decode to different transforms when the uninitialised local `Y` holds `12` at
the one decode and `99` at the other. -/
theorem DecodeTransform_legacy_variant_missing_key :
    TMap.Find docMissingY "location" = TMap.Find docMissingYActor "location" ∧
    TMap.Find docMissingY "rotation" = TMap.Find docMissingYActor "rotation" ∧
    DecodeTransform intText junk docMissingY =
      some { Location := ⟨1, 12, 3⟩, Rotation := ⟨0, 0, 0⟩, CameraID := "cam1" } ∧
    DecodeTransform intText junk2 docMissingYActor =
      some { Location := ⟨1, 99, 3⟩, Rotation := ⟨0, 0, 0⟩, CameraID := "cam1" } ∧
    DecodeTransform intText junk docMissingY ≠
      DecodeTransform intText junk2 docMissingYActor := by
  refine ⟨rfl, rfl, by decide, by decide, by decide⟩

end FZeroMQReceiverWorker

/-! ## Decoding of commands, the receive loop and the drain call -/

namespace FZeroMQReceiverWorker

variable {ν : Type} [Zero ν] [One ν]

/-- The decoder enqueues a transform exactly for the documents it accepts. -/
theorem DecodeTransform_isSome (E : JsonText ν) (u : Indeterminate ν)
    (JsonObject : FJsonObject ν) :
    (DecodeTransform E u JsonObject).isSome = accepts E JsonObject := by
  cases hacc : accepts E JsonObject with
  | false =>
    unfold accepts at hacc
    simp only [DecodeTransform, hacc, Bool.false_eq_true, if_false, Option.isSome_none]
  | true =>
    unfold accepts at hacc
    simp only [DecodeTransform, hacc, if_true, Option.isSome_some]

/-- C14: a document of type `actor_transform` with a string `target_id`, a
`location` object with numbers `x`, `y`, `z` and a `rotation` object with numbers
`roll`, `pitch`, `yaw` decodes, whatever the values of the uninitialised locals,
to the transform with that id, location `(x, y, z)` and rotation with that roll,
pitch and yaw; exactly this one transform is appended to the message queue. -/
theorem DecodeTransform_actor_transform (E : JsonText ν) (u : Indeterminate ν)
    (doc loc rot : FJsonObject ν) (t : String) (x y z roll pitch yaw : ν)
    (htype : TMap.Find doc "type" = some (FJsonValue.string "actor_transform"))
    (hid : TMap.Find doc "target_id" = some (FJsonValue.string t))
    (hloc : TMap.Find doc "location" = some (FJsonValue.object loc))
    (hx : TMap.Find loc "x" = some (FJsonValue.number x))
    (hy : TMap.Find loc "y" = some (FJsonValue.number y))
    (hz : TMap.Find loc "z" = some (FJsonValue.number z))
    (hrot : TMap.Find doc "rotation" = some (FJsonValue.object rot))
    (hroll : TMap.Find rot "roll" = some (FJsonValue.number roll))
    (hpitch : TMap.Find rot "pitch" = some (FJsonValue.number pitch))
    (hyaw : TMap.Find rot "yaw" = some (FJsonValue.number yaw)) :
    DecodeTransform E u doc =
      some { Location := { X := x, Y := y, Z := z },
             Rotation := { Pitch := pitch, Yaw := yaw, Roll := roll }, CameraID := t } ∧
    ∀ MessageQueue : List (FCameraTransform ν),
      ProcessDocument E u (some doc) MessageQueue =
        MessageQueue ++
          [{ Location := { X := x, Y := y, Z := z },
             Rotation := { Pitch := pitch, Yaw := yaw, Roll := roll }, CameraID := t }] := by
  have hdec : DecodeTransform E u doc =
      some { Location := { X := x, Y := y, Z := z },
             Rotation := { Pitch := pitch, Yaw := yaw, Roll := roll }, CameraID := t } := by
    simp [DecodeTransform, FJsonObject.TryGetStringField, FJsonObject.TryGetObjectField,
      FJsonObject.TryGetNumberField, FJsonValue.TryGetString, FJsonValue.TryGetObject,
      FJsonValue.TryGetNumber, htype, hid, hloc, hx, hy, hz, hrot, hroll, hpitch, hyaw]
  refine ⟨hdec, ?_⟩
  intro MessageQueue
  simp [ProcessDocument, hdec]

theorem DecodeTransform_actor_transform_witness :
    TMap.Find docBroadcast "type" = some (FJsonValue.string "actor_transform") ∧
    TMap.Find docBroadcast "target_id" = some (FJsonValue.string "") ∧
    DecodeTransform intText junk docBroadcast =
      some { Location := { X := 1, Y := 2, Z := 3 },
             Rotation := { Pitch := 0, Yaw := 90, Roll := 0 }, CameraID := "" } ∧
    ProcessDocument intText junk (some docBroadcast) [] =
      [{ Location := { X := 1, Y := 2, Z := 3 },
         Rotation := { Pitch := 0, Yaw := 90, Roll := 0 }, CameraID := "" }] :=
  have h := DecodeTransform_actor_transform intText junk docBroadcast
    [("x", FJsonValue.number 1), ("y", FJsonValue.number 2), ("z", FJsonValue.number 3)]
    [("roll", FJsonValue.number 0), ("pitch", FJsonValue.number 0),
      ("yaw", FJsonValue.number 90)]
    "" 1 2 3 0 0 90 rfl rfl rfl rfl rfl rfl rfl rfl rfl rfl
  ⟨rfl, rfl, h.1, h.2 []⟩

/-- The receive loop on a message that fits the buffer (at most `1023` bytes):
nothing is enqueued for an empty message, for a text that does not deserialise
and for a document that is not accepted; exactly one transform is enqueued for
a text that deserialises to an accepted document.  And nothing is enqueued when
`zmq_recv` delivers nothing. -/
theorem RunIteration_fits (E : JsonText ν) (R : JsonReader ν) (u : Indeterminate ν)
    (msg : List UInt8) (MessageQueue : List (FCameraTransform ν))
    (hfit : msg.length < 1024) :
    (∀ JsonObject, msg ≠ [] →
      R.Deserialize (R.UTF8_TO_TCHAR (cString msg)) = some JsonObject →
      accepts E JsonObject = true →
      ∃ t, DecodeTransform E u JsonObject = some t ∧
        RunIteration E R u (some msg) MessageQueue = some (MessageQueue ++ [t])) ∧
    (msg = [] ∨ R.Deserialize (R.UTF8_TO_TCHAR (cString msg)) = none ∨
      (∃ JsonObject, R.Deserialize (R.UTF8_TO_TCHAR (cString msg)) = some JsonObject ∧
        accepts E JsonObject = false) →
      RunIteration E R u (some msg) MessageQueue = some MessageQueue) ∧
    RunIteration E R u none MessageQueue = some MessageQueue := by
  have hfit2 : (msg.length : Int) < 1024 := by exact_mod_cast hfit
  refine ⟨?_, ?_, rfl⟩
  · intro JsonObject hne hdes hacc
    have hpos : (msg.length : Int) > 0 := by
      have : 0 < msg.length := List.length_pos.mpr hne
      exact_mod_cast this
    have hsome := DecodeTransform_isSome E u JsonObject
    rw [hacc] at hsome
    obtain ⟨t, ht⟩ := Option.isSome_iff_exists.mp hsome
    refine ⟨t, ht, ?_⟩
    simp [RunIteration, hpos, hfit2, hdes, ProcessDocument, ht]
  · intro h
    by_cases hne : msg = []
    · simp [RunIteration, hne]
    · have hpos : (msg.length : Int) > 0 := by
        have : 0 < msg.length := List.length_pos.mpr hne
        exact_mod_cast this
      rcases h with h | h | ⟨JsonObject, hdes, hacc⟩
      · exact absurd h hne
      · simp [RunIteration, hpos, hfit2, h, ProcessDocument]
      · have hsome := DecodeTransform_isSome E u JsonObject
        rw [hacc] at hsome
        have hnone : DecodeTransform E u JsonObject = none := by
          cases hd : DecodeTransform E u JsonObject with
          | none => rfl
          | some t => rw [hd] at hsome; simp at hsome
        simp [RunIteration, hpos, hfit2, hdes, ProcessDocument, hnone]

/-- C13 (the code at the failing input): for the command `longCommand` of 1041
bytes, a well-formed document of type `actor_transform`, the loop iteration
writes the terminator at `buffer[1041]`, outside `char buffer[1024]`; its
behaviour is undefined, whatever the reader and the queue. -/
theorem RunIteration_long_command (E : JsonText ν) (R : JsonReader ν)
    (u : Indeterminate ν) (MessageQueue : List (FCameraTransform ν)) :
    longCommand.length = 1041 ∧
      RunIteration E R u (some longCommand) MessageQueue = none := by
  have hl : longCommand.length = 1041 := by
    unfold longCommand
    rw [List.length_append, List.length_append, List.length_replicate]
    decide
  refine ⟨hl, ?_⟩
  simp [RunIteration, hl]

end FZeroMQReceiverWorker

/-! ## The drain call -/

/-- The loop broadcasts the whole content of the queue in order and leaves the
queue empty. -/
theorem broadcastLoop_eq {ν : Type} (queue broadcasts : List (FCameraTransform ν)) :
    broadcastLoop queue broadcasts = ([], broadcasts ++ queue) := by
  induction queue generalizing broadcasts with
  | nil => simp [broadcastLoop]
  | cons t rest ih => simp [broadcastLoop, ih]

namespace UZeroMQReceiverComponent

variable {ν : Type}

/-- C15: `ProcessMessages` broadcasts every transform that is in the message
queue, each once and in queue order, and leaves the queue empty (so does the
same loop in `AZeroMQControlledActor::ProcessMessages`); a second call right
after it broadcasts nothing more, and a call on an empty queue broadcasts
nothing. -/
theorem ProcessMessages_drains (self : UZeroMQReceiverComponent ν)
    (broadcasts : List (FCameraTransform ν)) :
    (ProcessMessages self broadcasts).1.MessageQueue = [] ∧
    (ProcessMessages self broadcasts).2 = broadcasts ++ self.MessageQueue ∧
    broadcastLoop self.MessageQueue broadcasts = ([], broadcasts ++ self.MessageQueue) ∧
    ProcessMessages (ProcessMessages self broadcasts).1 (ProcessMessages self broadcasts).2 =
      ProcessMessages self broadcasts ∧
    (ProcessMessages { self with MessageQueue := [] } broadcasts).2 = broadcasts := by
  simp [ProcessMessages, broadcastLoop_eq]

end UZeroMQReceiverComponent

/-! ## Start and stop of the subsystem -/

/-- A call of `SendImageMessage` closes no socket. -/
theorem closes_SendImageMessage (zmq : Zmq) (Socket : Handle) (CameraID : String)
    (ImageData : List UInt8) (calls : List ZmqCall) :
    closes (FZeroMQWorkerThread.SendImageMessage zmq Socket CameraID ImageData calls).2 =
      closes calls := by
  unfold FZeroMQWorkerThread.SendImageMessage
  split
  · rfl
  · dsimp only
    split
    · simp [closes_append, closes]
    · split <;> simp [closes_append, closes]

/-- A drain pass closes no socket. -/
theorem closes_drain (zmq : Zmq) (conns : TMap FCameraConnection) (q : List ImageItem)
    (calls : List ZmqCall) :
    closes (FZeroMQWorkerThread.drain zmq conns q calls).2 = closes calls := by
  induction q generalizing calls with
  | nil => rfl
  | cons item rest ih =>
    unfold FZeroMQWorkerThread.drain
    cases TMap.Find conns item.1 with
    | none => exact ih calls
    | some c => rw [ih, closes_SendImageMessage]

/-- The sockets closed by a list of `zmq_close` calls. -/
theorem closes_map_close (m : TMap FCameraConnection) :
    closes (m.map fun Elem => ZmqCall.close Elem.2.Socket) = m.map fun Elem => Elem.2.Socket := by
  induction m with
  | nil => rfl
  | cons e rest ih =>
    have h : closes (ZmqCall.close e.2.Socket ::
        rest.map fun Elem => ZmqCall.close Elem.2.Socket) =
        e.2.Socket :: closes (rest.map fun Elem => ZmqCall.close Elem.2.Socket) := rfl
    simp only [List.map_cons, h, ih]

/-- A list of `zmq_close` calls sends nothing. -/
theorem sends_map_close (m : TMap FCameraConnection) :
    sends (m.map fun Elem => ZmqCall.close Elem.2.Socket) = [] := by
  induction m with
  | nil => rfl
  | cons e rest ih =>
    have h : sends (ZmqCall.close e.2.Socket ::
        rest.map fun Elem => ZmqCall.close Elem.2.Socket) =
        sends (rest.map fun Elem => ZmqCall.close Elem.2.Socket) := rfl
    simp only [List.map_cons, h, ih]

namespace UZeroMQCommunicationSubsystem

/-- The effect of `ShutdownZeroMQ` when there is a context. -/
theorem ShutdownZeroMQ_eq (self : UZeroMQCommunicationSubsystem) (calls : List ZmqCall)
    (hctx : self.ZMQContext ≠ nullptr) :
    ShutdownZeroMQ self calls =
      ({ self with CameraConnections := [], ZMQContext := nullptr },
        calls ++ (self.CameraConnections.map fun Elem => ZmqCall.close Elem.2.Socket) ++
          [ZmqCall.ctx_term self.ZMQContext]) := by
  simp [ShutdownZeroMQ, hctx, TMap.Empty]

/-- After `StopConnection` the subsystem is not connected. -/
theorem StopConnection_not_connected (zmq : Zmq) (lastPass : Bool) (w : World) :
    (StopConnection zmq lastPass w).sub.bIsConnected = false := by
  unfold StopConnection
  cases h : w.sub.bIsConnected
  · simp [h]
  · simp

/-- C16: `StopConnection` on a subsystem that is not connected changes nothing:
same state, no call to the library, no call on a worker or thread; and a second
`StopConnection` after a first one changes nothing more, whatever the state. -/
theorem StopConnection_idempotent (zmq : Zmq) (lastPass1 lastPass2 : Bool) (w : World) :
    (w.sub.bIsConnected = false → StopConnection zmq lastPass1 w = w) ∧
    StopConnection zmq lastPass2 (StopConnection zmq lastPass1 w) =
      StopConnection zmq lastPass1 w := by
  constructor
  · intro h
    simp [StopConnection, h]
  · have h := StopConnection_not_connected zmq lastPass1 w
    generalize StopConnection zmq lastPass1 w = w1 at h
    simp [StopConnection, h]

theorem StopConnection_idempotent_witness :
    stopped.bIsConnected = false ∧
    StopConnection zmqOk true { sub := stopped, calls := [], threads := [] } =
      { sub := stopped, calls := [], threads := [] } ∧
    StopConnection zmqOk true
        (StopConnection zmqOk false { sub := runningPending, calls := [], threads := [] }) =
      StopConnection zmqOk false { sub := runningPending, calls := [], threads := [] } :=
  ⟨rfl,
    (StopConnection_idempotent zmqOk true true
      { sub := stopped, calls := [], threads := [] }).1 rfl,
    (StopConnection_idempotent zmqOk false true
      { sub := runningPending, calls := [], threads := [] }).2⟩

/-- The effect of `StopConnection` on a running subsystem. -/
theorem StopConnection_running (zmq : Zmq) (lastPass : Bool) (w : World)
    (hrun : IsRunning w.sub) :
    StopConnection zmq lastPass w =
      { sub :=
          { w.sub with
            ImageQueue := if lastPass = true then [] else w.sub.ImageQueue,
            Thread := nullptr, WorkerThread := none, CameraConnections := [],
            ZMQContext := nullptr, bIsConnected := false },
        calls :=
          (if lastPass = true then
              (FZeroMQWorkerThread.drain zmq w.sub.CameraConnections w.sub.ImageQueue
                w.calls).2
            else w.calls) ++
            (w.sub.CameraConnections.map fun Elem => ZmqCall.close Elem.2.Socket) ++
            [ZmqCall.ctx_term w.sub.ZMQContext],
        threads :=
          w.threads ++
            [ThreadCall.RequestStop, ThreadCall.WaitForCompletion w.sub.Thread,
              ThreadCall.DeleteThread w.sub.Thread, ThreadCall.DeleteWorker] } := by
  obtain ⟨hc, hctx, hw, ht⟩ := hrun
  cases lastPass
  · simp [StopConnection, hc, hw, ht, shared, ShutdownZeroMQ, hctx, TMap.Empty]
  · simp [StopConnection, hc, hw, ht, shared, ShutdownZeroMQ, hctx, TMap.Empty,
      FZeroMQWorkerThread.ProcessImageQueue, FZeroMQWorkerThread.drain_queue_empty]

/-- C17: `StopConnection` on a running subsystem leaves the stopped state: not
connected, context null, `WorkerThread` and `Thread` null, registry empty.  The
worker was asked to stop, its thread joined and deleted and the worker deleted;
after what the worker still sent, the calls to the library are one `zmq_close`
for every socket of the registry and then `zmq_ctx_term` on the context. -/
theorem StopConnection_stops (zmq : Zmq) (lastPass : Bool) (w : World)
    (hrun : IsRunning w.sub) :
    IsStopped (StopConnection zmq lastPass w).sub ∧
    (StopConnection zmq lastPass w).threads =
      w.threads ++
        [ThreadCall.RequestStop, ThreadCall.WaitForCompletion w.sub.Thread,
          ThreadCall.DeleteThread w.sub.Thread, ThreadCall.DeleteWorker] ∧
    (StopConnection zmq lastPass w).calls =
      (if lastPass = true then
          (FZeroMQWorkerThread.ProcessImageQueue zmq w.sub.shared w.calls).2
        else w.calls) ++
        (w.sub.CameraConnections.map fun Elem => ZmqCall.close Elem.2.Socket) ++
        [ZmqCall.ctx_term w.sub.ZMQContext] ∧
    closes (StopConnection zmq lastPass w).calls =
      closes w.calls ++ w.sub.CameraConnections.map fun Elem => Elem.2.Socket := by
  rw [StopConnection_running zmq lastPass w hrun]
  refine ⟨⟨rfl, rfl, rfl, rfl, rfl⟩, rfl, ?_, ?_⟩
  · simp [FZeroMQWorkerThread.ProcessImageQueue, shared]
  · have hterm : closes [ZmqCall.ctx_term w.sub.ZMQContext] = [] := rfl
    cases lastPass
    · simp [closes_append, closes_map_close, hterm]
    · simp [closes_append, closes_map_close, hterm, closes_drain]

theorem StopConnection_stops_witness :
    IsRunning runningOne ∧
    IsStopped (StopConnection zmqOk false
      { sub := runningOne, calls := [], threads := [] }).sub ∧
    (StopConnection zmqOk false { sub := runningOne, calls := [], threads := [] }).calls =
      [ZmqCall.close 7, ZmqCall.ctx_term 1] :=
  have hrun : IsRunning runningOne := ⟨rfl, by decide, rfl, by decide⟩
  ⟨hrun,
    (StopConnection_stops zmqOk false { sub := runningOne, calls := [], threads := [] }
      hrun).1,
    (StopConnection_stops zmqOk false { sub := runningOne, calls := [], threads := [] }
      hrun).2.2.1⟩

/-- C18 (counterexample): a running subsystem with one image waiting in the
queue, whose worker leaves its loop without a further pass, still has that image
in the queue after `StopConnection`; and a receiver component with one
transform waiting still has it in the message queue after its `StopConnection`. -/
theorem StopConnection_keeps_pending :
    IsRunning runningPending ∧
    (StopConnection zmqOk false
      { sub := runningPending, calls := [], threads := [] }).sub.ImageQueue =
        [("Camera01", [1, 2, 3])] ∧
    (UZeroMQReceiverComponent.StopConnection true [] receiverPending [] []).1.MessageQueue =
      [{ Location := ⟨1, 2, 3⟩, Rotation := ⟨0, 90, 0⟩, CameraID := "" }] :=
  ⟨⟨rfl, by decide, rfl, by decide⟩, by decide, by decide⟩

/-- C18 (amended): on a running subsystem whose worker leaves its loop without a
further pass, the image queue after `StopConnection` is the queue as it was at
the call.  When the worker still completes a pass before its thread is joined,
the queue is empty afterwards and the id frames handed to `zmq_send` by the call
are those of the waiting items that have a registered non-null socket, in queue
order (none for a waiting item without one).
`UZeroMQReceiverComponent::StopConnection` removes nothing from the message
queue: its content at the call is a prefix of its content afterwards. -/
theorem StopConnection_queues {ν : Type} (zmq : Zmq) (w : World) (hrun : IsRunning w.sub)
    (hasWorld : Bool) (late : List (FCameraTransform ν)) (self : UZeroMQReceiverComponent ν)
    (calls : List ZmqCall) (threads : List ThreadCall) :
    (StopConnection zmq false w).sub.ImageQueue = w.sub.ImageQueue ∧
    (StopConnection zmq true w).sub.ImageQueue = [] ∧
    firstFrames (StopConnection zmq true w).calls =
      firstFrames w.calls ++
        w.sub.ImageQueue.filterMap
          (FZeroMQWorkerThread.firstFrameOf w.sub.CameraConnections) ∧
    ∃ rest, (UZeroMQReceiverComponent.StopConnection hasWorld late self calls
      threads).1.MessageQueue = self.MessageQueue ++ rest := by
  refine ⟨?_, ?_, ?_, ?_⟩
  · rw [StopConnection_running zmq false w hrun]
    simp
  · rw [StopConnection_running zmq true w hrun]
    simp
  · rw [StopConnection_running zmq true w hrun]
    have hterm : sends [ZmqCall.ctx_term w.sub.ZMQContext] = [] := rfl
    have h := FZeroMQWorkerThread.firstFrames_drain zmq w.sub.CameraConnections
      w.sub.ImageQueue w.calls
    unfold firstFrames at h ⊢
    simp only [if_true, sends_append, sends_map_close, hterm, List.append_nil]
    exact h
  · by_cases ht : self.Thread = nullptr
    · exact ⟨[], by simp [UZeroMQReceiverComponent.StopConnection, ht]⟩
    · exact ⟨late, by simp [UZeroMQReceiverComponent.StopConnection, ht]⟩

theorem StopConnection_queues_witness :
    IsRunning runningPending ∧
    (StopConnection zmqOk false
      { sub := runningPending, calls := [], threads := [] }).sub.ImageQueue =
      runningPending.ImageQueue ∧
    (StopConnection zmqOk true
      { sub := runningPending, calls := [], threads := [] }).sub.ImageQueue = [] :=
  have hrun : IsRunning runningPending := ⟨rfl, by decide, rfl, by decide⟩
  have h := StopConnection_queues zmqOk { sub := runningPending, calls := [], threads := [] }
    hrun true [] receiverPending [] []
  ⟨hrun, h.1, h.2.1⟩

/-- C19: `StartConnection` from the stopped state connects exactly when the
context is created and the thread is created.  When it connects, the subsystem
is running with that context and that thread.  When it does not, the subsystem
is back in the state it started from (not connected, no context, no worker, no
thread, empty registry), no socket was created, and a context that had been
created was terminated. -/
theorem StartConnection_all_or_nothing (zmq : Zmq) (NewThread : Handle) (w : World)
    (hst : IsStopped w.sub) :
    ((StartConnection zmq NewThread w).sub.bIsConnected = true ↔
      zmq.zmq_ctx_new w.calls ≠ nullptr ∧ NewThread ≠ nullptr) ∧
    ((StartConnection zmq NewThread w).sub.bIsConnected = true →
      IsRunning (StartConnection zmq NewThread w).sub ∧
      (StartConnection zmq NewThread w).sub.ZMQContext = zmq.zmq_ctx_new w.calls ∧
      (StartConnection zmq NewThread w).sub.Thread = NewThread ∧
      (StartConnection zmq NewThread w).calls =
        w.calls ++ [ZmqCall.ctx_new (zmq.zmq_ctx_new w.calls)]) ∧
    ((StartConnection zmq NewThread w).sub.bIsConnected = false →
      (StartConnection zmq NewThread w).sub = w.sub ∧
      IsStopped (StartConnection zmq NewThread w).sub ∧
      created (StartConnection zmq NewThread w).calls = created w.calls ∧
      ((StartConnection zmq NewThread w).calls = w.calls ++ [ZmqCall.ctx_new nullptr] ∨
        (StartConnection zmq NewThread w).calls =
          w.calls ++ [ZmqCall.ctx_new (zmq.zmq_ctx_new w.calls),
            ZmqCall.ctx_term (zmq.zmq_ctx_new w.calls)])) := by
  obtain ⟨⟨ctx, wt, th, iq, cs, cc, bc⟩, calls, threads⟩ := w
  obtain ⟨hc, hctx, hw, ht, hreg⟩ := hst
  simp only at hc hctx hw ht hreg
  subst hc hctx hw ht hreg
  by_cases hnew : zmq.zmq_ctx_new calls = nullptr
  · have hres : StartConnection zmq NewThread
          { sub := ⟨nullptr, none, nullptr, iq, cs, [], false⟩, calls := calls,
            threads := threads } =
        { sub := ⟨nullptr, none, nullptr, iq, cs, [], false⟩,
          calls := calls ++ [ZmqCall.ctx_new nullptr], threads := threads } := by
      simp [StartConnection, InitializeZeroMQ, hnew]
    rw [hres]
    refine ⟨?_, ?_, ?_⟩
    · simp [hnew]
    · intro h
      simp at h
    · intro _
      refine ⟨rfl, ⟨rfl, rfl, rfl, rfl, rfl⟩, ?_, Or.inl rfl⟩
      simp [created_append, created]
  · by_cases hth : NewThread = nullptr
    · have hres : StartConnection zmq NewThread
            { sub := ⟨nullptr, none, nullptr, iq, cs, [], false⟩, calls := calls,
              threads := threads } =
          { sub := ⟨nullptr, none, nullptr, iq, cs, [], false⟩,
            calls := calls ++ [ZmqCall.ctx_new (zmq.zmq_ctx_new calls),
              ZmqCall.ctx_term (zmq.zmq_ctx_new calls)],
            threads := threads ++ [ThreadCall.Create nullptr, ThreadCall.DeleteWorker] } := by
        simp [StartConnection, InitializeZeroMQ, hnew, hth, ShutdownZeroMQ, TMap.Empty]
      rw [hres]
      refine ⟨?_, ?_, ?_⟩
      · simp [hth]
      · intro h
        simp at h
      · intro _
        refine ⟨rfl, ⟨rfl, rfl, rfl, rfl, rfl⟩, ?_, Or.inr rfl⟩
        simp [created_append, created]
    · have hres : StartConnection zmq NewThread
            { sub := ⟨nullptr, none, nullptr, iq, cs, [], false⟩, calls := calls,
              threads := threads } =
          { sub := ⟨zmq.zmq_ctx_new calls,
              some { ZMQContext := zmq.zmq_ctx_new calls, bIsRunning := true },
              NewThread, iq, cs, [], true⟩,
            calls := calls ++ [ZmqCall.ctx_new (zmq.zmq_ctx_new calls)],
            threads := threads ++ [ThreadCall.Create NewThread] } := by
        simp [StartConnection, InitializeZeroMQ, hnew, hth]
      rw [hres]
      refine ⟨?_, ?_, ?_⟩
      · simp [hnew, hth]
      · intro _
        exact ⟨⟨rfl, hnew, rfl, hth⟩, rfl, rfl, rfl⟩
      · intro h
        simp at h

theorem StartConnection_all_or_nothing_witness :
    IsStopped stopped ∧
    (StartConnection zmqOk 5 { sub := stopped, calls := [], threads := [] }).sub.bIsConnected
      = true ∧
    (StartConnection zmqOk 0 { sub := stopped, calls := [], threads := [] }).sub = stopped ∧
    (StartConnection zmqStub 5 { sub := stopped, calls := [], threads := [] }).sub = stopped :=
  have hst : IsStopped stopped := ⟨rfl, rfl, rfl, rfl, rfl⟩
  ⟨hst,
    (StartConnection_all_or_nothing zmqOk 5 { sub := stopped, calls := [], threads := [] }
      hst).1.mpr ⟨by decide, by decide⟩,
    ((StartConnection_all_or_nothing zmqOk 0 { sub := stopped, calls := [], threads := [] }
      hst).2.2 (by decide)).1,
    ((StartConnection_all_or_nothing zmqStub 5 { sub := stopped, calls := [], threads := [] }
      hst).2.2 (by decide)).1⟩

end UZeroMQCommunicationSubsystem

/-! ## The order of context and socket calls -/

section Order

variable {V : Type}

theorem TMap.not_mem_keys_of_Find_none (m : TMap V) (k : String)
    (h : TMap.Find m k = none) :
    FString.ToLower k ∉ m.map fun Elem => FString.ToLower Elem.1 := by
  induction m with
  | nil => simp
  | cons e rest ih =>
    obtain ⟨k1, v1⟩ := e
    by_cases hk : FString.Equals k1 k = true
    · simp [TMap.Find, hk] at h
    · simp only [TMap.Find, hk, if_false] at h
      simp only [List.map_cons, List.mem_cons, not_or]
      exact ⟨fun heq => hk ((FString.Equals_iff k1 k).mpr heq.symm), ih h⟩

theorem TMap.Add_of_Find_none (m : TMap V) (k : String) (v : V)
    (h : TMap.Find m k = none) : TMap.Add m k v = m ++ [(k, v)] := by
  induction m with
  | nil => rfl
  | cons e rest ih =>
    obtain ⟨k1, v1⟩ := e
    by_cases hk : FString.Equals k1 k = true
    · simp [TMap.Find, hk] at h
    · simp only [TMap.Find, hk, if_false] at h
      simp [TMap.Add, hk, ih h]

theorem TMap.Remove_of_not_mem (m : TMap V) (k : String)
    (h : FString.ToLower k ∉ m.map fun Elem => FString.ToLower Elem.1) :
    TMap.Remove m k = m := by
  unfold TMap.Remove
  rw [List.filter_eq_self]
  intro e he
  have hne : ¬ FString.Equals e.1 k = true := by
    intro heq
    rw [FString.Equals_iff] at heq
    exact h (heq ▸ List.mem_map_of_mem (fun Elem => FString.ToLower Elem.1) he)
  simp [hne]

theorem TMap.nodup_Remove (m : TMap V) (k : String)
    (h : (m.map fun Elem => FString.ToLower Elem.1).Nodup) :
    ((TMap.Remove m k).map fun Elem => FString.ToLower Elem.1).Nodup :=
  List.Nodup.sublist
    (List.Sublist.map (fun Elem => FString.ToLower Elem.1) (List.filter_sublist m)) h

theorem TMap.sockets_perm_of_Find (m : TMap FCameraConnection) (k : String)
    (c : FCameraConnection) (hnd : (m.map fun Elem => FString.ToLower Elem.1).Nodup)
    (h : TMap.Find m k = some c) :
    (m.map fun Elem => Elem.2.Socket).Perm
      (c.Socket :: (TMap.Remove m k).map fun Elem => Elem.2.Socket) := by
  induction m with
  | nil => simp [TMap.Find] at h
  | cons e rest ih =>
    obtain ⟨k1, v1⟩ := e
    simp only [List.map_cons, List.nodup_cons] at hnd
    by_cases hk : FString.Equals k1 k = true
    · simp only [TMap.Find, hk, if_true, Option.some.injEq] at h
      subst h
      have hkey : FString.ToLower k1 = FString.ToLower k := (FString.Equals_iff k1 k).mp hk
      have hrem : TMap.Remove ((k1, v1) :: rest) k = rest := by
        have h1 := TMap.Remove_of_not_mem rest k (hkey ▸ hnd.1)
        unfold TMap.Remove at h1 ⊢
        rw [List.filter_cons]
        simpa [hk] using h1
      rw [hrem]
      exact List.Perm.refl _
    · simp only [TMap.Find, hk, if_false] at h
      have hrem : TMap.Remove ((k1, v1) :: rest) k = (k1, v1) :: TMap.Remove rest k := by
        unfold TMap.Remove
        simp [List.filter_cons, hk]
      rw [hrem]
      simp only [List.map_cons]
      exact List.Perm.trans (List.Perm.cons _ (ih hnd.2 h)) (List.Perm.swap _ _ _)

end Order

theorem trackLog_append (t : Track) (a b : List ZmqCall) :
    trackLog t (a ++ b) = (trackLog t a).bind fun t1 => trackLog t1 b := by
  induction a generalizing t with
  | nil => rfl
  | cons c rest ih =>
    simp only [List.cons_append, trackLog]
    cases trackCall t c with
    | none => rfl
    | some t1 => exact ih t1

theorem eraseP_map_pair (L : List Handle) (c s : Handle) :
    (L.map fun h => (h, c)).eraseP (fun e => e.1 = s) = (L.erase s).map fun h => (h, c) := by
  induction L with
  | nil => rfl
  | cons a rest ih =>
    by_cases ha : a = s
    · simp [List.eraseP_cons, ha]
    · have hne : (a == s) = false := by simp [ha]
      simp [List.eraseP_cons, List.erase_cons, ha, hne, ih]

/-- Closing the sockets of a registry, in any order of the registry, closes all
open sockets when these are the sockets of the registry. -/
theorem trackLog_closes (live : List Handle) (c : Handle) (S L : List Handle)
    (h : L.Perm S) :
    trackLog { live := live, opened := L.map fun h => (h, c) }
        (S.map fun s => ZmqCall.close s) =
      some { live := live, opened := [] } := by
  induction S generalizing L with
  | nil =>
    have : L = [] := List.Perm.eq_nil h
    subst this
    rfl
  | cons s rest ih =>
    have hperm : (L.erase s).Perm rest := by
      have := List.Perm.erase s h
      simpa using this
    simp only [List.map_cons, trackLog, trackCall, eraseP_map_pair]
    exact ih (L.erase s) hperm

theorem trackCall_socket (ctx : Handle) (opened : List (Handle × Handle)) (type : Nat)
    (ret : Handle) (hret : ret ≠ nullptr) :
    trackCall { live := [ctx], opened := opened } (ZmqCall.socket ctx type ret) =
      some { live := [ctx], opened := (ret, ctx) :: opened } := by
  simp [trackCall, hret]

theorem trackCall_close_head (live : List Handle) (s c : Handle)
    (rest : List (Handle × Handle)) :
    trackCall { live := live, opened := (s, c) :: rest } (ZmqCall.close s) =
      some { live := live, opened := rest } := by
  simp [trackCall, List.eraseP_cons]

theorem trackLog_SendImageMessage (zmq : Zmq) (t : Track) (Socket : Handle)
    (CameraID : String) (ImageData : List UInt8) (calls : List ZmqCall) :
    trackLog t (FZeroMQWorkerThread.SendImageMessage zmq Socket CameraID ImageData calls).2 =
      trackLog t calls := by
  unfold FZeroMQWorkerThread.SendImageMessage
  split
  · rfl
  · dsimp only
    split
    · rw [trackLog_append]
      cases trackLog t calls <;> rfl
    · split
      · rw [trackLog_append, trackLog_append]
        cases trackLog t calls <;> rfl
      · rw [trackLog_append, trackLog_append]
        cases trackLog t calls <;> rfl

theorem trackLog_drain (zmq : Zmq) (t : Track) (conns : TMap FCameraConnection)
    (q : List ImageItem) (calls : List ZmqCall) :
    trackLog t (FZeroMQWorkerThread.drain zmq conns q calls).2 = trackLog t calls := by
  induction q generalizing calls with
  | nil => rfl
  | cons item rest ih =>
    unfold FZeroMQWorkerThread.drain
    cases TMap.Find conns item.1 with
    | none => exact ih calls
    | some c => rw [ih, trackLog_SendImageMessage]

namespace UZeroMQCommunicationSubsystem

/-- The three outcomes of `RegisterCamera` for a connected subsystem and an id
that is not registered, with the call `e` (the bind or connect) being one that
neither creates nor closes a socket or context. -/
theorem RegisterCamera_outcomes_order (zmq : Zmq) (self : UZeroMQCommunicationSubsystem)
    (calls : List ZmqCall) (actor : AZeroMQCameraActor)
    (hrun : self.bIsConnected = true)
    (hc : TMap.Contains self.CameraConnections actor.CameraID = false) :
    (zmq.zmq_socket calls self.ZMQContext ZMQ_PUB = nullptr ∧
      RegisterCamera zmq self calls (some actor) =
        (self, calls ++ [ZmqCall.socket self.ZMQContext ZMQ_PUB nullptr])) ∨
    (zmq.zmq_socket calls self.ZMQContext ZMQ_PUB ≠ nullptr ∧
      ∃ e : ZmqCall, (∀ t : Track, trackCall t e = some t) ∧
        (RegisterCamera zmq self calls (some actor) =
            (self, calls ++ [ZmqCall.socket self.ZMQContext ZMQ_PUB
                (zmq.zmq_socket calls self.ZMQContext ZMQ_PUB), e,
              ZmqCall.close (zmq.zmq_socket calls self.ZMQContext ZMQ_PUB)]) ∨
          RegisterCamera zmq self calls (some actor) =
            ({ self with
                CameraConnections := TMap.Add self.CameraConnections actor.CameraID
                  { Socket := zmq.zmq_socket calls self.ZMQContext ZMQ_PUB } },
              calls ++ [ZmqCall.socket self.ZMQContext ZMQ_PUB
                (zmq.zmq_socket calls self.ZMQContext ZMQ_PUB), e]))) := by
  by_cases hs : zmq.zmq_socket calls self.ZMQContext ZMQ_PUB = nullptr
  · left
    refine ⟨hs, ?_⟩
    simp [RegisterCamera, hrun, hc, hs]
  · right
    refine ⟨hs, ?_⟩
    cases hb : actor.bImageBindMode
    · generalize hr : zmq.zmq_connect
          (calls ++ [ZmqCall.socket self.ZMQContext ZMQ_PUB
            (zmq.zmq_socket calls self.ZMQContext ZMQ_PUB)])
          (zmq.zmq_socket calls self.ZMQContext ZMQ_PUB)
          (connectAddress self.CurrentSettings.ServerIP actor.ImagePort) = r
      refine ⟨ZmqCall.connect (zmq.zmq_socket calls self.ZMQContext ZMQ_PUB)
        (connectAddress self.CurrentSettings.ServerIP actor.ImagePort) r, fun _ => rfl, ?_⟩
      by_cases hr0 : r = 0
      · exact Or.inr (by simp [RegisterCamera, hrun, hc, hs, hb, hr, hr0])
      · exact Or.inl (by simp [RegisterCamera, hrun, hc, hs, hb, hr, hr0])
    · generalize hr : zmq.zmq_bind
          (calls ++ [ZmqCall.socket self.ZMQContext ZMQ_PUB
            (zmq.zmq_socket calls self.ZMQContext ZMQ_PUB)])
          (zmq.zmq_socket calls self.ZMQContext ZMQ_PUB)
          (bindAddress actor.ImagePort) = r
      refine ⟨ZmqCall.bind (zmq.zmq_socket calls self.ZMQContext ZMQ_PUB)
        (bindAddress actor.ImagePort) r, fun _ => rfl, ?_⟩
      by_cases hr0 : r = 0
      · exact Or.inr (by simp [RegisterCamera, hrun, hc, hs, hb, hr, hr0])
      · exact Or.inl (by simp [RegisterCamera, hrun, hc, hs, hb, hr, hr0])

end UZeroMQCommunicationSubsystem

/-- The invariant holds for a stopped subsystem with an empty call log. -/
theorem Inv_initial (s : UZeroMQCommunicationSubsystem) (threads : List ThreadCall)
    (hst : IsStopped s) : Inv { sub := s, calls := [], threads := threads } := by
  obtain ⟨hc, hctx, hw, ht, hreg⟩ := hst
  refine ⟨[], ?_, ?_, ?_, ?_, ?_⟩
  · simp [trackLog, hc]
  · simp [hreg]
  · simp [hreg]
  · intro h
    simp [hc] at h
  · intro _
    exact ⟨hc, hctx, hw, ht, hreg⟩

/-- The invariant only depends on the call log and on the connection flag, the
context, the worker, the thread and the registry of the subsystem. -/
theorem Inv_congr (w w1 : World) (h : Inv w) (hcalls : w1.calls = w.calls)
    (hb : w1.sub.bIsConnected = w.sub.bIsConnected)
    (hctx : w1.sub.ZMQContext = w.sub.ZMQContext)
    (hw : w1.sub.WorkerThread = w.sub.WorkerThread)
    (ht : w1.sub.Thread = w.sub.Thread)
    (hreg : w1.sub.CameraConnections = w.sub.CameraConnections) : Inv w1 := by
  obtain ⟨L, htrack, hperm, hnd, hrun, hstop⟩ := h
  refine ⟨L, ?_, ?_, ?_, ?_, ?_⟩
  · rw [hcalls, hb, hctx]
    exact htrack
  · rw [hreg]
    exact hperm
  · rw [hreg]
    exact hnd
  · intro h1
    rw [hb] at h1
    obtain ⟨a, b, c, d⟩ := hrun h1
    exact ⟨by rw [hb]; exact a, by rw [hctx]; exact b, by rw [hw]; exact c,
      by rw [ht]; exact d⟩
  · intro h1
    rw [hb] at h1
    obtain ⟨a, b, c, d, e⟩ := hstop h1
    exact ⟨by rw [hb]; exact a, by rw [hctx]; exact b, by rw [hw]; exact c,
      by rw [ht]; exact d, by rw [hreg]; exact e⟩

theorem Inv_StartConnection (zmq : Zmq) (NewThread : Handle) (w : World) (h : Inv w) :
    Inv (UZeroMQCommunicationSubsystem.StartConnection zmq NewThread w) := by
  cases hb : w.sub.bIsConnected
  · obtain ⟨L, htrack, hperm, _, _, hstop⟩ := h
    obtain ⟨hc, hctx, hw, ht, hreg⟩ := hstop hb
    obtain ⟨⟨ctx, wt, th, iq, cs, cc, bc⟩, calls, threads⟩ := w
    simp only at hc hctx hw ht hreg
    subst hc hctx hw ht hreg
    have hL : L = [] := List.Perm.eq_nil (by simpa using hperm)
    subst hL
    simp only [Bool.false_eq_true, if_false, List.map_nil] at htrack
    by_cases hnew : zmq.zmq_ctx_new calls = nullptr
    · refine ⟨[], ?_, ?_, ?_, ?_, ?_⟩
      · simp [UZeroMQCommunicationSubsystem.StartConnection,
          UZeroMQCommunicationSubsystem.InitializeZeroMQ, hnew, trackLog_append, htrack,
          trackLog, trackCall]
      · simp [UZeroMQCommunicationSubsystem.StartConnection,
          UZeroMQCommunicationSubsystem.InitializeZeroMQ, hnew]
      · simp [UZeroMQCommunicationSubsystem.StartConnection,
          UZeroMQCommunicationSubsystem.InitializeZeroMQ, hnew]
      · simp [UZeroMQCommunicationSubsystem.StartConnection,
          UZeroMQCommunicationSubsystem.InitializeZeroMQ, hnew]
      · intro _
        simp [UZeroMQCommunicationSubsystem.StartConnection,
          UZeroMQCommunicationSubsystem.InitializeZeroMQ, hnew, IsStopped]
    · by_cases hth : NewThread = nullptr
      · refine ⟨[], ?_, ?_, ?_, ?_, ?_⟩
        · simp [UZeroMQCommunicationSubsystem.StartConnection,
            UZeroMQCommunicationSubsystem.InitializeZeroMQ,
            UZeroMQCommunicationSubsystem.ShutdownZeroMQ, TMap.Empty, hnew, hth,
            trackLog_append, htrack, trackLog, trackCall]
        · simp [UZeroMQCommunicationSubsystem.StartConnection,
            UZeroMQCommunicationSubsystem.InitializeZeroMQ,
            UZeroMQCommunicationSubsystem.ShutdownZeroMQ, TMap.Empty, hnew, hth]
        · simp [UZeroMQCommunicationSubsystem.StartConnection,
            UZeroMQCommunicationSubsystem.InitializeZeroMQ,
            UZeroMQCommunicationSubsystem.ShutdownZeroMQ, TMap.Empty, hnew, hth]
        · simp [UZeroMQCommunicationSubsystem.StartConnection,
            UZeroMQCommunicationSubsystem.InitializeZeroMQ,
            UZeroMQCommunicationSubsystem.ShutdownZeroMQ, TMap.Empty, hnew, hth]
        · intro _
          simp [UZeroMQCommunicationSubsystem.StartConnection,
            UZeroMQCommunicationSubsystem.InitializeZeroMQ,
            UZeroMQCommunicationSubsystem.ShutdownZeroMQ, TMap.Empty, hnew, hth, IsStopped]
      · refine ⟨[], ?_, ?_, ?_, ?_, ?_⟩
        · simp [UZeroMQCommunicationSubsystem.StartConnection,
            UZeroMQCommunicationSubsystem.InitializeZeroMQ, hnew, hth,
            trackLog_append, htrack, trackLog, trackCall]
        · simp [UZeroMQCommunicationSubsystem.StartConnection,
            UZeroMQCommunicationSubsystem.InitializeZeroMQ, hnew, hth]
        · simp [UZeroMQCommunicationSubsystem.StartConnection,
            UZeroMQCommunicationSubsystem.InitializeZeroMQ, hnew, hth]
        · intro _
          simp [UZeroMQCommunicationSubsystem.StartConnection,
            UZeroMQCommunicationSubsystem.InitializeZeroMQ, hnew, hth, IsRunning]
        · simp [UZeroMQCommunicationSubsystem.StartConnection,
            UZeroMQCommunicationSubsystem.InitializeZeroMQ, hnew, hth]
  · have : UZeroMQCommunicationSubsystem.StartConnection zmq NewThread w = w := by
      simp [UZeroMQCommunicationSubsystem.StartConnection, hb]
    rw [this]
    exact h

theorem Inv_StopConnection (zmq : Zmq) (lastPass : Bool) (w : World) (h : Inv w) :
    Inv (UZeroMQCommunicationSubsystem.StopConnection zmq lastPass w) := by
  cases hb : w.sub.bIsConnected
  · have : UZeroMQCommunicationSubsystem.StopConnection zmq lastPass w = w := by
      simp [UZeroMQCommunicationSubsystem.StopConnection, hb]
    rw [this]
    exact h
  · obtain ⟨L, htrack, hperm, _, hrun, _⟩ := h
    have hr := hrun hb
    rw [UZeroMQCommunicationSubsystem.StopConnection_running zmq lastPass w hr]
    simp only [hb, if_true] at htrack
    have hpass : trackLog { live := [], opened := [] }
        (if lastPass = true then
          (FZeroMQWorkerThread.drain zmq w.sub.CameraConnections w.sub.ImageQueue w.calls).2
        else w.calls) =
        some { live := [w.sub.ZMQContext],
               opened := L.map fun h => (h, w.sub.ZMQContext) } := by
      cases lastPass
      · simpa using htrack
      · simp only [if_true]
        rw [trackLog_drain]
        exact htrack
    have hclose := trackLog_closes [w.sub.ZMQContext] w.sub.ZMQContext
      (w.sub.CameraConnections.map fun Elem => Elem.2.Socket) L hperm
    rw [List.map_map] at hclose
    refine ⟨[], ?_, ?_, ?_, ?_, ?_⟩
    · simp only [trackLog_append, hpass, Option.some_bind]
      have hfun : (fun Elem : String × FCameraConnection => ZmqCall.close Elem.2.Socket) =
          ((fun s => ZmqCall.close s) ∘ fun Elem : String × FCameraConnection =>
            Elem.2.Socket) := rfl
      rw [hfun, hclose]
      simp [trackLog, trackCall]
    · simp
    · simp
    · intro h1
      simp at h1
    · intro _
      exact ⟨rfl, rfl, rfl, rfl, rfl⟩

theorem Inv_RegisterCamera (zmq : Zmq) (CameraActor : Option AZeroMQCameraActor) (w : World)
    (h : Inv w) : Inv (step zmq w (Op.RegisterCamera CameraActor)) := by
  unfold step
  cases CameraActor with
  | none => exact Inv_congr w _ h rfl rfl rfl rfl rfl rfl
  | some actor =>
    cases hb : w.sub.bIsConnected
    · have hres : UZeroMQCommunicationSubsystem.RegisterCamera zmq w.sub w.calls (some actor) =
          (w.sub, w.calls) := by
        simp [UZeroMQCommunicationSubsystem.RegisterCamera, hb]
      simp only [hres]
      exact h
    · cases hc : TMap.Contains w.sub.CameraConnections actor.CameraID
      · obtain ⟨L, htrack, hperm, hnd, hrun, hstop⟩ := h
        simp only [hb, if_true] at htrack
        have hfind := TMap.Find_eq_none_of_not_Contains _ _ hc
        rcases UZeroMQCommunicationSubsystem.RegisterCamera_outcomes_order zmq w.sub w.calls
          actor hb hc with ⟨_, hres⟩ | ⟨hs, e, he, hres | hres⟩
        · simp only [hres]
          refine ⟨L, ?_, hperm, hnd, hrun, hstop⟩
          simp [trackLog_append, htrack, trackLog, trackCall, hb]
        · simp only [hres]
          refine ⟨L, ?_, hperm, hnd, hrun, hstop⟩
          simp only [trackLog_append, htrack, Option.some_bind, trackLog,
            trackCall_socket _ _ _ _ hs, he,
            trackCall_close_head, hb, if_true]
        · simp only [hres]
          refine ⟨zmq.zmq_socket w.calls w.sub.ZMQContext ZMQ_PUB :: L, ?_, ?_, ?_, ?_, ?_⟩
          · simp only [trackLog_append, htrack, Option.some_bind, trackLog,
              trackCall_socket _ _ _ _ hs, he, hb, if_true,
              List.map_cons]
          · rw [TMap.Add_of_Find_none _ _ _ hfind]
            simp only [List.map_append, List.map_cons, List.map_nil]
            exact List.Perm.trans (List.Perm.cons _ hperm)
              (List.perm_append_singleton _ _).symm
          · rw [TMap.Add_of_Find_none _ _ _ hfind]
            simp only [List.map_append, List.map_cons, List.map_nil]
            have hnot := TMap.not_mem_keys_of_Find_none _ _ hfind
            rw [List.nodup_append]
            refine ⟨hnd, List.nodup_singleton _, ?_⟩
            intro a ha hb1
            simp only [List.mem_singleton] at hb1
            subst hb1
            exact hnot ha
          · intro _
            exact hrun hb
          · intro h1
            simp [hb] at h1
      · have hres : UZeroMQCommunicationSubsystem.RegisterCamera zmq w.sub w.calls (some actor) =
            (w.sub, w.calls) := by
          simp [UZeroMQCommunicationSubsystem.RegisterCamera, hb, hc]
        simp only [hres]
        exact h

theorem Inv_UnregisterCamera (zmq : Zmq) (CameraID : String) (w : World) (h : Inv w) :
    Inv (step zmq w (Op.UnregisterCamera CameraID)) := by
  unfold step
  cases hb : w.sub.bIsConnected
  · have hres : UZeroMQCommunicationSubsystem.UnregisterCamera w.sub w.calls CameraID =
        (w.sub, w.calls) := by
      simp [UZeroMQCommunicationSubsystem.UnregisterCamera, hb]
    simp only [hres]
    exact h
  · cases hf : TMap.Find w.sub.CameraConnections CameraID with
    | none =>
      have hres : UZeroMQCommunicationSubsystem.UnregisterCamera w.sub w.calls CameraID =
          (w.sub, w.calls) := by
        simp [UZeroMQCommunicationSubsystem.UnregisterCamera, hb, hf]
      simp only [hres]
      exact h
    | some c =>
      have hres : UZeroMQCommunicationSubsystem.UnregisterCamera w.sub w.calls CameraID =
          ({ w.sub with CameraConnections := TMap.Remove w.sub.CameraConnections CameraID },
            w.calls ++ [ZmqCall.close c.Socket]) := by
        simp [UZeroMQCommunicationSubsystem.UnregisterCamera, hb, hf]
      simp only [hres]
      obtain ⟨L, htrack, hperm, hnd, hrun, hstop⟩ := h
      simp only [hb, if_true] at htrack
      have hS := TMap.sockets_perm_of_Find _ _ _ hnd hf
      refine ⟨L.erase c.Socket, ?_, ?_, TMap.nodup_Remove _ _ hnd, ?_, ?_⟩
      · simp [trackLog_append, htrack, trackLog, trackCall, hb, eraseP_map_pair]
      · have := List.Perm.erase c.Socket (hperm.trans hS)
        simpa using this
      · intro _
        exact hrun hb
      · intro h1
        simp [hb] at h1

theorem Inv_SendImageViaZeroMQ (zmq : Zmq) (CameraID : String) (ImageData : List UInt8)
    (w : World) (h : Inv w) : Inv (step zmq w (Op.SendImageViaZeroMQ CameraID ImageData)) := by
  unfold step
  cases hb : w.sub.bIsConnected
  · exact Inv_congr w _ h rfl
      (by simp [UZeroMQCommunicationSubsystem.SendImageViaZeroMQ, hb])
      (by simp [UZeroMQCommunicationSubsystem.SendImageViaZeroMQ, hb])
      (by simp [UZeroMQCommunicationSubsystem.SendImageViaZeroMQ, hb])
      (by simp [UZeroMQCommunicationSubsystem.SendImageViaZeroMQ, hb])
      (by simp [UZeroMQCommunicationSubsystem.SendImageViaZeroMQ, hb])
  · exact Inv_congr w _ h rfl
      (by simp [UZeroMQCommunicationSubsystem.SendImageViaZeroMQ, hb])
      (by simp [UZeroMQCommunicationSubsystem.SendImageViaZeroMQ, hb])
      (by simp [UZeroMQCommunicationSubsystem.SendImageViaZeroMQ, hb])
      (by simp [UZeroMQCommunicationSubsystem.SendImageViaZeroMQ, hb])
      (by simp [UZeroMQCommunicationSubsystem.SendImageViaZeroMQ, hb])

theorem Inv_WorkerPass (zmq : Zmq) (w : World) (h : Inv w) :
    Inv (step zmq w Op.WorkerPass) := by
  unfold step
  by_cases ht : w.sub.Thread = nullptr
  · simp only [ht, ne_eq, not_true_eq_false, if_false]
    exact h
  · simp only [ht, ne_eq, not_false_eq_true, if_true]
    obtain ⟨L, htrack, hperm, hnd, hrun, hstop⟩ := h
    refine ⟨L, ?_, hperm, hnd, hrun, hstop⟩
    simp only [FZeroMQWorkerThread.ProcessImageQueue, UZeroMQCommunicationSubsystem.shared]
    rw [trackLog_drain]
    exact htrack

/-- Every façade operation keeps the invariant. -/
theorem Inv_step (zmq : Zmq) (w : World) (op : Op) (h : Inv w) : Inv (step zmq w op) := by
  cases op with
  | StartConnection NewThread => exact Inv_StartConnection zmq NewThread w h
  | RegisterCamera CameraActor => exact Inv_RegisterCamera zmq CameraActor w h
  | UnregisterCamera CameraID => exact Inv_UnregisterCamera zmq CameraID w h
  | SendImageViaZeroMQ CameraID ImageData =>
    exact Inv_SendImageViaZeroMQ zmq CameraID ImageData w h
  | WorkerPass => exact Inv_WorkerPass zmq w h
  | StopConnection lastPass => exact Inv_StopConnection zmq lastPass w h

/-- Every sequence of façade operations keeps the invariant. -/
theorem Inv_run (zmq : Zmq) (ops : List Op) (w : World) (h : Inv w) : Inv (run zmq w ops) := by
  induction ops generalizing w with
  | nil => exact h
  | cons op rest ih => exact ih (step zmq w op) (Inv_step zmq w op h)

/-- C20: after every sequence of façade operations (start, register,
unregister, enqueue, stop, with any answers of the library and any outcome of
thread creation, and with drain passes of the worker in between) from a stopped
subsystem with an empty call log, the call log
keeps the order: no `zmq_ctx_term` is made on a context while a socket created
from it is open, and no socket is created from a context that is not live.  And
`ShutdownZeroMQ` closes every socket of the registry before it terminates the
context. -/
theorem context_outlives_sockets (zmq : Zmq) (s : UZeroMQCommunicationSubsystem)
    (hst : IsStopped s) (ops : List Op) :
    contextOutlivesSockets (run zmq { sub := s, calls := [], threads := [] } ops).calls =
      true ∧
    ∀ (self : UZeroMQCommunicationSubsystem) (calls : List ZmqCall),
      self.ZMQContext ≠ nullptr →
      (UZeroMQCommunicationSubsystem.ShutdownZeroMQ self calls).2 =
        calls ++ (self.CameraConnections.map fun Elem => ZmqCall.close Elem.2.Socket) ++
          [ZmqCall.ctx_term self.ZMQContext] := by
  constructor
  · obtain ⟨L, htrack, _⟩ := Inv_run zmq ops _ (Inv_initial s [] hst)
    unfold contextOutlivesSockets
    rw [htrack]
    rfl
  · intro self calls hctx
    rw [UZeroMQCommunicationSubsystem.ShutdownZeroMQ_eq self calls hctx]

theorem context_outlives_sockets_witness :
    IsStopped stopped ∧
    contextOutlivesSockets
      (run zmqOk { sub := stopped, calls := [], threads := [] }
        [Op.StartConnection 5, Op.RegisterCamera (some {}), Op.SendImageViaZeroMQ "Camera01" [1],
          Op.WorkerPass, Op.UnregisterCamera "Camera01", Op.StopConnection true]).calls = true ∧
    contextOutlivesSockets
      [ZmqCall.ctx_new 1, ZmqCall.socket 1 ZMQ_PUB 2, ZmqCall.ctx_term 1] = false :=
  ⟨⟨rfl, rfl, rfl, rfl, rfl⟩,
    (context_outlives_sockets zmqOk stopped ⟨rfl, rfl, rfl, rfl, rfl⟩
      [Op.StartConnection 5, Op.RegisterCamera (some {}), Op.SendImageViaZeroMQ "Camera01" [1],
        Op.WorkerPass, Op.UnregisterCamera "Camera01", Op.StopConnection true]).1,
    by decide⟩

/-! ## The controlled actors -/

/-- C22 (counterexample): the actor with id `Actor01` applies the command whose
target id is `ACTOR01`, which is not empty and is not the string `Actor01`. -/
theorem OnTransformReceived_case_variant :
    ("ACTOR01" ≠ "Actor01" ∧ "ACTOR01" ≠ "") ∧
    AZeroMQControlledActor.OnTransformReceived { ActorID := "Actor01" }
        ({ Location := ⟨0, 0, 0⟩, Rotation := ⟨0, 0, 0⟩ } : ActorPose Int)
        { Location := ⟨1, 2, 3⟩, Rotation := ⟨0, 90, 0⟩, CameraID := "ACTOR01" } =
      { Location := ⟨1, 2, 3⟩, Rotation := ⟨0, 90, 0⟩ } ∧
    AZeroMQCameraActor.OnTransformReceived { CameraID := "Camera01" }
        ({ Location := ⟨0, 0, 0⟩, Rotation := ⟨0, 0, 0⟩ } : ActorPose Int)
        { Location := ⟨1, 2, 3⟩, Rotation := ⟨0, 90, 0⟩, CameraID := "camera01" } =
      { Location := ⟨1, 2, 3⟩, Rotation := ⟨0, 90, 0⟩ } := by
  decide

/-- C22 (amended): a controllable entity applies a received command if and only
if the target id of the command equals the id of the entity up to the case of
its letters (`FString.Equals`) or is empty: in those cases `OnTransformReceived`
sets the location and rotation of the actor to those of the command, and
otherwise it leaves the pose of the actor as it was. -/
theorem OnTransformReceived_applies_iff {ν : Type} (actor : AZeroMQControlledActor)
    (camera : AZeroMQCameraActor) (pose : ActorPose ν) (Transform : FCameraTransform ν) :
    ((FString.Equals Transform.CameraID actor.ActorID = true ∨ Transform.CameraID = "") →
      AZeroMQControlledActor.OnTransformReceived actor pose Transform =
        { Location := Transform.Location, Rotation := Transform.Rotation }) ∧
    (¬ (FString.Equals Transform.CameraID actor.ActorID = true ∨ Transform.CameraID = "") →
      AZeroMQControlledActor.OnTransformReceived actor pose Transform = pose) ∧
    ((FString.Equals Transform.CameraID camera.CameraID = true ∨ Transform.CameraID = "") →
      AZeroMQCameraActor.OnTransformReceived camera pose Transform =
        { Location := Transform.Location, Rotation := Transform.Rotation }) ∧
    (¬ (FString.Equals Transform.CameraID camera.CameraID = true ∨ Transform.CameraID = "") →
      AZeroMQCameraActor.OnTransformReceived camera pose Transform = pose) := by
  refine ⟨?_, ?_, ?_, ?_⟩
  · intro h
    simp only [AZeroMQControlledActor.OnTransformReceived,
      AZeroMQControlledActor.SetActorTransformFromData, if_pos h]
  · intro h
    simp only [AZeroMQControlledActor.OnTransformReceived, if_neg h]
  · intro h
    simp only [AZeroMQCameraActor.OnTransformReceived, AZeroMQCameraActor.SetCameraTransform,
      if_pos h]
  · intro h
    simp only [AZeroMQCameraActor.OnTransformReceived, if_neg h]

theorem OnTransformReceived_applies_iff_witness :
    AZeroMQControlledActor.OnTransformReceived { ActorID := "Actor01" }
        ({ Location := ⟨0, 0, 0⟩, Rotation := ⟨0, 0, 0⟩ } : ActorPose Int)
        { Location := ⟨1, 2, 3⟩, Rotation := ⟨0, 90, 0⟩, CameraID := "" } =
      { Location := ⟨1, 2, 3⟩, Rotation := ⟨0, 90, 0⟩ } ∧
    AZeroMQControlledActor.OnTransformReceived { ActorID := "Actor01" }
        ({ Location := ⟨0, 0, 0⟩, Rotation := ⟨0, 0, 0⟩ } : ActorPose Int)
        { Location := ⟨1, 2, 3⟩, Rotation := ⟨0, 90, 0⟩, CameraID := "Actor02" } =
      { Location := ⟨0, 0, 0⟩, Rotation := ⟨0, 0, 0⟩ } ∧
    AZeroMQCameraActor.OnTransformReceived { CameraID := "Camera01" }
        ({ Location := ⟨0, 0, 0⟩, Rotation := ⟨0, 0, 0⟩ } : ActorPose Int)
        { Location := ⟨1, 2, 3⟩, Rotation := ⟨0, 90, 0⟩, CameraID := "CAMERA01" } =
      { Location := ⟨1, 2, 3⟩, Rotation := ⟨0, 90, 0⟩ } ∧
    AZeroMQCameraActor.OnTransformReceived { CameraID := "Camera01" }
        ({ Location := ⟨0, 0, 0⟩, Rotation := ⟨0, 0, 0⟩ } : ActorPose Int)
        { Location := ⟨1, 2, 3⟩, Rotation := ⟨0, 90, 0⟩, CameraID := "Camera02" } =
      { Location := ⟨0, 0, 0⟩, Rotation := ⟨0, 0, 0⟩ } :=
  ⟨(OnTransformReceived_applies_iff { ActorID := "Actor01" } { CameraID := "Camera01" }
      ({ Location := ⟨0, 0, 0⟩, Rotation := ⟨0, 0, 0⟩ } : ActorPose Int)
      { Location := ⟨1, 2, 3⟩, Rotation := ⟨0, 90, 0⟩, CameraID := "" }).1 (Or.inr rfl),
    (OnTransformReceived_applies_iff { ActorID := "Actor01" } { CameraID := "Camera01" }
      ({ Location := ⟨0, 0, 0⟩, Rotation := ⟨0, 0, 0⟩ } : ActorPose Int)
      { Location := ⟨1, 2, 3⟩, Rotation := ⟨0, 90, 0⟩, CameraID := "Actor02" }).2.1
      (by decide),
    (OnTransformReceived_applies_iff { ActorID := "Actor01" } { CameraID := "Camera01" }
      ({ Location := ⟨0, 0, 0⟩, Rotation := ⟨0, 0, 0⟩ } : ActorPose Int)
      { Location := ⟨1, 2, 3⟩, Rotation := ⟨0, 90, 0⟩, CameraID := "CAMERA01" }).2.2.1
      (Or.inl (by decide)),
    (OnTransformReceived_applies_iff { ActorID := "Actor01" } { CameraID := "Camera01" }
      ({ Location := ⟨0, 0, 0⟩, Rotation := ⟨0, 0, 0⟩ } : ActorPose Int)
      { Location := ⟨1, 2, 3⟩, Rotation := ⟨0, 90, 0⟩, CameraID := "Camera02" }).2.2.2
      (by decide)⟩

/-! ## Initialisation of the command subscriber -/

/-- C23: on a worker as constructed (no subscriber socket yet), `Init` returns
true if and only if the context is present, `zmq_socket` answers with a socket,
`zmq_setsockopt` of the empty subscribe filter on that socket answers `0`, and
`zmq_connect` of that socket to `tcp://ServerIP:Port` answers `0`.  When it
returns true it has made exactly these three calls and holds the socket, which
was not closed.  When it returns false the subscriber socket is null and every
socket created by the call was closed by it. -/
theorem Init_true_iff (zmq : Zmq) (self : FZeroMQReceiverWorker) (calls : List ZmqCall)
    (hfresh : self.SubscriberSocket = nullptr) :
    ((FZeroMQReceiverWorker.Init zmq self calls).1 = true ↔
      self.ZMQContext ≠ nullptr ∧
      ∃ sock, sock = zmq.zmq_socket calls self.ZMQContext ZMQ_SUB ∧ sock ≠ nullptr ∧
        zmq.zmq_setsockopt (calls ++ [ZmqCall.socket self.ZMQContext ZMQ_SUB sock]) sock
          ZMQ_SUBSCRIBE (OptVal.bytes []) = 0 ∧
        zmq.zmq_connect
          (calls ++ [ZmqCall.socket self.ZMQContext ZMQ_SUB sock,
            ZmqCall.setsockopt sock ZMQ_SUBSCRIBE (OptVal.bytes []) 0])
          sock ("tcp://" ++ self.ServerIP ++ ":" ++ toString self.Port) = 0) ∧
    ((FZeroMQReceiverWorker.Init zmq self calls).1 = true →
      (FZeroMQReceiverWorker.Init zmq self calls).2.1 =
        { self with SubscriberSocket := zmq.zmq_socket calls self.ZMQContext ZMQ_SUB } ∧
      (FZeroMQReceiverWorker.Init zmq self calls).2.2 =
        calls ++ [ZmqCall.socket self.ZMQContext ZMQ_SUB
            (zmq.zmq_socket calls self.ZMQContext ZMQ_SUB),
          ZmqCall.setsockopt (zmq.zmq_socket calls self.ZMQContext ZMQ_SUB) ZMQ_SUBSCRIBE
            (OptVal.bytes []) 0,
          ZmqCall.connect (zmq.zmq_socket calls self.ZMQContext ZMQ_SUB)
            ("tcp://" ++ self.ServerIP ++ ":" ++ toString self.Port) 0] ∧
      (FZeroMQReceiverWorker.Init zmq self calls).2.1.SubscriberSocket ≠ nullptr ∧
      created (FZeroMQReceiverWorker.Init zmq self calls).2.2 =
        created calls ++ [(FZeroMQReceiverWorker.Init zmq self calls).2.1.SubscriberSocket] ∧
      closes (FZeroMQReceiverWorker.Init zmq self calls).2.2 = closes calls) ∧
    ((FZeroMQReceiverWorker.Init zmq self calls).1 = false →
      (FZeroMQReceiverWorker.Init zmq self calls).2.1.SubscriberSocket = nullptr ∧
      ∃ made, created (FZeroMQReceiverWorker.Init zmq self calls).2.2 = created calls ++ made ∧
        closes (FZeroMQReceiverWorker.Init zmq self calls).2.2 = closes calls ++ made) := by
  by_cases hctx : self.ZMQContext = nullptr
  · have hres : FZeroMQReceiverWorker.Init zmq self calls = (false, self, calls) := by
      simp [FZeroMQReceiverWorker.Init, hctx]
    rw [hres]
    refine ⟨?_, ?_, ?_⟩
    · simp [hctx]
    · intro h
      simp at h
    · intro _
      exact ⟨hfresh, [], by simp, by simp⟩
  · generalize hs : zmq.zmq_socket calls self.ZMQContext ZMQ_SUB = sock
    by_cases hsock : sock = nullptr
    · have hres : FZeroMQReceiverWorker.Init zmq self calls =
          (false, { self with SubscriberSocket := nullptr },
            calls ++ [ZmqCall.socket self.ZMQContext ZMQ_SUB nullptr]) := by
        simp [FZeroMQReceiverWorker.Init, hctx, hs, hsock]
      rw [hres]
      refine ⟨?_, ?_, ?_⟩
      · constructor
        · intro h
          simp at h
        · rintro ⟨_, s1, hs1, hne, _⟩
          exact absurd (hs1.trans hsock) hne
      · intro h
        simp at h
      · intro _
        exact ⟨rfl, [], by simp [created_append, created], by simp [closes_append, closes]⟩
    · generalize hr1 : zmq.zmq_setsockopt
          (calls ++ [ZmqCall.socket self.ZMQContext ZMQ_SUB sock]) sock ZMQ_SUBSCRIBE
          (OptVal.bytes []) = r1
      by_cases h1 : r1 = 0
      · subst h1
        generalize hr2 : zmq.zmq_connect
            (calls ++ [ZmqCall.socket self.ZMQContext ZMQ_SUB sock,
              ZmqCall.setsockopt sock ZMQ_SUBSCRIBE (OptVal.bytes []) 0]) sock
            ("tcp://" ++ self.ServerIP ++ ":" ++ toString self.Port) = r2
        by_cases h2 : r2 = 0
        · subst h2
          have hres : FZeroMQReceiverWorker.Init zmq self calls =
              (true, { self with SubscriberSocket := sock },
                calls ++ [ZmqCall.socket self.ZMQContext ZMQ_SUB sock,
                  ZmqCall.setsockopt sock ZMQ_SUBSCRIBE (OptVal.bytes []) 0,
                  ZmqCall.connect sock
                    ("tcp://" ++ self.ServerIP ++ ":" ++ toString self.Port) 0]) := by
            simp [FZeroMQReceiverWorker.Init, connectAddress, hctx, hs, hsock, hr1, hr2]
          rw [hres]
          refine ⟨?_, ?_, ?_⟩
          · simp only [true_iff]
            exact ⟨hctx, sock, rfl, hsock, hr1, hr2⟩
          · intro _
            refine ⟨rfl, rfl, hsock, ?_, ?_⟩
            · simp [created_append, created, hsock]
            · simp [closes_append, closes]
          · intro h
            simp at h
        · have hres : FZeroMQReceiverWorker.Init zmq self calls =
              (false, { self with SubscriberSocket := nullptr },
                calls ++ [ZmqCall.socket self.ZMQContext ZMQ_SUB sock,
                  ZmqCall.setsockopt sock ZMQ_SUBSCRIBE (OptVal.bytes []) 0,
                  ZmqCall.connect sock
                    ("tcp://" ++ self.ServerIP ++ ":" ++ toString self.Port) r2,
                  ZmqCall.close sock]) := by
            simp [FZeroMQReceiverWorker.Init, connectAddress, hctx, hs, hsock, hr1, hr2, h2]
          rw [hres]
          refine ⟨?_, ?_, ?_⟩
          · constructor
            · intro h
              simp at h
            · rintro ⟨_, s1, hs1, _, _, hc⟩
              subst hs1
              exact absurd (hr2.symm.trans hc) h2
          · intro h
            simp at h
          · intro _
            exact ⟨rfl, [sock], by simp [created_append, created, hsock],
              by simp [closes_append, closes]⟩
      · have hres : FZeroMQReceiverWorker.Init zmq self calls =
            (false, { self with SubscriberSocket := nullptr },
              calls ++ [ZmqCall.socket self.ZMQContext ZMQ_SUB sock,
                ZmqCall.setsockopt sock ZMQ_SUBSCRIBE (OptVal.bytes []) r1,
                ZmqCall.close sock]) := by
          simp [FZeroMQReceiverWorker.Init, hctx, hs, hsock, hr1, h1]
        rw [hres]
        refine ⟨?_, ?_, ?_⟩
        · constructor
          · intro h
            simp at h
          · rintro ⟨_, s1, hs1, _, ho, _⟩
            subst hs1
            exact absurd (hr1.symm.trans ho) h1
        · intro h
          simp at h
        · intro _
          exact ⟨rfl, [sock], by simp [created_append, created, hsock],
            by simp [closes_append, closes]⟩

theorem Init_true_iff_witness :
    freshWorker.SubscriberSocket = nullptr ∧
    (FZeroMQReceiverWorker.Init zmqOk freshWorker []).1 = true ∧
    (FZeroMQReceiverWorker.Init zmqOk freshWorker []).2.2 =
      [ZmqCall.socket 1 ZMQ_SUB 1, ZmqCall.setsockopt 1 ZMQ_SUBSCRIBE (OptVal.bytes []) 0,
        ZmqCall.connect 1 "tcp://127.0.0.1:5556" 0] ∧
    (FZeroMQReceiverWorker.Init { zmqOk with zmq_connect := fun _ _ _ => -1 } freshWorker
        []).1 = false ∧
    (FZeroMQReceiverWorker.Init { zmqOk with zmq_connect := fun _ _ _ => -1 } freshWorker
        []).2.2 =
      [ZmqCall.socket 1 ZMQ_SUB 1, ZmqCall.setsockopt 1 ZMQ_SUBSCRIBE (OptVal.bytes []) 0,
        ZmqCall.connect 1 "tcp://127.0.0.1:5556" (-1), ZmqCall.close 1] ∧
    (FZeroMQReceiverWorker.Init zmqStub freshWorker []).2.1.SubscriberSocket = nullptr :=
  ⟨rfl,
    (Init_true_iff zmqOk freshWorker [] rfl).1.mpr
      ⟨by decide, 1, by decide, by decide, by decide, by decide⟩,
    by decide, by decide, by decide,
    ((Init_true_iff zmqStub freshWorker [] rfl).2.2 (by decide)).1⟩

/-! ## Failed registrations and the frame of the registry operations -/

section Frame

variable {V : Type}

theorem TMap.Find_Add_ne (m : TMap V) (k k1 : String) (v : V)
    (h : FString.Equals k1 k = false) :
    TMap.Find (TMap.Add m k v) k1 = TMap.Find m k1 := by
  have h1 : FString.Equals k k1 = false := by rw [FString.Equals_comm]; exact h
  induction m with
  | nil => simp [TMap.Add, TMap.Find, h1]
  | cons e rest ih =>
    obtain ⟨k2, v2⟩ := e
    by_cases hk : FString.Equals k2 k = true
    · have h2 : FString.Equals k2 k1 = false := by
        rw [FString.Equals_congr_left k2 k k1 hk]; exact h1
      simp [TMap.Add, TMap.Find, hk, h1, h2]
    · simp only [TMap.Add, hk, if_false, TMap.Find, ih]

theorem TMap.Find_Remove_ne (m : TMap V) (k k1 : String)
    (h : FString.Equals k1 k = false) :
    TMap.Find (TMap.Remove m k) k1 = TMap.Find m k1 := by
  have h1 : FString.Equals k k1 = false := by rw [FString.Equals_comm]; exact h
  induction m with
  | nil => rfl
  | cons e rest ih =>
    obtain ⟨k2, v2⟩ := e
    unfold TMap.Remove at ih ⊢
    rw [List.filter_cons]
    by_cases hk : FString.Equals k2 k = true
    · have h2 : FString.Equals k2 k1 = false := by
        rw [FString.Equals_congr_left k2 k k1 hk]; exact h1
      simp only [hk, Bool.not_true, Bool.false_eq_true, if_false, ih, TMap.Find, h2]
    · simp only [hk, Bool.not_false, if_true, TMap.Find, ih]

/-- Removing a key removes the entry of every key that matches it. -/
theorem TMap.Find_Remove_self (m : TMap V) (k k1 : String)
    (h : FString.Equals k1 k = true) : TMap.Find (TMap.Remove m k) k1 = none := by
  induction m with
  | nil => rfl
  | cons e rest ih =>
    obtain ⟨k2, v2⟩ := e
    unfold TMap.Remove at ih ⊢
    rw [List.filter_cons]
    by_cases hk : FString.Equals k2 k = true
    · simp only [hk, Bool.not_true, Bool.false_eq_true, if_false, ih]
    · have h2 : FString.Equals k2 k1 = false := by
        rw [FString.Equals_congr_right k1 k k2 h]
        exact Bool.eq_false_iff.mpr hk
      simp only [hk, Bool.not_false, if_true, TMap.Find, h2, Bool.false_eq_true, if_false, ih]

end Frame

namespace UZeroMQCommunicationSubsystem

/-- C24: when a registration on a connected subsystem, for an id that is not
registered, fails because `zmq_socket` returns null, or because the bind (bind
mode) or the connect (connect mode) returns non-zero, `RegisterCamera` returns
the subsystem exactly as it was (same registry, still connected, every field
the same), and the socket it created, if any, is the one socket it closed. -/
theorem RegisterCamera_failure_local (zmq : Zmq) (self : UZeroMQCommunicationSubsystem)
    (calls : List ZmqCall) (actor : AZeroMQCameraActor)
    (hrun : self.bIsConnected = true)
    (hnew : TMap.Contains self.CameraConnections actor.CameraID = false)
    (hfail : zmq.zmq_socket calls self.ZMQContext ZMQ_PUB = nullptr ∨
      (actor.bImageBindMode = true ∧
        zmq.zmq_bind
          (calls ++ [ZmqCall.socket self.ZMQContext ZMQ_PUB
            (zmq.zmq_socket calls self.ZMQContext ZMQ_PUB)])
          (zmq.zmq_socket calls self.ZMQContext ZMQ_PUB)
          (bindAddress actor.ImagePort) ≠ 0) ∨
      (actor.bImageBindMode = false ∧
        zmq.zmq_connect
          (calls ++ [ZmqCall.socket self.ZMQContext ZMQ_PUB
            (zmq.zmq_socket calls self.ZMQContext ZMQ_PUB)])
          (zmq.zmq_socket calls self.ZMQContext ZMQ_PUB)
          (connectAddress self.CurrentSettings.ServerIP actor.ImagePort) ≠ 0)) :
    (RegisterCamera zmq self calls (some actor)).1 = self ∧
    ((zmq.zmq_socket calls self.ZMQContext ZMQ_PUB = nullptr ∧
        created (RegisterCamera zmq self calls (some actor)).2 = created calls ∧
        closes (RegisterCamera zmq self calls (some actor)).2 = closes calls) ∨
      (zmq.zmq_socket calls self.ZMQContext ZMQ_PUB ≠ nullptr ∧
        created (RegisterCamera zmq self calls (some actor)).2 =
          created calls ++ [zmq.zmq_socket calls self.ZMQContext ZMQ_PUB] ∧
        closes (RegisterCamera zmq self calls (some actor)).2 =
          closes calls ++ [zmq.zmq_socket calls self.ZMQContext ZMQ_PUB])) := by
  by_cases hs : zmq.zmq_socket calls self.ZMQContext ZMQ_PUB = nullptr
  · have hres : RegisterCamera zmq self calls (some actor) =
        (self, calls ++ [ZmqCall.socket self.ZMQContext ZMQ_PUB nullptr]) := by
      simp [RegisterCamera, hrun, hnew, hs]
    rw [hres]
    exact ⟨rfl, Or.inl ⟨hs, by simp [created_append, created], by simp [closes_append, closes]⟩⟩
  · rcases hfail with h | ⟨hb, hr⟩ | ⟨hb, hr⟩
    · exact absurd h hs
    · have hres : RegisterCamera zmq self calls (some actor) =
          (self, calls ++ [ZmqCall.socket self.ZMQContext ZMQ_PUB
              (zmq.zmq_socket calls self.ZMQContext ZMQ_PUB),
            ZmqCall.bind (zmq.zmq_socket calls self.ZMQContext ZMQ_PUB)
              (bindAddress actor.ImagePort)
              (zmq.zmq_bind
                (calls ++ [ZmqCall.socket self.ZMQContext ZMQ_PUB
                  (zmq.zmq_socket calls self.ZMQContext ZMQ_PUB)])
                (zmq.zmq_socket calls self.ZMQContext ZMQ_PUB)
                (bindAddress actor.ImagePort)),
            ZmqCall.close (zmq.zmq_socket calls self.ZMQContext ZMQ_PUB)]) := by
        simp [RegisterCamera, hrun, hnew, hs, hb, hr]
      rw [hres]
      refine ⟨rfl, Or.inr ⟨hs, ?_, ?_⟩⟩
      · simp [created_append, created, hs]
      · simp [closes_append, closes]
    · have hres : RegisterCamera zmq self calls (some actor) =
          (self, calls ++ [ZmqCall.socket self.ZMQContext ZMQ_PUB
              (zmq.zmq_socket calls self.ZMQContext ZMQ_PUB),
            ZmqCall.connect (zmq.zmq_socket calls self.ZMQContext ZMQ_PUB)
              (connectAddress self.CurrentSettings.ServerIP actor.ImagePort)
              (zmq.zmq_connect
                (calls ++ [ZmqCall.socket self.ZMQContext ZMQ_PUB
                  (zmq.zmq_socket calls self.ZMQContext ZMQ_PUB)])
                (zmq.zmq_socket calls self.ZMQContext ZMQ_PUB)
                (connectAddress self.CurrentSettings.ServerIP actor.ImagePort)),
            ZmqCall.close (zmq.zmq_socket calls self.ZMQContext ZMQ_PUB)]) := by
        simp [RegisterCamera, hrun, hnew, hs, hb, hr]
      rw [hres]
      refine ⟨rfl, Or.inr ⟨hs, ?_, ?_⟩⟩
      · simp [created_append, created, hs]
      · simp [closes_append, closes]

theorem RegisterCamera_failure_local_witness :
    (runningOne.bIsConnected = true ∧
      TMap.Contains runningOne.CameraConnections "Camera02" = false) ∧
    (RegisterCamera zmqStub runningOne [] (some { CameraID := "Camera02" })).1 = runningOne ∧
    (RegisterCamera { zmqStub with zmq_socket := fun _ _ _ => 9 } runningOne []
      (some { CameraID := "Camera02" })).1 = runningOne :=
  ⟨⟨rfl, by decide⟩,
    (RegisterCamera_failure_local zmqStub runningOne [] { CameraID := "Camera02" } rfl
      (by decide) (Or.inl rfl)).1,
    (RegisterCamera_failure_local { zmqStub with zmq_socket := fun _ _ _ => 9 } runningOne []
      { CameraID := "Camera02" } rfl (by decide)
      (Or.inr (Or.inl ⟨rfl, by decide⟩))).1⟩

end UZeroMQCommunicationSubsystem

/-! ## The receive buffer and the uninitialised locals of the receive loop -/

namespace FZeroMQReceiverWorker

/-- C28 (the code at the failing input): for the command `longCommand` of 1041
bytes, for which `zmq_recv` reports the length 1041, the receive loop writes the
string terminator at index 1041, which is not below the size 1024 of the
buffer. -/
theorem terminatorIndex_long_command :
    terminatorIndex (some longCommand) = some 1041 ∧ ¬ ((1041 : Int) < bufferSize) := by
  have hl : longCommand.length = 1041 := by
    unfold longCommand
    rw [List.length_append, List.length_append, List.length_replicate]
    decide
  refine ⟨?_, by decide⟩
  simp [terminatorIndex, hl]

/-- C29 (the code at the failing input): the document `docMissingY` is accepted
and its location has `x = 1`, `z = 3` and no `y`; the decoded `Y` is whatever the
uninitialised local held (12 with `junk`, 99 with `junk2`), not 0, so two decodes
of this one document differ; the decoder of the HTTP path, whose locals are
initialised, gives 0 on the same document. -/
theorem DecodeTransform_missing_key :
    DecodeTransform intText junk docMissingY =
      some { Location := ⟨1, 12, 3⟩, Rotation := ⟨0, 0, 0⟩, CameraID := "cam1" } ∧
    DecodeTransform intText junk2 docMissingY =
      some { Location := ⟨1, 99, 3⟩, Rotation := ⟨0, 0, 0⟩, CameraID := "cam1" } ∧
    DecodeTransform intText junk docMissingY ≠ DecodeTransform intText junk2 docMissingY ∧
    UZeroMQCommunicationSubsystem.OnCommandReceived intText docMissingY =
      some { Location := ⟨1, 0, 3⟩, Rotation := ⟨0, 0, 0⟩, CameraID := "cam1" } := by
  refine ⟨by decide, by decide, by decide, by decide⟩

end FZeroMQReceiverWorker

/-! ## The frame of `RegisterCamera` and `UnregisterCamera` -/

namespace UZeroMQCommunicationSubsystem

/-- What `RegisterCamera` does to the registry and to the sockets of the log:
either the subsystem is unchanged and every socket created by the call has been
closed by it, or one socket `h` has been created, none closed, and the registry
is the old one with `h` added under the id of the actor. -/
theorem RegisterCamera_effect (zmq : Zmq) (self : UZeroMQCommunicationSubsystem)
    (calls : List ZmqCall) (actor : AZeroMQCameraActor) :
    ((RegisterCamera zmq self calls (some actor)).1 = self ∧
      ∃ made : List Handle,
        created (RegisterCamera zmq self calls (some actor)).2 = created calls ++ made ∧
        closes (RegisterCamera zmq self calls (some actor)).2 = closes calls ++ made) ∨
    (∃ h : Handle,
      (RegisterCamera zmq self calls (some actor)).1 =
        { self with
          CameraConnections := TMap.Add self.CameraConnections actor.CameraID { Socket := h } } ∧
      created (RegisterCamera zmq self calls (some actor)).2 = created calls ++ [h] ∧
      closes (RegisterCamera zmq self calls (some actor)).2 = closes calls) := by
  rcases Bool.eq_false_or_eq_true self.bIsConnected with hrun | hrun
  swap
  · left
    have hres : RegisterCamera zmq self calls (some actor) = (self, calls) := by
      simp [RegisterCamera, hrun]
    rw [hres]
    exact ⟨rfl, [], by simp, by simp⟩
  · cases hc : TMap.Contains self.CameraConnections actor.CameraID
    · rcases RegisterCamera_outcomes zmq self calls actor hrun hc with
        ⟨_, hres⟩ | ⟨hs, e, hcl, hcr, hres | hres⟩
      · left
        rw [hres]
        exact ⟨rfl, [], by simp [created_append, created], by simp [closes_append, closes]⟩
      · left
        rw [hres]
        refine ⟨rfl, [zmq.zmq_socket calls self.ZMQContext ZMQ_PUB], ?_, ?_⟩
        · rw [created_append, created_cons_cons, created_cons_cons, created_socket _ _ _ hs,
            hcr, created_close]
          simp
        · rw [closes_append, closes_cons_cons, closes_cons_cons, closes_socket, hcl,
            closes_close]
          simp
      · right
        rw [hres]
        refine ⟨zmq.zmq_socket calls self.ZMQContext ZMQ_PUB, rfl, ?_, ?_⟩
        · rw [created_append, created_cons_cons, created_socket _ _ _ hs, hcr]
          simp
        · rw [closes_append, closes_cons_cons, closes_socket, hcl]
          simp
    · left
      have hres : RegisterCamera zmq self calls (some actor) = (self, calls) := by
        simp [RegisterCamera, hrun, hc]
      rw [hres]
      exact ⟨rfl, [], by simp, by simp⟩

/-- C30 (counterexample): with `Camera01` registered on socket `7`,
`UnregisterCamera` for the id `camera01` removes the entry of the different id
`Camera01` and closes its socket. -/
theorem UnregisterCamera_case_variant_frame :
    "Camera01" ≠ "camera01" ∧
    TMap.Find runningOne.CameraConnections "Camera01" = some { Socket := 7 } ∧
    runningOne.CameraConnections.map Prod.fst = ["Camera01"] ∧
    TMap.Find (UnregisterCamera runningOne [] "camera01").1.CameraConnections "Camera01" =
      none ∧
    (UnregisterCamera runningOne [] "camera01").1.CameraConnections.map Prod.fst = [] ∧
    closes (UnregisterCamera runningOne [] "camera01").2 = [7] := by
  decide

/-- C30 (amended): ids are matched ignoring the case of their letters
(`FString.Equals`).  `RegisterCamera` and `UnregisterCamera` for an id `A` leave
the entry of every id `B` that does not match `A` as it was (same presence, same
socket), and an id that matches `A` is looked up as `A` is.  Every socket that
`RegisterCamera` creates is closed again by the call, or else it is the one
socket created, it is stored under `A`, and nothing is closed.  The call
`UnregisterCamera` creates no socket and closes none, or closes just the socket
that was stored under `A`.  And every façade operation keeps the invariant `Inv`:
the sockets of the registry are, up to order, the sockets created and not yet
closed, and the ids of the registry are distinct, also when case is ignored. -/
theorem Register_Unregister_frame (zmq : Zmq) (self : UZeroMQCommunicationSubsystem)
    (calls : List ZmqCall) (actor : AZeroMQCameraActor) (A B : String)
    (hA : actor.CameraID = A) (hB : FString.Equals B A = false) :
    TMap.Find (RegisterCamera zmq self calls (some actor)).1.CameraConnections B =
        TMap.Find self.CameraConnections B ∧
      TMap.Find (UnregisterCamera self calls A).1.CameraConnections B =
        TMap.Find self.CameraConnections B ∧
      (∀ (m : TMap FCameraConnection) (A1 : String), FString.Equals A1 A = true →
        TMap.Find m A1 = TMap.Find m A) ∧
      (∃ made : List Handle,
        created (RegisterCamera zmq self calls (some actor)).2 = created calls ++ made ∧
        (closes (RegisterCamera zmq self calls (some actor)).2 = closes calls ++ made ∨
          (closes (RegisterCamera zmq self calls (some actor)).2 = closes calls ∧
            ∃ h : Handle, made = [h] ∧
              TMap.Find (RegisterCamera zmq self calls (some actor)).1.CameraConnections A =
                some { Socket := h }))) ∧
      (created (UnregisterCamera self calls A).2 = created calls ∧
        (closes (UnregisterCamera self calls A).2 = closes calls ∨
          ∃ c : FCameraConnection, TMap.Find self.CameraConnections A = some c ∧
            closes (UnregisterCamera self calls A).2 = closes calls ++ [c.Socket])) ∧
      ∀ (w : World) (op : Op), Inv w → Inv (step zmq w op) := by
  subst hA
  refine ⟨?_, ?_, fun m A1 h => TMap.Find_congr m A1 _ h, ?_, ?_,
    fun w op h => Inv_step zmq w op h⟩
  · rcases RegisterCamera_effect zmq self calls actor with ⟨hres, _⟩ | ⟨h, hres, _⟩
    · rw [hres]
    · rw [hres]
      exact TMap.Find_Add_ne _ _ _ _ hB
  · cases hrun : self.bIsConnected
    · simp [UnregisterCamera, hrun]
    · cases hf : TMap.Find self.CameraConnections actor.CameraID with
      | none => simp [UnregisterCamera, hrun, hf]
      | some c =>
        simp only [UnregisterCamera, hrun, hf]
        exact TMap.Find_Remove_ne _ _ _ hB
  · rcases RegisterCamera_effect zmq self calls actor with
      ⟨_, made, hcr, hcl⟩ | ⟨h, hres, hcr, hcl⟩
    · exact ⟨made, hcr, Or.inl hcl⟩
    · refine ⟨[h], hcr, Or.inr ⟨hcl, h, rfl, ?_⟩⟩
      rw [hres]
      exact TMap.Find_Add_self _ _ _
  · cases hrun : self.bIsConnected
    · simp [UnregisterCamera, hrun]
    · cases hf : TMap.Find self.CameraConnections actor.CameraID with
      | none => simp [UnregisterCamera, hrun, hf]
      | some c =>
        simp only [UnregisterCamera, hrun, hf, Bool.not_true, Bool.false_eq_true, if_false]
        refine ⟨?_, Or.inr ⟨c, rfl, ?_⟩⟩
        · rw [created_append, created_close]
          simp
        · rw [closes_append, closes_close]

theorem Register_Unregister_frame_witness :
    FString.Equals "Camera01" "Camera02" = false ∧
    TMap.Find (RegisterCamera zmqOk runningOne []
        (some { CameraID := "Camera02" })).1.CameraConnections "Camera01" = some { Socket := 7 } ∧
    TMap.Find (UnregisterCamera runningOne [] "Camera02").1.CameraConnections "Camera01" =
      some { Socket := 7 } ∧
    TMap.Find runningOne.CameraConnections "CAMERA01" =
      TMap.Find runningOne.CameraConnections "Camera01" :=
  ⟨by decide,
    (Register_Unregister_frame zmqOk runningOne [] { CameraID := "Camera02" } "Camera02"
      "Camera01" rfl (by decide)).1,
    (Register_Unregister_frame zmqOk runningOne [] { CameraID := "Camera02" } "Camera02"
      "Camera01" rfl (by decide)).2.1,
    (Register_Unregister_frame zmqOk runningOne [] { CameraID := "Camera01" } "Camera01"
      "Camera02" rfl (by decide)).2.2.1 runningOne.CameraConnections "CAMERA01" (by decide)⟩

end UZeroMQCommunicationSubsystem

/-! ## The image subscribers -/

theorem memcpy_full (dst src : List UInt8) (n : Nat) (hs : src.length = n)
    (hd : dst.length = n) : memcpy dst src n = src := by
  unfold memcpy
  rw [List.take_of_length_le (le_of_eq hs), List.drop_of_length_le (le_of_eq hd)]
  simp

theorem wrapInt32_of_range (n : Int) (h0 : -2147483648 ≤ n) (h1 : n < 2147483648) :
    wrapInt32 n = n := by
  unfold wrapInt32
  omega

theorem wrapInt32_mul (a c : Int) : wrapInt32 (wrapInt32 a * c) = wrapInt32 (a * c) := by
  unfold wrapInt32
  have h1 : (a + 2147483648) % 4294967296 - 2147483648 =
      a - 4294967296 * ((a + 2147483648) / 4294967296) := by omega
  have h2 : (a - 4294967296 * ((a + 2147483648) / 4294967296)) * c + 2147483648 =
      (a * c + 2147483648) + 4294967296 * (-(((a + 2147483648) / 4294967296) * c)) := by
    ring
  rw [h1, h2, Int.add_mul_emod_self_left]

/-- An `int` product of three factors whose mathematical value fits an `int`
has that value. -/
theorem intProduct_of_range (a b c : Int) (h0 : 0 ≤ a * b * c)
    (h1 : a * b * c < 2147483648) : wrapInt32 (wrapInt32 (a * b) * c) = a * b * c := by
  rw [wrapInt32_mul]
  exact wrapInt32_of_range _ (le_trans (by norm_num) h0) h1

theorem toSizeT_of_range (n : Int) (h0 : 0 ≤ n) (h1 : n < 2147483648) :
    toSizeT n = n.toNat := by
  unfold toSizeT
  rw [Int.emod_eq_of_lt h0 (lt_trans h1 (by norm_num))]

/-- A frame that a receive contributes has the configured size. -/
theorem decodedFrame_length (stbi : StbDecoder) (channels : Int) (size : Nat)
    (hstb : StbContract stbi channels) (input : ImageInput) (d : List UInt8)
    (h : decodedFrame stbi channels size input = some d) : d.length = size := by
  obtain ⟨topic, data⟩ := input
  cases topic with
  | none => simp [decodedFrame] at h
  | some t =>
    cases data with
    | none => simp [decodedFrame] at h
    | some b =>
      cases himg : stbi b channels with
      | none => simp [decodedFrame, himg] at h
      | some img =>
        obtain ⟨_, _, hdata⟩ := hstb b img himg
        simp only [decodedFrame, himg] at h
        generalize (if channels = 0 then img.n else channels) = ch at h hdata
        by_cases heq : img.x * img.y * ch = (size : Int)
        · simp only [heq, if_true, Option.some.injEq] at h
          subst h
          rw [heq] at hdata
          exact_mod_cast hdata
        · simp only [heq, if_false] at h
          exact absurd h (by simp)

theorem lastDecodedFrame_snoc (stbi : StbDecoder) (channels : Int) (size : Nat)
    (history : List ImageInput) (input : ImageInput) :
    lastDecodedFrame stbi channels size (history ++ [input]) =
      (decodedFrame stbi channels size input).getD
        (lastDecodedFrame stbi channels size history) := by
  simp [lastDecodedFrame, List.foldl_append]

theorem foldl_decodedFrame_length (stbi : StbDecoder) (channels : Int) (size : Nat)
    (hstb : StbContract stbi channels) (history : List ImageInput) (lf : List UInt8)
    (hlen : lf.length = size) :
    (history.foldl (fun frame input => (decodedFrame stbi channels size input).getD frame)
      lf).length = size := by
  induction history generalizing lf with
  | nil => exact hlen
  | cons input rest ih =>
    simp only [List.foldl_cons]
    apply ih
    cases hd : decodedFrame stbi channels size input with
    | none => simpa using hlen
    | some d => simpa using decodedFrame_length stbi channels size hstb input d hd

namespace sfun_zeromq_image

/-- One call of `mdlOutputs` in a started block serves the frame the receive
contributes, or else the stored frame, and stores what it serves. -/
theorem mdlOutputs_eq (stbi : StbDecoder) (c W : Int) (N : Nat) (hW : toSizeT W = N)
    (hc0 : c = 0 → N = 0) (hstb : StbContract stbi c) (input : ImageInput) (pw : PWork)
    (y lf : List UInt8) (hsock : pw.socket ≠ nullptr) (hlf : pw.last_frame = some lf)
    (hlen : lf.length = N) (hy : y.length = N) :
    mdlOutputs stbi c W input.1 input.2 pw y =
      some ((decodedFrame stbi c N input).getD lf,
        { pw with last_frame := some ((decodedFrame stbi c N input).getD lf) }) := by
  obtain ⟨topic, data⟩ := input
  obtain ⟨ctx, sock, lfo⟩ := pw
  simp only at hsock hlf
  subst hlf
  have hfall : memcpy y lf (toSizeT W) = lf := by
    rw [hW]
    exact memcpy_full y lf N hlen hy
  cases topic with
  | none => simp [mdlOutputs, decodedFrame, hsock, hfall]
  | some t =>
    cases data with
    | none => simp [mdlOutputs, decodedFrame, hsock, hfall]
    | some b =>
      cases himg : stbi b c with
      | none => simp [mdlOutputs, decodedFrame, hsock, hfall, himg]
      | some img =>
        obtain ⟨h0, h1, hdata⟩ := hstb b img himg
        simp only [mdlOutputs, decodedFrame, hsock, if_false, himg, hfall, hW]
        by_cases hc : c = 0
        · have hN : N = 0 := hc0 hc
          subst hc
          subst hN
          have hlf0 : lf = [] := List.length_eq_zero.mp hlen
          have hy0 : y = [] := List.length_eq_zero.mp hy
          subst hlf0 hy0
          have hz : toSizeT (wrapInt32 (wrapInt32 (img.x * img.y) * 0)) = 0 := by
            simp [wrapInt32, toSizeT]
          have hR : ∀ (P : Prop) [Decidable P], (P → img.data = []) →
              (if P then some img.data else none : Option (List UInt8)).getD [] = [] := by
            intro P _ hP
            by_cases hp : P
            · simp [hp, hP hp]
            · simp [hp]
          rw [hR _ (fun heq => List.length_eq_zero.mp (by exact_mod_cast hdata.trans heq))]
          simp only [hz, if_true, memcpy, List.take_zero, List.drop_zero, List.nil_append]
        · simp only [hc, if_false] at h0 h1 hdata ⊢
          rw [intProduct_of_range _ _ _ h0 h1, toSizeT_of_range _ h0 h1]
          generalize img.x * img.y * c = D at h0 h1 hdata ⊢
          by_cases hsz : D = (N : Int)
          · have hnat : D.toNat = N := by omega
            have hdl : img.data.length = N := by omega
            simp [hsz, hnat, memcpy_full _ _ _ hdl hy, memcpy_full _ _ _ hdl hlen]
          · have hnat : ¬ D.toNat = N := by omega
            simp [hsz, hnat, memcpy_full y lf N hlen hy]

/-- Successive calls of `mdlOutputs` in a started block serve and store the last
frame contributed by a receive, or the frame stored at the start when there has
been none. -/
theorem mdlOutputsAll_eq (stbi : StbDecoder) (c W : Int) (N : Nat) (hW : toSizeT W = N)
    (hc0 : c = 0 → N = 0) (hstb : StbContract stbi c) (rest : List ImageInput)
    (input : ImageInput) (pw : PWork) (y lf : List UInt8) (hsock : pw.socket ≠ nullptr)
    (hlf : pw.last_frame = some lf) (hlen : lf.length = N) (hy : y.length = N) :
    mdlOutputsAll stbi c W (input :: rest) pw y =
      some ((input :: rest).foldl
          (fun frame i => (decodedFrame stbi c N i).getD frame) lf,
        { pw with
          last_frame := some ((input :: rest).foldl
            (fun frame i => (decodedFrame stbi c N i).getD frame) lf) }) := by
  induction rest generalizing input pw y lf with
  | nil =>
    simp only [mdlOutputsAll, List.foldl_cons, List.foldl_nil,
      mdlOutputs_eq stbi c W N hW hc0 hstb input pw y lf hsock hlf hlen hy]
  | cons i2 rest ih =>
    have hlen1 : ((decodedFrame stbi c N input).getD lf).length = N :=
      foldl_decodedFrame_length stbi c N hstb [input] lf hlen
    rw [mdlOutputsAll, mdlOutputs_eq stbi c W N hW hc0 hstb input pw y lf hsock hlf hlen hy]
    simp only
    rw [ih i2 { pw with last_frame := some ((decodedFrame stbi c N input).getD lf) }
      ((decodedFrame stbi c N input).getD lf) ((decodedFrame stbi c N input).getD lf)
      hsock rfl hlen1 hlen1]
    simp only [List.foldl_cons]

/-- A start of the block that sets no error, with `calloc` returning a buffer,
leaves a socket and a zero frame of the width of the output port. -/
theorem mdlStart_started (zmq : Zmq) (address : String) (cam_id : List UInt8)
    (timeout_ms : Int) (bind_mode : Bool) (W : Int) (pw0 : PWork) (calls0 : List ZmqCall)
    (hstart : (mdlStart zmq true address cam_id timeout_ms bind_mode W pw0 calls0).2.2 =
      false) :
    (mdlStart zmq true address cam_id timeout_ms bind_mode W pw0 calls0).1.socket ≠ nullptr ∧
    (mdlStart zmq true address cam_id timeout_ms bind_mode W pw0 calls0).1.last_frame =
      some (List.replicate (toSizeT W) 0) := by
  simp only [mdlStart] at hstart ⊢
  cases bind_mode
  · simp only [Bool.false_eq_true, if_false] at hstart ⊢
    split_ifs at hstart ⊢ with h1 h2 h3
    exact ⟨h2, rfl⟩
  · simp only [eq_self_iff_true, if_true] at hstart ⊢
    split_ifs at hstart ⊢ with h1 h2 h3
    exact ⟨h2, rfl⟩

end sfun_zeromq_image

namespace mex_zeromq_handler

/-- One call of `image_receive` on an initialised receiver returns the frame the
receive contributes, or else the stored frame, and stores what it returns. -/
theorem image_receive_eq (zmq : Zmq) (stbi : StbDecoder) (N : Nat)
    (hstb : StbContract stbi 0) (input : ImageInput) (st : ZMQState) (calls : List ZmqCall)
    (hctx : st.context ≠ nullptr) (hinit : st.image_initialized = true)
    (hlen : st.last_frame_buffer.length = N) :
    image_receive zmq stbi input.1 input.2 st calls =
      { state :=
          { st with
            last_frame_buffer := (decodedFrame stbi 0 N input).getD st.last_frame_buffer },
        calls := calls,
        out := some ((decodedFrame stbi 0 N input).getD st.last_frame_buffer) } := by
  obtain ⟨topic, data⟩ := input
  obtain ⟨sctx, simg, sctl, lf, sinit, scinit⟩ := st
  simp only at hctx hinit hlen
  subst hinit
  have hcm : contextManagement zmq ⟨sctx, simg, sctl, lf, true, scinit⟩ calls =
      (true, ⟨sctx, simg, sctl, lf, true, scinit⟩, calls) := by
    simp [contextManagement, hctx]
  cases topic with
  | none => simp [image_receive, decodedFrame, hcm]
  | some t =>
    cases data with
    | none => simp [image_receive, decodedFrame, hcm]
    | some b =>
      cases himg : stbi b 0 with
      | none => simp [image_receive, decodedFrame, hcm, himg]
      | some img =>
        obtain ⟨h0, h1, hdata⟩ := hstb b img himg
        simp only [eq_self_iff_true, if_true] at h0 h1 hdata
        simp only [image_receive, decodedFrame, hcm, himg, Bool.not_true, Bool.false_eq_true,
          if_false, eq_self_iff_true, if_true]
        rw [intProduct_of_range _ _ _ h0 h1, toSizeT_of_range _ h0 h1, hlen]
        generalize img.x * img.y * img.n = D at h0 h1 hdata ⊢
        by_cases hsz : D = (N : Int)
        · have hnat : D.toNat = N := by omega
          have hdl : img.data.length = N := by omega
          simp [hsz, hnat, memcpy_full _ _ _ hdl hlen]
        · have hnat : ¬ D.toNat = N := by omega
          simp [hsz, hnat]

/-- Successive calls of `image_receive` on an initialised receiver return and
store the last frame contributed by a receive, or the frame stored at the start
when there has been none. -/
theorem image_receive_all_eq (zmq : Zmq) (stbi : StbDecoder) (N : Nat)
    (hstb : StbContract stbi 0) (rest : List ImageInput) (input : ImageInput)
    (st : ZMQState) (calls : List ZmqCall) (last : Option (List UInt8))
    (hctx : st.context ≠ nullptr) (hinit : st.image_initialized = true)
    (hlen : st.last_frame_buffer.length = N) :
    image_receive_all zmq stbi (input :: rest) st calls last =
      { state :=
          { st with
            last_frame_buffer := (input :: rest).foldl
              (fun frame i => (decodedFrame stbi 0 N i).getD frame) st.last_frame_buffer },
        calls := calls,
        out := some ((input :: rest).foldl
          (fun frame i => (decodedFrame stbi 0 N i).getD frame) st.last_frame_buffer) } := by
  induction rest generalizing input st calls last with
  | nil =>
    simp only [image_receive_all, List.foldl_cons, List.foldl_nil,
      image_receive_eq zmq stbi N hstb input st calls hctx hinit hlen]
  | cons i2 rest ih =>
    have hlen1 : ((decodedFrame stbi 0 N input).getD st.last_frame_buffer).length = N :=
      foldl_decodedFrame_length stbi 0 N hstb [input] st.last_frame_buffer hlen
    rw [image_receive_all, image_receive_eq zmq stbi N hstb input st calls hctx hinit hlen]
    simp only
    rw [ih i2
      { st with
        last_frame_buffer := (decodedFrame stbi 0 N input).getD st.last_frame_buffer }
      calls (some ((decodedFrame stbi 0 N input).getD st.last_frame_buffer)) hctx hinit hlen1]
    simp only [List.foldl_cons]

/-- A command `image_init` that returns on a receiver not yet initialised leaves
it initialised, with a context and a zero frame of `h * w * c` bytes, the `int`
product, which is not negative. -/
theorem image_init_initialised (zmq : Zmq) (address : String) (topic : List UInt8)
    (bind_mode : Bool) (timeout : Int) (h w c : Int) (st0 : ZMQState)
    (calls0 : List ZmqCall) (hfresh : st0.image_initialized = false)
    (hout : (image_init zmq address topic bind_mode timeout h w c st0 calls0).out = some ()) :
    (image_init zmq address topic bind_mode timeout h w c st0 calls0).state.context ≠
        nullptr ∧
      (image_init zmq address topic bind_mode timeout h w c st0
        calls0).state.image_initialized = true ∧
      (image_init zmq address topic bind_mode timeout h w c st0
        calls0).state.last_frame_buffer =
          List.replicate (toSizeT (wrapInt32 (wrapInt32 (h * w) * c))) 0 ∧
      0 ≤ wrapInt32 (wrapInt32 (h * w) * c) := by
  have hcm : (contextManagement zmq st0 calls0).2.1.image_initialized = false ∧
      ((contextManagement zmq st0 calls0).1 = true →
        (contextManagement zmq st0 calls0).2.1.context ≠ nullptr) := by
    simp only [contextManagement]
    split_ifs with h1 h2
    · exact ⟨hfresh, fun hf => absurd hf (by simp)⟩
    · exact ⟨hfresh, fun _ => h2⟩
    · exact ⟨hfresh, fun _ => h1⟩
  simp only [image_init] at hout ⊢
  generalize contextManagement zmq st0 calls0 = cm at hcm hout ⊢
  obtain ⟨ok, st1, calls1⟩ := cm
  obtain ⟨hni, hctx⟩ := hcm
  simp only at hni hctx hout ⊢
  rw [hni] at hout ⊢
  cases ok
  · simp at hout
  · have hctx1 := hctx rfl
    simp only [Bool.not_true, Bool.false_eq_true, if_false] at hout ⊢
    cases bind_mode
    · simp only [Bool.false_eq_true, if_false] at hout ⊢
      split_ifs at hout ⊢ with h3 h4
      exact ⟨hctx1, rfl, rfl, not_lt.mp h4⟩
    · simp only [eq_self_iff_true, if_true] at hout ⊢
      split_ifs at hout ⊢ with h3 h4
      exact ⟨hctx1, rfl, rfl, not_lt.mp h4⟩

end mex_zeromq_handler

/-- C21 (counterexample): with the configured height and width `65536` and one
channel, the width of the output port of the image block and the size of the
frame buffer of the MEX receiver are `0`, so both subscribers, started with
success, serve an empty frame and not one of `65536 * 65536 * 1` bytes. -/
theorem image_size_overflow :
    sfun_zeromq_image.outputPortWidth 65536 65536 1 = 0 ∧
    (sfun_zeromq_image.mdlStart zmqOk true "tcp://*:5555" [] 100 true
      (sfun_zeromq_image.outputPortWidth 65536 65536 1) {} []).2.2 = false ∧
    (sfun_zeromq_image.mdlOutputsAll stbOne 1 (sfun_zeromq_image.outputPortWidth 65536 65536 1)
      [(some [99], some [1])]
      (sfun_zeromq_image.mdlStart zmqOk true "tcp://*:5555" [] 100 true
        (sfun_zeromq_image.outputPortWidth 65536 65536 1) {} []).1 []).map
        (fun r => r.1.length) = some 0 ∧
    (mex_zeromq_handler.image_init zmqOk "tcp://*:5555" [] true 100 65536 65536 1 {} []).out =
      some () ∧
    ((mex_zeromq_handler.image_receive_all zmqOk stbOne [(some [99], some [1])]
      (mex_zeromq_handler.image_init zmqOk "tcp://*:5555" [] true 100 65536 65536 1 {}
        []).state
      (mex_zeromq_handler.image_init zmqOk "tcp://*:5555" [] true 100 65536 65536 1 {}
        []).calls none).out.map fun r => r.length) = some 0 ∧
    (65536 * 65536 * 1 : Int) ≠ 0 := by
  decide

/-- C21 (amended): for a configured size `h * w * c` that fits an `int` (`N`
bytes, below `2 ^ 31`) and a codec that keeps its contract, in an image block
started without error (`calloc` having returned its buffer) and in a MEX receiver
on which `image_init` has returned, after every history of receives: the output
of the last call is the last successfully decoded frame of the history
(`lastDecodedFrame`: the decoded bytes of the last receive in which topic and
data arrived and the data decoded to the configured size, the frame of `N` zero
bytes when there has been none), and that frame is the one stored afterwards.  So
when the last receive fails, the decode fails or the decoded size differs, the
output is the frame that was stored before the call, which stays stored; when the
decode succeeds with the configured size, the output and the stored frame are the
decoded bytes.  The output always has `N` bytes. -/
theorem image_subscribers_last_frame (zmq : Zmq) (stbi : StbDecoder) (h w c : Int) (N : Nat)
    (history : List ImageInput) (input : ImageInput) (address : String)
    (cam_id : List UInt8) (timeout_ms : Int) (bind_mode : Bool)
    (pw0 : sfun_zeromq_image.PWork) (y0 : List UInt8) (st0 : mex_zeromq_handler.ZMQState)
    (calls0 : List ZmqCall)
    (hN : (N : Int) = h * w * c) (hfit : h * w * c < 2147483648)
    (hstb : StbContract stbi c) (hstb0 : StbContract stbi 0) (hy : y0.length = N)
    (hstart : (sfun_zeromq_image.mdlStart zmq true address cam_id timeout_ms bind_mode
      (sfun_zeromq_image.outputPortWidth h w c) pw0 calls0).2.2 = false)
    (hfresh : st0.image_initialized = false)
    (hinit : (mex_zeromq_handler.image_init zmq address cam_id bind_mode timeout_ms h w c st0
      calls0).out = some ()) :
    (∀ ch, decodedFrame stbi ch N input = none →
      lastDecodedFrame stbi ch N (history ++ [input]) = lastDecodedFrame stbi ch N history) ∧
    (∀ ch d, decodedFrame stbi ch N input = some d →
      lastDecodedFrame stbi ch N (history ++ [input]) = d) ∧
    (∃ y, sfun_zeromq_image.mdlOutputsAll stbi c (sfun_zeromq_image.outputPortWidth h w c)
        history
        (sfun_zeromq_image.mdlStart zmq true address cam_id timeout_ms bind_mode
          (sfun_zeromq_image.outputPortWidth h w c) pw0 calls0).1 y0 =
      some (y,
        { (sfun_zeromq_image.mdlStart zmq true address cam_id timeout_ms bind_mode
            (sfun_zeromq_image.outputPortWidth h w c) pw0 calls0).1 with
          last_frame := some (lastDecodedFrame stbi c N history) })) ∧
    sfun_zeromq_image.mdlOutputsAll stbi c (sfun_zeromq_image.outputPortWidth h w c)
        (history ++ [input])
        (sfun_zeromq_image.mdlStart zmq true address cam_id timeout_ms bind_mode
          (sfun_zeromq_image.outputPortWidth h w c) pw0 calls0).1 y0 =
      some (lastDecodedFrame stbi c N (history ++ [input]),
        { (sfun_zeromq_image.mdlStart zmq true address cam_id timeout_ms bind_mode
            (sfun_zeromq_image.outputPortWidth h w c) pw0 calls0).1 with
          last_frame := some (lastDecodedFrame stbi c N (history ++ [input])) }) ∧
    (lastDecodedFrame stbi c N (history ++ [input])).length = N ∧
    (mex_zeromq_handler.image_receive_all zmq stbi history
      (mex_zeromq_handler.image_init zmq address cam_id bind_mode timeout_ms h w c st0
        calls0).state
      (mex_zeromq_handler.image_init zmq address cam_id bind_mode timeout_ms h w c st0
        calls0).calls none).state.last_frame_buffer = lastDecodedFrame stbi 0 N history ∧
    (mex_zeromq_handler.image_receive_all zmq stbi (history ++ [input])
      (mex_zeromq_handler.image_init zmq address cam_id bind_mode timeout_ms h w c st0
        calls0).state
      (mex_zeromq_handler.image_init zmq address cam_id bind_mode timeout_ms h w c st0
        calls0).calls none).out = some (lastDecodedFrame stbi 0 N (history ++ [input])) ∧
    (mex_zeromq_handler.image_receive_all zmq stbi (history ++ [input])
      (mex_zeromq_handler.image_init zmq address cam_id bind_mode timeout_ms h w c st0
        calls0).state
      (mex_zeromq_handler.image_init zmq address cam_id bind_mode timeout_ms h w c st0
        calls0).calls none).state.last_frame_buffer =
      lastDecodedFrame stbi 0 N (history ++ [input]) ∧
    (lastDecodedFrame stbi 0 N (history ++ [input])).length = N := by
  have h0 : 0 ≤ h * w * c := by rw [← hN]; exact Int.natCast_nonneg N
  have hprod : wrapInt32 (wrapInt32 (h * w) * c) = h * w * c :=
    intProduct_of_range h w c h0 hfit
  have hnat : (h * w * c).toNat = N := by omega
  have hW : toSizeT (sfun_zeromq_image.outputPortWidth h w c) = N := by
    unfold sfun_zeromq_image.outputPortWidth
    rw [hprod, toSizeT_of_range _ h0 hfit, hnat]
  have hc0 : c = 0 → N = 0 := by
    intro hc
    subst hc
    simp only [mul_zero] at hN
    exact_mod_cast hN
  obtain ⟨hsock, hlast⟩ := sfun_zeromq_image.mdlStart_started zmq address cam_id timeout_ms
    bind_mode (sfun_zeromq_image.outputPortWidth h w c) pw0 calls0 hstart
  rw [hW] at hlast
  obtain ⟨hctx, hini, hbuf, _⟩ := mex_zeromq_handler.image_init_initialised zmq address cam_id
    bind_mode timeout_ms h w c st0 calls0 hfresh hinit
  rw [hprod, toSizeT_of_range _ h0 hfit, hnat] at hbuf
  generalize (sfun_zeromq_image.mdlStart zmq true address cam_id timeout_ms bind_mode
    (sfun_zeromq_image.outputPortWidth h w c) pw0 calls0).1 = pw at hsock hlast ⊢
  generalize mex_zeromq_handler.image_init zmq address cam_id bind_mode timeout_ms h w c st0
    calls0 = ini at hctx hini hbuf ⊢
  have hzero : (List.replicate N (0 : UInt8)).length = N := List.length_replicate _ _
  have hsfun : ∀ (i : ImageInput) (l : List ImageInput),
      sfun_zeromq_image.mdlOutputsAll stbi c (sfun_zeromq_image.outputPortWidth h w c)
          (i :: l) pw y0 =
        some (lastDecodedFrame stbi c N (i :: l),
          { pw with last_frame := some (lastDecodedFrame stbi c N (i :: l)) }) := by
    intro i l
    exact sfun_zeromq_image.mdlOutputsAll_eq stbi c _ N hW hc0 hstb l i pw y0
      (List.replicate N 0) hsock hlast hzero hy
  have hmex : ∀ (i : ImageInput) (l : List ImageInput),
      mex_zeromq_handler.image_receive_all zmq stbi (i :: l) ini.state ini.calls none =
        { state := { ini.state with last_frame_buffer := lastDecodedFrame stbi 0 N (i :: l) },
          calls := ini.calls, out := some (lastDecodedFrame stbi 0 N (i :: l)) } := by
    intro i l
    have hlen : ini.state.last_frame_buffer.length = N := by rw [hbuf]; exact hzero
    have := mex_zeromq_handler.image_receive_all_eq zmq stbi N hstb0 l i ini.state ini.calls
      none hctx hini hlen
    rw [hbuf] at this
    exact this
  obtain ⟨a, l, hal⟩ : ∃ a l, history ++ [input] = a :: l := by
    cases history with
    | nil => exact ⟨input, [], rfl⟩
    | cons a t => exact ⟨a, t ++ [input], rfl⟩
  refine ⟨?_, ?_, ?_, ?_, ?_, ?_, ?_, ?_, ?_⟩
  · intro ch hd
    rw [lastDecodedFrame_snoc, hd]
    rfl
  · intro ch d hd
    rw [lastDecodedFrame_snoc, hd]
    rfl
  · cases history with
    | nil =>
      refine ⟨y0, ?_⟩
      obtain ⟨pctx, psock, plf⟩ := pw
      simp only at hlast
      subst hlast
      rfl
    | cons i t => exact ⟨_, hsfun i t⟩
  · rw [hal]
    exact hsfun a l
  · exact foldl_decodedFrame_length stbi c N hstb _ _ hzero
  · cases history with
    | nil => exact hbuf
    | cons i t => rw [hmex i t]
  · rw [hal, hmex a l]
  · rw [hal, hmex a l]
  · exact foldl_decodedFrame_length stbi 0 N hstb0 _ _ hzero

theorem image_subscribers_last_frame_witness :
    StbContract stbOne 1 ∧ StbContract stbOne 0 ∧
    (sfun_zeromq_image.mdlStart zmqOk true "tcp://*:5555" [] 100 true
      (sfun_zeromq_image.outputPortWidth 1 2 1) {} []).2.2 = false ∧
    (mex_zeromq_handler.image_init zmqOk "tcp://*:5555" [] true 100 1 2 1 {} []).out =
      some () ∧
    sfun_zeromq_image.mdlOutputsAll stbOne 1 (sfun_zeromq_image.outputPortWidth 1 2 1)
        [(some [99], some [1]), (some [99], none)]
        (sfun_zeromq_image.mdlStart zmqOk true "tcp://*:5555" [] 100 true
          (sfun_zeromq_image.outputPortWidth 1 2 1) {} []).1 [0, 0] =
      some ([7, 8], { ctx := 1, socket := 2, last_frame := some [7, 8] }) ∧
    (mex_zeromq_handler.image_receive_all zmqOk stbOne
      [(some [99], some [1]), (some [99], none)]
      (mex_zeromq_handler.image_init zmqOk "tcp://*:5555" [] true 100 1 2 1 {} []).state
      (mex_zeromq_handler.image_init zmqOk "tcp://*:5555" [] true 100 1 2 1 {} []).calls
      none).out = some [7, 8] :=
  have hc1 : StbContract stbOne 1 := by
    intro buf img himg
    unfold stbOne at himg
    split_ifs at himg
    cases himg
    decide
  have hc0 : StbContract stbOne 0 := by
    intro buf img himg
    unfold stbOne at himg
    split_ifs at himg
    cases himg
    decide
  have h1 := image_subscribers_last_frame zmqOk stbOne 1 2 1 2 [(some [99], some [1])]
    (some [99], none) "tcp://*:5555" [] 100 true {} [0, 0] {} [] (by decide) (by decide)
    hc1 hc0 rfl (by decide) rfl (by decide)
  ⟨hc1, hc0, by decide, by decide, h1.2.2.2.1, h1.2.2.2.2.2.2.1⟩

/-! ## The command wire format -/

/-- C25: for every target id `t` and numbers `x`, `y`, `z`, `roll`, `pitch`,
`yaw`, the document that the control block (with a socket) and the command
`control_send` of the MEX handler (initialised) build and send is
`controlMessage`: its `type` is `"actor_transform"`, its `target_id` is `t`, its
`location` has `x`, `y`, `z` and its `rotation` has `roll`, `pitch`, `yaw`; the
bytes sent are its serialisation; and the decoder of the command subscriber
turns that document, whatever its uninitialised locals hold, into the transform
with id `t`, location `(x, y, z)` and rotation of that roll, pitch and yaw. -/
theorem control_wire_format {ν : Type} [Zero ν] [One ν] (E : JsonText ν)
    (u : Indeterminate ν) (zmq : Zmq) (dump : FJsonObject ν → List UInt8) (t : String)
    (x y z roll pitch yaw : ν) (pw : sfun_zeromq_control.PWork)
    (st : mex_zeromq_handler.ZMQState) (calls : List ZmqCall)
    (hsock : pw.socket ≠ nullptr) (hctx : st.context ≠ nullptr)
    (hinit : st.control_initialized = true) :
    (sfun_zeromq_control.mdlOutputs zmq dump t x y z roll pitch yaw pw calls).1 =
        some (controlMessage t x y z roll pitch yaw) ∧
      sends (sfun_zeromq_control.mdlOutputs zmq dump t x y z roll pitch yaw pw calls).2 =
        sends calls ++ [(pw.socket, dump (controlMessage t x y z roll pitch yaw), 0)] ∧
      (mex_zeromq_handler.control_send zmq dump t x y z roll pitch yaw st calls).out =
        some (controlMessage t x y z roll pitch yaw) ∧
      sends (mex_zeromq_handler.control_send zmq dump t x y z roll pitch yaw st calls).calls =
        sends calls ++ [(st.control_socket, dump (controlMessage t x y z roll pitch yaw), 0)] ∧
      TMap.Find (controlMessage t x y z roll pitch yaw) "type" =
        some (FJsonValue.string "actor_transform") ∧
      TMap.Find (controlMessage t x y z roll pitch yaw) "target_id" =
        some (FJsonValue.string t) ∧
      TMap.Find (controlMessage t x y z roll pitch yaw) "location" =
        some (FJsonValue.object
          [("x", FJsonValue.number x), ("y", FJsonValue.number y),
            ("z", FJsonValue.number z)]) ∧
      TMap.Find (controlMessage t x y z roll pitch yaw) "rotation" =
        some (FJsonValue.object
          [("pitch", FJsonValue.number pitch), ("roll", FJsonValue.number roll),
            ("yaw", FJsonValue.number yaw)]) ∧
      FZeroMQReceiverWorker.DecodeTransform E u (controlMessage t x y z roll pitch yaw) =
        some { Location := { X := x, Y := y, Z := z },
               Rotation := { Pitch := pitch, Yaw := yaw, Roll := roll }, CameraID := t } := by
  have hcm : mex_zeromq_handler.contextManagement zmq st calls = (true, st, calls) := by
    simp [mex_zeromq_handler.contextManagement, hctx]
  refine ⟨?_, ?_, ?_, ?_, ?_, ?_, ?_, ?_, ?_⟩
  · simp [sfun_zeromq_control.mdlOutputs, hsock]
  · simp [sfun_zeromq_control.mdlOutputs, hsock, sends_append, sends]
  · simp [mex_zeromq_handler.control_send, hcm, hinit]
  · simp [mex_zeromq_handler.control_send, hcm, hinit, sends_append, sends]
  · rfl
  · rfl
  · rfl
  · rfl
  · rfl

theorem control_wire_format_witness :
    (sfun_zeromq_control.mdlOutputs zmqOk (fun _ => [1]) "cam1" (1 : Int) 2 3 0 0 90
        { ctx := 1, socket := 2 } []).1 = some (controlMessage "cam1" 1 2 3 0 0 90) ∧
    (mex_zeromq_handler.control_send zmqOk (fun _ => [1]) "cam1" (1 : Int) 2 3 0 0 90
        mexReady []).out = some (controlMessage "cam1" 1 2 3 0 0 90) ∧
    FZeroMQReceiverWorker.DecodeTransform intText junk (controlMessage "cam1" 1 2 3 0 0 90) =
      some { Location := { X := 1, Y := 2, Z := 3 },
             Rotation := { Pitch := 0, Yaw := 90, Roll := 0 }, CameraID := "cam1" } :=
  have h := control_wire_format intText junk zmqOk (fun _ => [1]) "cam1" 1 2 3 0 0 90
    { ctx := 1, socket := 2 } mexReady [] (by decide) (by decide) rfl
  ⟨h.1, h.2.2.1, h.2.2.2.2.2.2.2.2⟩

/-! ## Socket options -/

/-- C26 (counterexample): a registration that succeeds makes two library calls,
`zmq_socket` and `zmq_bind`; the image publisher socket `1` it stores is bound
without any option having been set on it. -/
theorem RegisterCamera_sets_no_option :
    (UZeroMQCommunicationSubsystem.RegisterCamera zmqOk runningEmpty [] (some {})).2 =
        [ZmqCall.socket runningEmpty.ZMQContext ZMQ_PUB 1,
          ZmqCall.bind 1 (bindAddress 5555) 0] ∧
      TMap.Find (UZeroMQCommunicationSubsystem.RegisterCamera zmqOk runningEmpty []
        (some {})).1.CameraConnections "Camera01" = some { Socket := 1 } := by
  decide

/-- C26 (amended): a start of the control block that sets no error has made
exactly these calls: context, publish socket, `ZMQ_SNDHWM` 1000 and `ZMQ_LINGER`
0 on that socket, then the bind.  A start of the image block that sets no error,
and a command `image_init` that returns, have created the subscribe socket, set
the subscribe filter and `ZMQ_RCVTIMEO` on it, and then bound or connected it.
And `RegisterCamera` adds no `zmq_setsockopt` call to the log. -/
theorem socket_options_before_bind (zmq : Zmq) (address : String) (calls : List ZmqCall)
    (pwc : sfun_zeromq_control.PWork) (pwi : sfun_zeromq_image.PWork) (calloc_ok : Bool)
    (cam_id : List UInt8) (timeout_ms : Int) (bind_mode : Bool) (out_width h w c : Int)
    (st0 : mex_zeromq_handler.ZMQState) (self : UZeroMQCommunicationSubsystem)
    (CameraActor : Option AZeroMQCameraActor) :
    ((sfun_zeromq_control.mdlStart zmq address pwc calls).2.2 = false →
      ∃ ctx s r1 r2, ctx ≠ nullptr ∧ s ≠ nullptr ∧
        (sfun_zeromq_control.mdlStart zmq address pwc calls).1 = { ctx := ctx, socket := s } ∧
        (sfun_zeromq_control.mdlStart zmq address pwc calls).2.1 =
          calls ++ [ZmqCall.ctx_new ctx, ZmqCall.socket ctx ZMQ_PUB s,
            ZmqCall.setsockopt s ZMQ_SNDHWM (OptVal.int 1000) r1,
            ZmqCall.setsockopt s ZMQ_LINGER (OptVal.int 0) r2,
            ZmqCall.bind s address 0]) ∧
    ((sfun_zeromq_image.mdlStart zmq calloc_ok address cam_id timeout_ms bind_mode out_width
        pwi calls).2.2 = false →
      ∃ ctx s r1 r2 e, ctx ≠ nullptr ∧ s ≠ nullptr ∧
        (e = ZmqCall.bind s address 0 ∨ e = ZmqCall.connect s address 0) ∧
        (sfun_zeromq_image.mdlStart zmq calloc_ok address cam_id timeout_ms bind_mode
          out_width pwi calls).2.1 =
          calls ++ [ZmqCall.ctx_new ctx, ZmqCall.socket ctx ZMQ_SUB s,
            ZmqCall.setsockopt s ZMQ_SUBSCRIBE (OptVal.bytes cam_id) r1,
            ZmqCall.setsockopt s ZMQ_RCVTIMEO (OptVal.int timeout_ms) r2, e]) ∧
    (st0.image_initialized = false →
      (mex_zeromq_handler.image_init zmq address cam_id bind_mode timeout_ms h w c st0
        calls).out = some () →
      ∃ s r1 r2 e,
        (e = ZmqCall.bind s address 0 ∨ e = ZmqCall.connect s address 0) ∧
        (mex_zeromq_handler.image_init zmq address cam_id bind_mode timeout_ms h w c st0
          calls).calls =
          (mex_zeromq_handler.contextManagement zmq st0 calls).2.2 ++
            [ZmqCall.socket (mex_zeromq_handler.contextManagement zmq st0 calls).2.1.context
                ZMQ_SUB s,
              ZmqCall.setsockopt s ZMQ_SUBSCRIBE (OptVal.bytes cam_id) r1,
              ZmqCall.setsockopt s ZMQ_RCVTIMEO (OptVal.int timeout_ms) r2, e]) ∧
    (∀ s option value ret,
      ZmqCall.setsockopt s option value ret ∈
          (UZeroMQCommunicationSubsystem.RegisterCamera zmq self calls CameraActor).2 →
        ZmqCall.setsockopt s option value ret ∈ calls) := by
  refine ⟨?_, ?_, ?_, ?_⟩
  · intro herr
    simp only [sfun_zeromq_control.mdlStart] at herr ⊢
    split_ifs at herr ⊢ with h1 h2 h3
    simp only [ne_eq, not_not] at h3
    exact ⟨_, _, _, _, h1, h2, rfl, by
      rw [h3]
      simp only [List.append_assoc, List.cons_append, List.nil_append]
      rfl⟩
  · intro herr
    simp only [sfun_zeromq_image.mdlStart] at herr ⊢
    generalize (if calloc_ok = true then some (List.replicate (toSizeT out_width) (0 : UInt8))
      else none) = lf0 at herr ⊢
    cases bind_mode
    · simp only [Bool.false_eq_true, if_false] at herr ⊢
      split_ifs at herr ⊢ with h1 h2 h3
      simp only [ne_eq, not_not] at h3
      exact ⟨_, _, _, _, _, h1, h2, Or.inr rfl, by
        rw [h3]
        simp only [List.append_assoc, List.cons_append, List.nil_append]
        rfl⟩
    · simp only [eq_self_iff_true, if_true] at herr ⊢
      split_ifs at herr ⊢ with h1 h2 h3
      simp only [ne_eq, not_not] at h3
      exact ⟨_, _, _, _, _, h1, h2, Or.inl rfl, by
        rw [h3]
        simp only [List.append_assoc, List.cons_append, List.nil_append]
        rfl⟩
  · intro hni hout
    have hni2 : (mex_zeromq_handler.contextManagement zmq st0 calls).2.1.image_initialized =
        false := by
      simp only [mex_zeromq_handler.contextManagement]
      split_ifs <;> exact hni
    simp only [mex_zeromq_handler.image_init] at hout ⊢
    generalize mex_zeromq_handler.contextManagement zmq st0 calls = cm at hni2 hout ⊢
    obtain ⟨ok, st1, calls1⟩ := cm
    simp only at hni2 hout ⊢
    rw [hni2] at hout ⊢
    cases bind_mode
    · simp only [Bool.false_eq_true, if_false] at hout ⊢
      split_ifs at hout ⊢ with h1 h3
      simp only [ne_eq, not_not] at h3
      exact ⟨_, _, _, _, Or.inr rfl, by
        rw [h3]
        simp only [List.append_assoc, List.cons_append, List.nil_append]
        rfl⟩
    · simp only [Bool.false_eq_true, if_false, eq_self_iff_true, if_true] at hout ⊢
      split_ifs at hout ⊢ with h1 h3
      simp only [ne_eq, not_not] at h3
      exact ⟨_, _, _, _, Or.inl rfl, by
        rw [h3]
        simp only [List.append_assoc, List.cons_append, List.nil_append]
        rfl⟩
  · intro s option value ret hmem
    cases CameraActor with
    | none => exact hmem
    | some actor =>
      simp only [UZeroMQCommunicationSubsystem.RegisterCamera] at hmem
      cases hb : actor.bImageBindMode <;> rw [hb] at hmem <;>
        simp only [Bool.false_eq_true, if_false, eq_self_iff_true, if_true] at hmem <;>
        split_ifs at hmem <;> simp at hmem <;> exact hmem

theorem socket_options_before_bind_witness :
    (sfun_zeromq_control.mdlStart zmqOk "tcp://*:5556" {} []).2.2 = false ∧
    (sfun_zeromq_control.mdlStart zmqOk "tcp://*:5556" {} []).2.1 =
      [ZmqCall.ctx_new 1, ZmqCall.socket 1 ZMQ_PUB 2,
        ZmqCall.setsockopt 2 ZMQ_SNDHWM (OptVal.int 1000) 0,
        ZmqCall.setsockopt 2 ZMQ_LINGER (OptVal.int 0) 0,
        ZmqCall.bind 2 "tcp://*:5556" 0] ∧
    (∃ ctx s r1 r2, ctx ≠ nullptr ∧ s ≠ nullptr ∧
      (sfun_zeromq_control.mdlStart zmqOk "tcp://*:5556" {} []).1 =
        { ctx := ctx, socket := s } ∧
      (sfun_zeromq_control.mdlStart zmqOk "tcp://*:5556" {} []).2.1 =
        [] ++ [ZmqCall.ctx_new ctx, ZmqCall.socket ctx ZMQ_PUB s,
          ZmqCall.setsockopt s ZMQ_SNDHWM (OptVal.int 1000) r1,
          ZmqCall.setsockopt s ZMQ_LINGER (OptVal.int 0) r2,
          ZmqCall.bind s "tcp://*:5556" 0]) :=
  ⟨by decide, by decide,
    (socket_options_before_bind zmqOk "tcp://*:5556" [] {} {} true [] 100 true 2 1 2 1 {}
      runningEmpty none).1 (by decide)⟩

/-! ## The registry lock -/

theorem lockedFrom_drainSync (CameraConnections : TMap FCameraConnection)
    (queue : List ImageItem) :
    lockedFrom false (FZeroMQWorkerThread.drainSync CameraConnections queue) = true := by
  induction queue with
  | nil => rfl
  | cons item rest ih =>
    unfold FZeroMQWorkerThread.drainSync
    cases TMap.Find CameraConnections item.1 with
    | none => simpa [lockedFrom] using ih
    | some c => simpa [lockedFrom] using ih

theorem lockedFrom_closeStored (sockets : List Handle) (rest : List SyncEvent) :
    lockedFrom true ((sockets.map fun s => SyncEvent.CloseStored s) ++ rest) =
      lockedFrom true rest := by
  induction sockets with
  | nil => rfl
  | cons s more ih => simpa [lockedFrom] using ih

/-- C27 (counterexample): the duplicate check of `RegisterCamera` reads the
registry map while the lock is not held, both in a call that finds the id
registered and in a call that registers it. -/
theorem RegisterCamera_check_unlocked :
    UZeroMQCommunicationSubsystem.RegisterCameraSync zmqOk runningOne [] (some {}) =
        [SyncEvent.Contains] ∧
      lockedFrom false
        (UZeroMQCommunicationSubsystem.RegisterCameraSync zmqOk runningOne [] (some {})) =
        false ∧
      UZeroMQCommunicationSubsystem.RegisterCameraSync zmqOk runningEmpty [] (some {}) =
        [SyncEvent.Contains, SyncEvent.Lock, SyncEvent.Add, SyncEvent.Unlock] ∧
      lockedFrom false
        (UZeroMQCommunicationSubsystem.RegisterCameraSync zmqOk runningEmpty [] (some {})) =
        false := by
  decide

/-- C27 (amended): apart from the duplicate check of `RegisterCamera`, every
access to the registry map is made while the registry lock is held: the events
of `RegisterCamera` are none, or the check `Contains` followed by events that
keep the lock discipline (the insert is inside the lock); the events of
`UnregisterCamera`, of `ShutdownZeroMQ` and of the worker's pass over the queue
keep the lock discipline; and for an item whose id is registered the worker
takes the lock, looks the socket up, sends on it and only then releases the
lock. -/
theorem registry_lock_discipline (zmq : Zmq) (self : UZeroMQCommunicationSubsystem)
    (calls : List ZmqCall) (CameraActor : Option AZeroMQCameraActor) (CameraID : String)
    (conns : TMap FCameraConnection) (queue : List ImageItem) :
    (UZeroMQCommunicationSubsystem.RegisterCameraSync zmq self calls CameraActor = [] ∨
      ∃ tail, UZeroMQCommunicationSubsystem.RegisterCameraSync zmq self calls CameraActor =
          SyncEvent.Contains :: tail ∧ lockedFrom false tail = true ∧
        SyncEvent.Contains ∉ tail) ∧
    lockedFrom false (UZeroMQCommunicationSubsystem.UnregisterCameraSync self CameraID) =
      true ∧
    lockedFrom false (UZeroMQCommunicationSubsystem.ShutdownZeroMQSync self) = true ∧
    lockedFrom false (FZeroMQWorkerThread.drainSync conns queue) = true ∧
    ∀ (item : ImageItem) (c : FCameraConnection), TMap.Find conns item.1 = some c →
      FZeroMQWorkerThread.drainSync conns (item :: queue) =
        [SyncEvent.Lock, SyncEvent.Find, SyncEvent.SendImageMessage c.Socket,
          SyncEvent.Unlock] ++ FZeroMQWorkerThread.drainSync conns queue := by
  refine ⟨?_, ?_, ?_, lockedFrom_drainSync conns queue, ?_⟩
  · cases CameraActor with
    | none => exact Or.inl rfl
    | some actor =>
      simp only [UZeroMQCommunicationSubsystem.RegisterCameraSync]
      split_ifs
      all_goals first
        | exact Or.inl rfl
        | exact Or.inr ⟨_, rfl, rfl, by simp⟩
  · unfold UZeroMQCommunicationSubsystem.UnregisterCameraSync
    split_ifs
    · rfl
    · cases TMap.Find self.CameraConnections CameraID <;> rfl
  · unfold UZeroMQCommunicationSubsystem.ShutdownZeroMQSync
    have h := lockedFrom_closeStored (self.CameraConnections.map fun Elem => Elem.2.Socket)
      [SyncEvent.Empty, SyncEvent.Unlock]
    simp only [List.map_map] at h
    simp only [List.append_assoc, List.cons_append, List.nil_append, lockedFrom,
      Bool.not_false, Bool.true_and]
    exact h.trans rfl
  · intro item c hfind
    simp only [FZeroMQWorkerThread.drainSync, hfind]


theorem registry_lock_discipline_witness :
    TMap.Find runningOne.CameraConnections "Camera01" = some { Socket := 7 } ∧
    FZeroMQWorkerThread.drainSync runningOne.CameraConnections
        [("Camera01", [1, 2]), ("Camera02", [3])] =
      [SyncEvent.Lock, SyncEvent.Find, SyncEvent.SendImageMessage 7, SyncEvent.Unlock] ++
        FZeroMQWorkerThread.drainSync runningOne.CameraConnections [("Camera02", [3])] ∧
    lockedFrom false (UZeroMQCommunicationSubsystem.UnregisterCameraSync runningOne "Camera01") =
      true :=
  ⟨rfl,
    (registry_lock_discipline zmqOk runningOne [] (some {}) "Camera01"
      runningOne.CameraConnections [("Camera02", [3])]).2.2.2.2 ("Camera01", [1, 2])
      { Socket := 7 } rfl,
    (registry_lock_discipline zmqOk runningOne [] (some {}) "Camera01"
      runningOne.CameraConnections [("Camera02", [3])]).2.1⟩

end UE5Com
